import Mathlib

/-!
Verification of the gold_to_neo4j feedback/interactions pipeline.

This file shallowly embeds the three source modules of the repository:

* `src/pipelines/b2c_interactions_pipeline.py`
* `src/pipelines/b2b_interactions_pipeline.py`
* `src/workers/runner.py`

Python dicts produced by `collections.defaultdict` are embedded as
insertion-ordered association lists (the key set and per-key record content
are what the theorems are about; `list(agg.values())` is the `map Prod.snd`
of that association list).  Timestamps are `Nat`; nullable columns are
`Option`; the Cypher strings built by the pipelines are embedded as graph
transformations over an explicit node/edge multiset (lists), mirroring the
MERGE / SET / DELETE / DETACH DELETE clauses of the query texts.
-/

/-- Association-list lookup by key (first match), used to embed Python dict
reads. -/
def lookupKey {κ ρ : Type} [DecidableEq κ] : List (κ × ρ) → κ → Option ρ
  | [], _ => none
  | (k', r) :: tl, k => if k' = k then some r else lookupKey tl k

/-- Embedding of `entry = agg[k]` followed by an in-place mutation of `entry`
for a `defaultdict`: if `k` is present its record is updated in place by `f`;
otherwise the default record `d` is passed through `f` and appended (Python
dicts preserve insertion order). -/
def bump {κ ρ : Type} [DecidableEq κ] : List (κ × ρ) → κ → ρ → (ρ → ρ) → List (κ × ρ)
  | [], k, d, f => [(k, f d)]
  | (k', r) :: tl, k, d, f =>
      if k' = k then (k, f r) :: tl else (k', r) :: bump tl k d f

/-- Keys of an association list, in insertion order. -/
def keysOf {κ ρ : Type} (m : List (κ × ρ)) : List κ := m.map Prod.fst

/-- One step of the in-loop `last_*` update
`max(old, ts) if old else ts` (the stored value is `None` before the first
contributing row; a `datetime` is never falsy in Python, so the falsy test is
exactly the `None` test). -/
def maxStep (o : Option Nat) (t : Nat) : Option Nat :=
  match o with
  | none => some t
  | some m => some (max m t)

/-- One step of the in-loop `first_*` update
`min(old, ts) if old else ts`. -/
def minStep (o : Option Nat) (t : Nat) : Option Nat :=
  match o with
  | none => some t
  | some m => some (min m t)

/-- Maximum of a list of timestamps, `none` on the empty list. -/
def listMax (l : List Nat) : Option Nat := l.foldl maxStep none

/-- Minimum of a list of timestamps, `none` on the empty list. -/
def listMin (l : List Nat) : Option Nat := l.foldl minStep none

/-! ## Source rows (B2C pipeline)

Rows returned by the data loaders of `B2CInteractionsPipeline`
(`load_recipe_history`, `load_saved_recipes`, `load_recipe_ratings`,
`load_product_interactions`, `load_user`). -/

/-- A row of `recipe_history`: `SELECT recipe_id, event_type, event_at`. -/
structure HistoryRow where
  recipe_id : String
  event_type : String
  event_at : Nat
deriving DecidableEq

/-- A row of `saved_recipes`: `SELECT recipe_id, saved_at`. -/
structure SavedRow where
  recipe_id : String
  saved_at : Nat
deriving DecidableEq

/-- A row of `recipe_ratings`: `SELECT recipe_id, rating, created_at`. -/
structure RatingRow where
  recipe_id : String
  rating : Nat
  created_at : Nat
deriving DecidableEq

/-- A row of `customer_product_interactions`:
`SELECT product_id, interaction_type, rating, quantity, price_paid,
interaction_timestamp`.  `rating`, `quantity`, `price_paid` are nullable. -/
structure ProductInteractionRow where
  product_id : String
  interaction_type : String
  rating : Option Nat
  quantity : Option Nat
  price_paid : Option Nat
  interaction_timestamp : Nat
deriving DecidableEq

/-- The `b2c_customers` row loaded by `load_user`. -/
structure B2CUserRow where
  id : String
  email : String
  full_name : String
  updated_at : Nat
deriving DecidableEq

/-! ## Source rows (B2B pipeline) -/

/-- A row of `vendor_user_actions`: `SELECT product_id, action_type,
created_at` (rows with NULL product_id are filtered out by the SQL). -/
structure ActionRow where
  product_id : String
  action_type : String
  created_at : Nat
deriving DecidableEq

/-- A row of `match_feedback`: `SELECT source_product_id, target_product_id,
feedback_type, reason, created_at`.  `reason` is nullable. -/
structure FeedbackRow where
  source_product_id : String
  target_product_id : String
  feedback_type : String
  reason : Option String
  created_at : Nat
deriving DecidableEq

/-- The `vendor_users JOIN vendors` row loaded by `load_vendor_user`. -/
structure B2BUserRow where
  id : String
  email : String
  role : String
  updated_at : Nat
  vendor_id : String
  vendor_name : String
deriving DecidableEq

/-! ## Aggregate records

The per-counterparty summary dicts built by the aggregators; each field's
default is the default of the corresponding `defaultdict` entry. -/

/-- The per-recipe record of `B2CInteractionsPipeline.aggregate_recipes`. -/
structure RecipeRec where
  recipe_id : Option String := none
  views_count : Nat := 0
  last_view_at : Option Nat := none
  cooks_count : Nat := 0
  last_cook_at : Option Nat := none
  saved : Bool := false
  first_saved_at : Option Nat := none
  rating : Option Nat := none
  last_rating_at : Option Nat := none
deriving DecidableEq

/-- The per-product record of `B2CInteractionsPipeline.aggregate_products`. -/
structure ProductRec where
  product_id : Option String := none
  views_count : Nat := 0
  last_view_at : Option Nat := none
  purchases_count : Nat := 0
  last_purchase_at : Option Nat := none
  saved : Bool := false
  rating : Option Nat := none
  last_rating_at : Option Nat := none
  quantity_total : Nat := 0
  price_total : Nat := 0
deriving DecidableEq

/-- The per-product record of `B2BInteractionsPipeline.aggregate_products`. -/
structure B2BProductRec where
  product_id : Option String := none
  views_count : Nat := 0
  last_view_at : Option Nat := none
deriving DecidableEq

/-- The per-(source,target) record of
`B2BInteractionsPipeline.aggregate_matches`. -/
structure MatchRec where
  source_product_id : Option String := none
  target_product_id : Option String := none
  approved : Bool := false
  rejected : Bool := false
  reason : Option String := none
  last_feedback_at : Option Nat := none
deriving DecidableEq

/-! ## Aggregators -/

/-- Body of the `for row in history` loop of `aggregate_recipes`. -/
def historyStep (row : HistoryRow) (e : RecipeRec) : RecipeRec :=
  let e := { e with recipe_id := some row.recipe_id }
  if row.event_type = "viewed" then
    { e with views_count := e.views_count + 1,
             last_view_at := maxStep e.last_view_at row.event_at }
  else if row.event_type = "cooked" then
    { e with cooks_count := e.cooks_count + 1,
             last_cook_at := maxStep e.last_cook_at row.event_at }
  else e

/-- Body of the `for row in saved` loop of `aggregate_recipes`. -/
def savedStep (row : SavedRow) (e : RecipeRec) : RecipeRec :=
  { e with recipe_id := some row.recipe_id,
           saved := true,
           first_saved_at := minStep e.first_saved_at row.saved_at }

/-- Body of the `for row in ratings` loop of `aggregate_recipes`
(plain assignment: last row wins). -/
def ratingStep (row : RatingRow) (e : RecipeRec) : RecipeRec :=
  { e with recipe_id := some row.recipe_id,
           rating := some row.rating,
           last_rating_at := some row.created_at }

/-- `B2CInteractionsPipeline.aggregate_recipes`: three loops over one shared
`defaultdict` keyed by `recipe_id`, then `list(agg.values())`. -/
def recipesState (history : List HistoryRow) (saved : List SavedRow)
    (ratings : List RatingRow) : List (String × RecipeRec) :=
  let m := history.foldl (fun m row => bump m row.recipe_id {} (historyStep row)) []
  let m := saved.foldl (fun m row => bump m row.recipe_id {} (savedStep row)) m
  ratings.foldl (fun m row => bump m row.recipe_id {} (ratingStep row)) m

/-- `B2CInteractionsPipeline.aggregate_recipes`. -/
def aggregate_recipes (history : List HistoryRow) (saved : List SavedRow)
    (ratings : List RatingRow) : List RecipeRec :=
  (recipesState history saved ratings).map Prod.snd

/-- Truthiness of the nullable `rating` column in
`if row.get("rating"):` — `None` and `0` are both falsy. -/
def ratingTruthy : Option Nat → Bool
  | none => false
  | some v => v != 0

/-- Body of the `for row in interactions` loop of the B2C
`aggregate_products` (the rating check runs on every row, whatever the
`interaction_type`). -/
def b2cProductStep (row : ProductInteractionRow) (e : ProductRec) : ProductRec :=
  let e := { e with product_id := some row.product_id }
  let e :=
    if row.interaction_type = "viewed" then
      { e with views_count := e.views_count + 1,
               last_view_at := maxStep e.last_view_at row.interaction_timestamp }
    else if row.interaction_type = "purchased" then
      { e with purchases_count := e.purchases_count + 1,
               last_purchase_at := maxStep e.last_purchase_at row.interaction_timestamp,
               quantity_total := e.quantity_total + row.quantity.getD 0,
               price_total := e.price_total + row.price_paid.getD 0 }
    else if row.interaction_type = "saved" then
      { e with saved := true }
    else e
  if ratingTruthy row.rating then
    { e with rating := row.rating, last_rating_at := some row.interaction_timestamp }
  else e

/-- State of the B2C `aggregate_products` dict after the loop. -/
def b2cProductsState (interactions : List ProductInteractionRow) :
    List (String × ProductRec) :=
  interactions.foldl (fun m row => bump m row.product_id {} (b2cProductStep row)) []

/-- `B2CInteractionsPipeline.aggregate_products`. -/
def aggregate_products_b2c (interactions : List ProductInteractionRow) :
    List ProductRec :=
  (b2cProductsState interactions).map Prod.snd

/-- Body of the `for row in actions` loop of the B2B `aggregate_products`. -/
def b2bProductStep (row : ActionRow) (e : B2BProductRec) : B2BProductRec :=
  let e := { e with product_id := some row.product_id }
  if row.action_type = "view_product" then
    { e with views_count := e.views_count + 1,
             last_view_at := maxStep e.last_view_at row.created_at }
  else e

/-- State of the B2B `aggregate_products` dict after the loop. -/
def b2bProductsState (actions : List ActionRow) : List (String × B2BProductRec) :=
  actions.foldl (fun m row => bump m row.product_id {} (b2bProductStep row)) []

/-- `B2BInteractionsPipeline.aggregate_products`. -/
def aggregate_products_b2b (actions : List ActionRow) : List B2BProductRec :=
  (b2bProductsState actions).map Prod.snd

/-- Body of the `for row in feedback` loop of `aggregate_matches`
(`reason` is a plain assignment on rejected rows: last rejected row wins). -/
def matchStep (row : FeedbackRow) (e : MatchRec) : MatchRec :=
  let e := { e with source_product_id := some row.source_product_id,
                    target_product_id := some row.target_product_id,
                    last_feedback_at := maxStep e.last_feedback_at row.created_at }
  if row.feedback_type = "approved" then
    { e with approved := true }
  else if row.feedback_type = "rejected" then
    { e with rejected := true, reason := row.reason }
  else e

/-- State of the `aggregate_matches` dict, keyed by the
`(source_product_id, target_product_id)` pair. -/
def matchesState (feedback : List FeedbackRow) :
    List ((String × String) × MatchRec) :=
  feedback.foldl
    (fun m row => bump m (row.source_product_id, row.target_product_id) {} (matchStep row)) []

/-- `B2BInteractionsPipeline.aggregate_matches`. -/
def aggregate_matches (feedback : List FeedbackRow) : List MatchRec :=
  (matchesState feedback).map Prod.snd

/-- Embedding of Python's `str.upper()` on the ASCII strings stored in the
outbox `op` column (`Char.toUpper` uppercases exactly the ASCII letters, as
`str.upper` does on ASCII input). -/
def pyUpper (s : String) : String := ⟨s.data.map Char.toUpper⟩

/-! ## Generic association-list lemmas -/

theorem lookupKey_bump_self {κ ρ : Type} [DecidableEq κ]
    (m : List (κ × ρ)) (k : κ) (d : ρ) (f : ρ → ρ) :
    lookupKey (bump m k d f) k = some (f (((lookupKey m k).getD d))) := by
  induction m with
  | nil => simp [bump, lookupKey]
  | cons p tl ih =>
      obtain ⟨k', r⟩ := p
      by_cases h : k' = k
      · subst h
        simp [bump, lookupKey]
      · simp [bump, lookupKey, h, ih]

theorem lookupKey_bump_ne {κ ρ : Type} [DecidableEq κ]
    (m : List (κ × ρ)) (k k' : κ) (d : ρ) (f : ρ → ρ) (h : k' ≠ k) :
    lookupKey (bump m k' d f) k = lookupKey m k := by
  induction m with
  | nil => simp [bump, lookupKey, h]
  | cons p tl ih =>
      obtain ⟨k'', r⟩ := p
      by_cases h2 : k'' = k'
      · subst h2
        simp [bump, lookupKey, h]
      · simp [bump, lookupKey, h2, ih]

/-- Lookup after folding a row list into the dict: only the rows whose key is
`k` matter, and they are applied in order to the looked-up (or default)
record. -/
theorem lookupKey_bump_foldl {κ ρ R : Type} [DecidableEq κ]
    (key : R → κ) (d : ρ) (upd : R → ρ → ρ) (l : List R)
    (m : List (κ × ρ)) (k : κ) :
    lookupKey (l.foldl (fun m row => bump m (key row) d (upd row)) m) k
      = (l.filter (fun row => decide (key row = k))).foldl
          (fun o row => some (upd row (o.getD d))) (lookupKey m k) := by
  induction l generalizing m with
  | nil => rfl
  | cons r tl ih =>
      by_cases h : key r = k
      · rw [List.foldl_cons, ih]
        subst h
        simp [List.filter_cons, lookupKey_bump_self]
      · rw [List.foldl_cons, ih]
        simp [List.filter_cons, h, lookupKey_bump_ne _ _ _ _ _ h]

theorem optFold_some {ρ R : Type} (d : ρ) (upd : R → ρ → ρ) (l : List R) (v : ρ) :
    l.foldl (fun o row => some (upd row (o.getD d))) (some v)
      = some (l.foldl (fun v row => upd row v) v) := by
  induction l generalizing v with
  | nil => rfl
  | cons r tl ih => simp [ih]

/-- Collapse of the option-valued fold used by `lookupKey_bump_foldl`. -/
theorem optFold_eq {ρ R : Type} (d : ρ) (upd : R → ρ → ρ) (l : List R) (o : Option ρ) :
    l.foldl (fun o row => some (upd row (o.getD d))) o
      = if l.isEmpty then o else some (l.foldl (fun v row => upd row v) (o.getD d)) := by
  cases l with
  | nil => rfl
  | cons r tl => simp [optFold_some]

/-- Keys after a `bump`: unchanged when the key is present, appended when it
is new. -/
theorem keysOf_bump {κ ρ : Type} [DecidableEq κ]
    (m : List (κ × ρ)) (k : κ) (d : ρ) (f : ρ → ρ) :
    keysOf (bump m k d f) = if k ∈ keysOf m then keysOf m else keysOf m ++ [k] := by
  induction m with
  | nil => simp [bump, keysOf]
  | cons p tl ih =>
      obtain ⟨k', r⟩ := p
      by_cases h : k' = k
      · subst h
        simp [bump, keysOf]
      · have h2 : ¬(k = k') := fun hh => h hh.symm
        simp only [bump, if_neg h, keysOf, List.map_cons, List.mem_cons, h2,
          false_or]
        by_cases hm : k ∈ keysOf tl
        · simp [keysOf] at hm
          simp [hm, keysOf] at ih
          simp [hm, ih, keysOf]
        · simp [keysOf] at hm
          simp [hm, keysOf] at ih
          simp [hm, ih, keysOf]

theorem mem_keysOf_bump {κ ρ : Type} [DecidableEq κ]
    (m : List (κ × ρ)) (k k' : κ) (d : ρ) (f : ρ → ρ) :
    k' ∈ keysOf (bump m k d f) ↔ k' = k ∨ k' ∈ keysOf m := by
  rw [keysOf_bump]
  by_cases h : k ∈ keysOf m
  · simp only [if_pos h]
    constructor
    · exact fun hh => Or.inr hh
    · rintro (rfl | hh)
      · exact h
      · exact hh
  · simp only [if_neg h, List.mem_append, List.mem_singleton]
    tauto

theorem nodup_keysOf_bump {κ ρ : Type} [DecidableEq κ]
    (m : List (κ × ρ)) (k : κ) (d : ρ) (f : ρ → ρ)
    (hm : (keysOf m).Nodup) : (keysOf (bump m k d f)).Nodup := by
  rw [keysOf_bump]
  by_cases h : k ∈ keysOf m
  · simpa [h] using hm
  · simp only [if_neg h]
    exact List.Nodup.append hm (List.nodup_singleton k)
      (by simpa [List.disjoint_singleton] using h)

theorem lookupKey_eq_none_iff {κ ρ : Type} [DecidableEq κ]
    (m : List (κ × ρ)) (k : κ) :
    lookupKey m k = none ↔ k ∉ keysOf m := by
  induction m with
  | nil => simp [lookupKey, keysOf]
  | cons p tl ih =>
      obtain ⟨k', r⟩ := p
      by_cases h : k' = k
      · subst h
        simp [lookupKey, keysOf]
      · have h2 : ¬(k = k') := fun hh => h hh.symm
        simp [lookupKey, keysOf, h, h2, ih]

theorem lookupKey_of_mem {κ ρ : Type} [DecidableEq κ]
    (m : List (κ × ρ)) (k : κ) (v : ρ)
    (hm : (keysOf m).Nodup) (hmem : (k, v) ∈ m) : lookupKey m k = some v := by
  induction m with
  | nil => simp at hmem
  | cons p tl ih =>
      obtain ⟨k', r⟩ := p
      simp only [keysOf, List.map_cons, List.nodup_cons] at hm
      rcases List.mem_cons.mp hmem with h | h
      · cases h
        simp [lookupKey]
      · by_cases hk : k' = k
        · subst hk
          exact absurd (by simpa [keysOf] using List.mem_map_of_mem Prod.fst h) hm.1
        · simpa [lookupKey, hk] using ih hm.2 h

theorem mem_of_lookupKey {κ ρ : Type} [DecidableEq κ]
    (m : List (κ × ρ)) (k : κ) (v : ρ)
    (h : lookupKey m k = some v) : (k, v) ∈ m := by
  induction m with
  | nil => simp [lookupKey] at h
  | cons p tl ih =>
      obtain ⟨k', r⟩ := p
      by_cases hk : k' = k
      · subst hk
        simp [lookupKey] at h
        subst h
        exact List.mem_cons_self _ _
      · simp only [lookupKey, if_neg hk] at h
        exact List.mem_cons_of_mem _ (ih h)

theorem mem_map_snd_iff {κ ρ : Type} (m : List (κ × ρ)) (v : ρ) :
    v ∈ m.map Prod.snd ↔ ∃ k, (k, v) ∈ m := by
  simp only [List.mem_map]
  constructor
  · rintro ⟨⟨k, v'⟩, hmem, rfl⟩
    exact ⟨k, hmem⟩
  · rintro ⟨k, hmem⟩
    exact ⟨(k, v), hmem, rfl⟩

/-- Every entry of a `bump` satisfies an entry invariant, provided the update
establishes it at the bumped key. -/
theorem bump_forall {κ ρ : Type} [DecidableEq κ] (Q : κ → ρ → Prop)
    (m : List (κ × ρ)) (k : κ) (d : ρ) (f : ρ → ρ)
    (hm : ∀ p ∈ m, Q p.1 p.2) (hf : ∀ v, Q k (f v)) :
    ∀ p ∈ bump m k d f, Q p.1 p.2 := by
  induction m with
  | nil =>
      intro p hp
      simp only [bump, List.mem_singleton] at hp
      subst hp
      exact hf d
  | cons q tl ih =>
      obtain ⟨k', r⟩ := q
      intro p hp
      by_cases h : k' = k
      · subst h
        simp only [bump, if_true, eq_self_iff_true, List.mem_cons] at hp
        rcases hp with rfl | hp
        · exact hf r
        · exact hm _ (List.mem_cons_of_mem _ hp)
      · simp only [bump, if_neg h, List.mem_cons] at hp
        rcases hp with rfl | hp
        · exact hm _ (List.mem_cons_self _ _)
        · exact ih (fun q hq => hm _ (List.mem_cons_of_mem _ hq)) _ hp

theorem foldl_bump_forall {κ ρ R : Type} [DecidableEq κ] (Q : κ → ρ → Prop)
    (key : R → κ) (d : ρ) (upd : R → ρ → ρ) (l : List R) (m : List (κ × ρ))
    (hm : ∀ p ∈ m, Q p.1 p.2) (hupd : ∀ row v, Q (key row) (upd row v)) :
    ∀ p ∈ l.foldl (fun m row => bump m (key row) d (upd row)) m, Q p.1 p.2 := by
  induction l generalizing m with
  | nil => exact hm
  | cons r tl ih =>
      exact ih _ (bump_forall Q m (key r) d (upd r) hm (fun v => hupd r v))

theorem nodup_keysOf_foldl_bump {κ ρ R : Type} [DecidableEq κ]
    (key : R → κ) (d : ρ) (upd : R → ρ → ρ) (l : List R) (m : List (κ × ρ))
    (hm : (keysOf m).Nodup) :
    (keysOf (l.foldl (fun m row => bump m (key row) d (upd row)) m)).Nodup := by
  induction l generalizing m with
  | nil => exact hm
  | cons r tl ih => exact ih _ (nodup_keysOf_bump _ _ _ _ hm)

theorem mem_keysOf_foldl_bump {κ ρ R : Type} [DecidableEq κ]
    (key : R → κ) (d : ρ) (upd : R → ρ → ρ) (l : List R) (m : List (κ × ρ)) (k : κ) :
    k ∈ keysOf (l.foldl (fun m row => bump m (key row) d (upd row)) m)
      ↔ k ∈ l.map key ∨ k ∈ keysOf m := by
  induction l generalizing m with
  | nil => simp
  | cons r tl ih =>
      simp only [List.foldl_cons, List.map_cons, List.mem_cons, ih,
        mem_keysOf_bump]
      tauto

/-- Counting records satisfying `P` in the dict values: with nodup keys and
an invariant forcing any `P`-record to live at key `k₀`, the count is `1` or
`0` depending on the record stored at `k₀`. -/
theorem length_filter_map_snd {κ ρ : Type} [DecidableEq κ]
    (m : List (κ × ρ)) (P : ρ → Bool) (k₀ : κ)
    (hm : (keysOf m).Nodup)
    (hP : ∀ p ∈ m, P p.2 = true → p.1 = k₀) :
    ((m.map Prod.snd).filter P).length
      = match lookupKey m k₀ with
        | some v => if P v then 1 else 0
        | none => 0 := by
  induction m with
  | nil => simp [lookupKey]
  | cons p tl ih =>
      obtain ⟨k', r⟩ := p
      simp only [keysOf, List.map_cons, List.nodup_cons] at hm
      by_cases hk : k' = k₀
      · subst hk
        have htl : ∀ p ∈ tl, P p.2 = true → False := by
          intro p hp hPp
          have := hP p (List.mem_cons_of_mem _ hp) hPp
          exact hm.1 (by simpa [keysOf, ← this] using List.mem_map_of_mem Prod.fst hp)
        have htl0 : (tl.map Prod.snd).filter P = [] := by
          rw [List.filter_eq_nil_iff]
          intro v hv
          rcases (mem_map_snd_iff tl v).mp hv with ⟨k, hkv⟩
          intro hPv
          exact htl _ hkv hPv
        by_cases hPr : P r
        · simp [lookupKey, List.filter_cons, hPr, htl0]
        · simp [lookupKey, List.filter_cons, hPr, htl0]
      · have hPr : P r = false := by
          by_contra h
          exact hk (hP (k', r) (List.mem_cons_self _ _) (by simpa using h))
        have := ih hm.2 (fun p hp => hP p (List.mem_cons_of_mem _ hp))
        simp [lookupKey, hk, List.filter_cons, hPr, this]

/-! ## Closed forms for `aggregate_recipes` -/

/-- The `history` loop restricted to one key. -/
def histFold (rows : List HistoryRow) (v : RecipeRec) : RecipeRec :=
  rows.foldl (fun v row => historyStep row v) v

/-- The `saved` loop restricted to one key. -/
def savedFold (rows : List SavedRow) (v : RecipeRec) : RecipeRec :=
  rows.foldl (fun v row => savedStep row v) v

/-- The `ratings` loop restricted to one key. -/
def ratingFold (rows : List RatingRow) (v : RecipeRec) : RecipeRec :=
  rows.foldl (fun v row => ratingStep row v) v

/-- Running maximum over a timestamp list, seeded with an optional value. -/
def listMaxFrom (o : Option Nat) (l : List Nat) : Option Nat := l.foldl maxStep o

/-- Running minimum over a timestamp list, seeded with an optional value. -/
def listMinFrom (o : Option Nat) (l : List Nat) : Option Nat := l.foldl minStep o

theorem historyStep_id (row : HistoryRow) (e : RecipeRec) :
    (historyStep row e).recipe_id = some row.recipe_id := by
  simp only [historyStep]
  split_ifs <;> rfl

theorem historyStep_views (row : HistoryRow) (e : RecipeRec) :
    (historyStep row e).views_count
      = if row.event_type = "viewed" then e.views_count + 1 else e.views_count := by
  simp only [historyStep]
  split_ifs <;> rfl

theorem historyStep_last_view (row : HistoryRow) (e : RecipeRec) :
    (historyStep row e).last_view_at
      = if row.event_type = "viewed" then maxStep e.last_view_at row.event_at
        else e.last_view_at := by
  simp only [historyStep]
  split_ifs <;> rfl

theorem historyStep_cooks (row : HistoryRow) (e : RecipeRec) :
    (historyStep row e).cooks_count
      = if row.event_type = "cooked" then e.cooks_count + 1 else e.cooks_count := by
  simp only [historyStep]
  split_ifs with h1 h2 <;> first | rfl | (exact absurd h1 (by simp_all))

theorem historyStep_last_cook (row : HistoryRow) (e : RecipeRec) :
    (historyStep row e).last_cook_at
      = if row.event_type = "cooked" then maxStep e.last_cook_at row.event_at
        else e.last_cook_at := by
  simp only [historyStep]
  split_ifs with h1 h2 <;> first | rfl | (exact absurd h1 (by simp_all))

theorem historyStep_saved (row : HistoryRow) (e : RecipeRec) :
    (historyStep row e).saved = e.saved := by
  simp only [historyStep]
  split_ifs <;> rfl

theorem historyStep_first_saved (row : HistoryRow) (e : RecipeRec) :
    (historyStep row e).first_saved_at = e.first_saved_at := by
  simp only [historyStep]
  split_ifs <;> rfl

theorem historyStep_rating (row : HistoryRow) (e : RecipeRec) :
    (historyStep row e).rating = e.rating := by
  simp only [historyStep]
  split_ifs <;> rfl

theorem historyStep_last_rating (row : HistoryRow) (e : RecipeRec) :
    (historyStep row e).last_rating_at = e.last_rating_at := by
  simp only [historyStep]
  split_ifs <;> rfl

theorem histFold_views (rows : List HistoryRow) (v : RecipeRec) :
    (histFold rows v).views_count
      = v.views_count
        + (rows.filter (fun r => decide (r.event_type = "viewed"))).length := by
  induction rows generalizing v with
  | nil => simp [histFold]
  | cons r tl ih =>
      simp only [histFold, List.foldl_cons] at ih ⊢
      rw [ih, List.filter_cons, historyStep_views]
      by_cases h : r.event_type = "viewed" <;> simp [h] <;> omega

theorem histFold_last_view (rows : List HistoryRow) (v : RecipeRec) :
    (histFold rows v).last_view_at
      = listMaxFrom v.last_view_at
          ((rows.filter (fun r => decide (r.event_type = "viewed"))).map (·.event_at)) := by
  induction rows generalizing v with
  | nil => simp [histFold, listMaxFrom]
  | cons r tl ih =>
      simp only [histFold, List.foldl_cons] at ih ⊢
      rw [ih, List.filter_cons, historyStep_last_view]
      by_cases h : r.event_type = "viewed" <;> simp [h, listMaxFrom]

theorem histFold_cooks (rows : List HistoryRow) (v : RecipeRec) :
    (histFold rows v).cooks_count
      = v.cooks_count
        + (rows.filter (fun r => decide (r.event_type = "cooked"))).length := by
  induction rows generalizing v with
  | nil => simp [histFold]
  | cons r tl ih =>
      simp only [histFold, List.foldl_cons] at ih ⊢
      rw [ih, List.filter_cons, historyStep_cooks]
      by_cases h : r.event_type = "cooked" <;> simp [h] <;> omega

theorem histFold_last_cook (rows : List HistoryRow) (v : RecipeRec) :
    (histFold rows v).last_cook_at
      = listMaxFrom v.last_cook_at
          ((rows.filter (fun r => decide (r.event_type = "cooked"))).map (·.event_at)) := by
  induction rows generalizing v with
  | nil => simp [histFold, listMaxFrom]
  | cons r tl ih =>
      simp only [histFold, List.foldl_cons] at ih ⊢
      rw [ih, List.filter_cons, historyStep_last_cook]
      by_cases h : r.event_type = "cooked" <;> simp [h, listMaxFrom]

theorem histFold_saved (rows : List HistoryRow) (v : RecipeRec) :
    (histFold rows v).saved = v.saved := by
  induction rows generalizing v with
  | nil => rfl
  | cons r tl ih =>
      simp only [histFold, List.foldl_cons] at ih ⊢
      rw [ih, historyStep_saved]

theorem histFold_first_saved (rows : List HistoryRow) (v : RecipeRec) :
    (histFold rows v).first_saved_at = v.first_saved_at := by
  induction rows generalizing v with
  | nil => rfl
  | cons r tl ih =>
      simp only [histFold, List.foldl_cons] at ih ⊢
      rw [ih, historyStep_first_saved]

theorem histFold_rating (rows : List HistoryRow) (v : RecipeRec) :
    (histFold rows v).rating = v.rating := by
  induction rows generalizing v with
  | nil => rfl
  | cons r tl ih =>
      simp only [histFold, List.foldl_cons] at ih ⊢
      rw [ih, historyStep_rating]

theorem histFold_last_rating (rows : List HistoryRow) (v : RecipeRec) :
    (histFold rows v).last_rating_at = v.last_rating_at := by
  induction rows generalizing v with
  | nil => rfl
  | cons r tl ih =>
      simp only [histFold, List.foldl_cons] at ih ⊢
      rw [ih, historyStep_last_rating]

theorem histFold_id (rows : List HistoryRow) (v : RecipeRec) (k : String)
    (hk : ∀ r ∈ rows, r.recipe_id = k) :
    (histFold rows v).recipe_id
      = if rows.isEmpty then v.recipe_id else some k := by
  induction rows generalizing v with
  | nil => rfl
  | cons r tl ih =>
      simp only [histFold, List.foldl_cons] at ih ⊢
      rw [ih _ (fun r hr => hk r (List.mem_cons_of_mem _ hr))]
      cases htl : tl.isEmpty
      · simp
      · simp [historyStep_id, hk r (List.mem_cons_self _ _)]

theorem savedFold_saved (rows : List SavedRow) (v : RecipeRec) :
    (savedFold rows v).saved = (v.saved || !rows.isEmpty) := by
  induction rows generalizing v with
  | nil => simp [savedFold]
  | cons r tl ih =>
      simp only [savedFold, List.foldl_cons] at ih ⊢
      rw [ih]
      simp [savedStep]

theorem savedFold_first_saved (rows : List SavedRow) (v : RecipeRec) :
    (savedFold rows v).first_saved_at
      = listMinFrom v.first_saved_at (rows.map (·.saved_at)) := by
  induction rows generalizing v with
  | nil => rfl
  | cons r tl ih =>
      simp only [savedFold, List.foldl_cons] at ih ⊢
      rw [ih]
      simp [savedStep, listMinFrom]

theorem savedFold_id (rows : List SavedRow) (v : RecipeRec) (k : String)
    (hk : ∀ r ∈ rows, r.recipe_id = k) :
    (savedFold rows v).recipe_id
      = if rows.isEmpty then v.recipe_id else some k := by
  induction rows generalizing v with
  | nil => rfl
  | cons r tl ih =>
      simp only [savedFold, List.foldl_cons] at ih ⊢
      rw [ih _ (fun r hr => hk r (List.mem_cons_of_mem _ hr))]
      cases htl : tl.isEmpty
      · simp
      · simp [savedStep, hk r (List.mem_cons_self _ _)]

theorem savedFold_views (rows : List SavedRow) (v : RecipeRec) :
    (savedFold rows v).views_count = v.views_count := by
  induction rows generalizing v with
  | nil => rfl
  | cons r tl ih =>
      simp only [savedFold, List.foldl_cons] at ih ⊢
      rw [ih]
      rfl

theorem savedFold_last_view (rows : List SavedRow) (v : RecipeRec) :
    (savedFold rows v).last_view_at = v.last_view_at := by
  induction rows generalizing v with
  | nil => rfl
  | cons r tl ih =>
      simp only [savedFold, List.foldl_cons] at ih ⊢
      rw [ih]
      rfl

theorem savedFold_cooks (rows : List SavedRow) (v : RecipeRec) :
    (savedFold rows v).cooks_count = v.cooks_count := by
  induction rows generalizing v with
  | nil => rfl
  | cons r tl ih =>
      simp only [savedFold, List.foldl_cons] at ih ⊢
      rw [ih]
      rfl

theorem savedFold_last_cook (rows : List SavedRow) (v : RecipeRec) :
    (savedFold rows v).last_cook_at = v.last_cook_at := by
  induction rows generalizing v with
  | nil => rfl
  | cons r tl ih =>
      simp only [savedFold, List.foldl_cons] at ih ⊢
      rw [ih]
      rfl

theorem savedFold_rating (rows : List SavedRow) (v : RecipeRec) :
    (savedFold rows v).rating = v.rating := by
  induction rows generalizing v with
  | nil => rfl
  | cons r tl ih =>
      simp only [savedFold, List.foldl_cons] at ih ⊢
      rw [ih]
      rfl

theorem savedFold_last_rating (rows : List SavedRow) (v : RecipeRec) :
    (savedFold rows v).last_rating_at = v.last_rating_at := by
  induction rows generalizing v with
  | nil => rfl
  | cons r tl ih =>
      simp only [savedFold, List.foldl_cons] at ih ⊢
      rw [ih]
      rfl

theorem ratingFold_rating (rows : List RatingRow) (v : RecipeRec) :
    (ratingFold rows v).rating
      = (match rows.getLast? with
         | none => v.rating
         | some r => some r.rating) := by
  induction rows using List.reverseRecOn with
  | nil => rfl
  | append_singleton tl r ih =>
      simp [ratingFold, List.foldl_append, ratingStep]

theorem ratingFold_last_rating (rows : List RatingRow) (v : RecipeRec) :
    (ratingFold rows v).last_rating_at
      = (match rows.getLast? with
         | none => v.last_rating_at
         | some r => some r.created_at) := by
  induction rows using List.reverseRecOn with
  | nil => rfl
  | append_singleton tl r ih =>
      simp [ratingFold, List.foldl_append, ratingStep]

theorem ratingFold_id (rows : List RatingRow) (v : RecipeRec) (k : String)
    (hk : ∀ r ∈ rows, r.recipe_id = k) :
    (ratingFold rows v).recipe_id
      = if rows.isEmpty then v.recipe_id else some k := by
  induction rows generalizing v with
  | nil => rfl
  | cons r tl ih =>
      simp only [ratingFold, List.foldl_cons] at ih ⊢
      rw [ih _ (fun r hr => hk r (List.mem_cons_of_mem _ hr))]
      cases htl : tl.isEmpty
      · simp
      · simp [ratingStep, hk r (List.mem_cons_self _ _)]

theorem ratingFold_views (rows : List RatingRow) (v : RecipeRec) :
    (ratingFold rows v).views_count = v.views_count := by
  induction rows generalizing v with
  | nil => rfl
  | cons r tl ih =>
      simp only [ratingFold, List.foldl_cons] at ih ⊢
      rw [ih]
      rfl

theorem ratingFold_last_view (rows : List RatingRow) (v : RecipeRec) :
    (ratingFold rows v).last_view_at = v.last_view_at := by
  induction rows generalizing v with
  | nil => rfl
  | cons r tl ih =>
      simp only [ratingFold, List.foldl_cons] at ih ⊢
      rw [ih]
      rfl

theorem ratingFold_cooks (rows : List RatingRow) (v : RecipeRec) :
    (ratingFold rows v).cooks_count = v.cooks_count := by
  induction rows generalizing v with
  | nil => rfl
  | cons r tl ih =>
      simp only [ratingFold, List.foldl_cons] at ih ⊢
      rw [ih]
      rfl

theorem ratingFold_last_cook (rows : List RatingRow) (v : RecipeRec) :
    (ratingFold rows v).last_cook_at = v.last_cook_at := by
  induction rows generalizing v with
  | nil => rfl
  | cons r tl ih =>
      simp only [ratingFold, List.foldl_cons] at ih ⊢
      rw [ih]
      rfl

theorem ratingFold_saved (rows : List RatingRow) (v : RecipeRec) :
    (ratingFold rows v).saved = v.saved := by
  induction rows generalizing v with
  | nil => rfl
  | cons r tl ih =>
      simp only [ratingFold, List.foldl_cons] at ih ⊢
      rw [ih]
      rfl

theorem ratingFold_first_saved (rows : List RatingRow) (v : RecipeRec) :
    (ratingFold rows v).first_saved_at = v.first_saved_at := by
  induction rows generalizing v with
  | nil => rfl
  | cons r tl ih =>
      simp only [ratingFold, List.foldl_cons] at ih ⊢
      rw [ih]
      rfl

/-- Rows of a list whose key field equals `k`. -/
def histAt (history : List HistoryRow) (k : String) : List HistoryRow :=
  history.filter (fun r => decide (r.recipe_id = k))

/-- Rows of the saved list whose key field equals `k`. -/
def savedAt (saved : List SavedRow) (k : String) : List SavedRow :=
  saved.filter (fun r => decide (r.recipe_id = k))

/-- Rows of the ratings list whose key field equals `k`. -/
def ratingsAt (ratings : List RatingRow) (k : String) : List RatingRow :=
  ratings.filter (fun r => decide (r.recipe_id = k))

/-- Master characterisation of the `aggregate_recipes` dict: the record at
key `k` is the three per-key loops run in order over the rows keyed `k`,
starting from the default record; the key is absent iff no input mentions
it. -/
theorem lookupKey_recipesState (history : List HistoryRow) (saved : List SavedRow)
    (ratings : List RatingRow) (k : String) :
    lookupKey (recipesState history saved ratings) k
      = if (histAt history k).isEmpty ∧ (savedAt saved k).isEmpty
            ∧ (ratingsAt ratings k).isEmpty
        then none
        else some (ratingFold (ratingsAt ratings k)
                    (savedFold (savedAt saved k) (histFold (histAt history k) {}))) := by
  unfold recipesState
  rw [lookupKey_bump_foldl (fun r : RatingRow => r.recipe_id) {} ratingStep,
      lookupKey_bump_foldl (fun r : SavedRow => r.recipe_id) {} savedStep,
      lookupKey_bump_foldl (fun r : HistoryRow => r.recipe_id) {} historyStep,
      optFold_eq, optFold_eq, optFold_eq]
  show _ = if (histAt history k).isEmpty ∧ _ ∧ _ then _ else _
  rw [show history.filter (fun r => decide (r.recipe_id = k)) = histAt history k from rfl,
      show saved.filter (fun r => decide (r.recipe_id = k)) = savedAt saved k from rfl,
      show ratings.filter (fun r => decide (r.recipe_id = k)) = ratingsAt ratings k from rfl]
  have hlk : lookupKey ([] : List (String × RecipeRec)) k = none := rfl
  rw [hlk]
  by_cases h1 : (histAt history k).isEmpty <;>
    by_cases h2 : (savedAt saved k).isEmpty <;>
      by_cases h3 : (ratingsAt ratings k).isEmpty
  all_goals try rw [show histAt history k = [] from List.isEmpty_iff.mp h1]
  all_goals try rw [show savedAt saved k = [] from List.isEmpty_iff.mp h2]
  all_goals try rw [show ratingsAt ratings k = [] from List.isEmpty_iff.mp h3]
  all_goals simp [h1, h2, h3, histFold, savedFold, ratingFold]

/-! ## Closed forms for the B2C `aggregate_products` -/

/-- The B2C product loop restricted to one key. -/
def prodFold (rows : List ProductInteractionRow) (v : ProductRec) : ProductRec :=
  rows.foldl (fun v row => b2cProductStep row v) v

/-- Rows of the interaction list whose key field equals `k`. -/
def prodAt (rows : List ProductInteractionRow) (k : String) : List ProductInteractionRow :=
  rows.filter (fun r => decide (r.product_id = k))

theorem b2cProductStep_pid (row : ProductInteractionRow) (e : ProductRec) :
    (b2cProductStep row e).product_id = some row.product_id := by
  simp only [b2cProductStep]
  split_ifs <;> rfl

theorem b2cProductStep_views (row : ProductInteractionRow) (e : ProductRec) :
    (b2cProductStep row e).views_count
      = if row.interaction_type = "viewed" then e.views_count + 1
        else e.views_count := by
  simp only [b2cProductStep]
  split_ifs <;> first | rfl | simp_all

theorem b2cProductStep_last_view (row : ProductInteractionRow) (e : ProductRec) :
    (b2cProductStep row e).last_view_at
      = if row.interaction_type = "viewed" then maxStep e.last_view_at row.interaction_timestamp
        else e.last_view_at := by
  simp only [b2cProductStep]
  split_ifs <;> first | rfl | simp_all

theorem b2cProductStep_purchases (row : ProductInteractionRow) (e : ProductRec) :
    (b2cProductStep row e).purchases_count
      = if row.interaction_type = "purchased" then e.purchases_count + 1
        else e.purchases_count := by
  simp only [b2cProductStep]
  split_ifs <;> first | rfl | simp_all

theorem b2cProductStep_last_purchase (row : ProductInteractionRow) (e : ProductRec) :
    (b2cProductStep row e).last_purchase_at
      = if row.interaction_type = "purchased"
        then maxStep e.last_purchase_at row.interaction_timestamp
        else e.last_purchase_at := by
  simp only [b2cProductStep]
  split_ifs <;> first | rfl | simp_all

theorem b2cProductStep_quantity (row : ProductInteractionRow) (e : ProductRec) :
    (b2cProductStep row e).quantity_total
      = if row.interaction_type = "purchased"
        then e.quantity_total + row.quantity.getD 0
        else e.quantity_total := by
  simp only [b2cProductStep]
  split_ifs <;> first | rfl | simp_all

theorem b2cProductStep_price (row : ProductInteractionRow) (e : ProductRec) :
    (b2cProductStep row e).price_total
      = if row.interaction_type = "purchased"
        then e.price_total + row.price_paid.getD 0
        else e.price_total := by
  simp only [b2cProductStep]
  split_ifs <;> first | rfl | simp_all

theorem b2cProductStep_saved (row : ProductInteractionRow) (e : ProductRec) :
    (b2cProductStep row e).saved
      = if row.interaction_type = "saved" then true else e.saved := by
  simp only [b2cProductStep]
  split_ifs <;> first | rfl | simp_all

theorem b2cProductStep_rating (row : ProductInteractionRow) (e : ProductRec) :
    (b2cProductStep row e).rating
      = if ratingTruthy row.rating then row.rating else e.rating := by
  simp only [b2cProductStep]
  split_ifs <;> first | rfl | simp_all

theorem b2cProductStep_last_rating (row : ProductInteractionRow) (e : ProductRec) :
    (b2cProductStep row e).last_rating_at
      = if ratingTruthy row.rating then some row.interaction_timestamp
        else e.last_rating_at := by
  simp only [b2cProductStep]
  split_ifs <;> first | rfl | simp_all

theorem prodFold_pid (rows : List ProductInteractionRow) (v : ProductRec) (k : String)
    (hk : ∀ r ∈ rows, r.product_id = k) :
    (prodFold rows v).product_id
      = if rows.isEmpty then v.product_id else some k := by
  induction rows generalizing v with
  | nil => rfl
  | cons r tl ih =>
      simp only [prodFold, List.foldl_cons] at ih ⊢
      rw [ih _ (fun r hr => hk r (List.mem_cons_of_mem _ hr))]
      cases htl : tl.isEmpty
      · simp
      · simp [b2cProductStep_pid, hk r (List.mem_cons_self _ _)]

theorem prodFold_views (rows : List ProductInteractionRow) (v : ProductRec) :
    (prodFold rows v).views_count
      = v.views_count
        + (rows.filter (fun r => decide (r.interaction_type = "viewed"))).length := by
  induction rows generalizing v with
  | nil => simp [prodFold]
  | cons r tl ih =>
      simp only [prodFold, List.foldl_cons] at ih ⊢
      rw [ih, List.filter_cons, b2cProductStep_views]
      by_cases h : r.interaction_type = "viewed" <;> simp [h] <;> omega

theorem prodFold_last_view (rows : List ProductInteractionRow) (v : ProductRec) :
    (prodFold rows v).last_view_at
      = listMaxFrom v.last_view_at
          ((rows.filter (fun r => decide (r.interaction_type = "viewed"))).map
            (·.interaction_timestamp)) := by
  induction rows generalizing v with
  | nil => simp [prodFold, listMaxFrom]
  | cons r tl ih =>
      simp only [prodFold, List.foldl_cons] at ih ⊢
      rw [ih, List.filter_cons, b2cProductStep_last_view]
      by_cases h : r.interaction_type = "viewed" <;> simp [h, listMaxFrom]

theorem prodFold_purchases (rows : List ProductInteractionRow) (v : ProductRec) :
    (prodFold rows v).purchases_count
      = v.purchases_count
        + (rows.filter (fun r => decide (r.interaction_type = "purchased"))).length := by
  induction rows generalizing v with
  | nil => simp [prodFold]
  | cons r tl ih =>
      simp only [prodFold, List.foldl_cons] at ih ⊢
      rw [ih, List.filter_cons, b2cProductStep_purchases]
      by_cases h : r.interaction_type = "purchased" <;> simp [h] <;> omega

theorem prodFold_last_purchase (rows : List ProductInteractionRow) (v : ProductRec) :
    (prodFold rows v).last_purchase_at
      = listMaxFrom v.last_purchase_at
          ((rows.filter (fun r => decide (r.interaction_type = "purchased"))).map
            (·.interaction_timestamp)) := by
  induction rows generalizing v with
  | nil => simp [prodFold, listMaxFrom]
  | cons r tl ih =>
      simp only [prodFold, List.foldl_cons] at ih ⊢
      rw [ih, List.filter_cons, b2cProductStep_last_purchase]
      by_cases h : r.interaction_type = "purchased" <;> simp [h, listMaxFrom]

theorem prodFold_quantity (rows : List ProductInteractionRow) (v : ProductRec) :
    (prodFold rows v).quantity_total
      = v.quantity_total
        + ((rows.filter (fun r => decide (r.interaction_type = "purchased"))).map
            (fun r => r.quantity.getD 0)).sum := by
  induction rows generalizing v with
  | nil => simp [prodFold]
  | cons r tl ih =>
      simp only [prodFold, List.foldl_cons] at ih ⊢
      rw [ih, List.filter_cons, b2cProductStep_quantity]
      by_cases h : r.interaction_type = "purchased" <;> simp [h] <;> omega

theorem prodFold_price (rows : List ProductInteractionRow) (v : ProductRec) :
    (prodFold rows v).price_total
      = v.price_total
        + ((rows.filter (fun r => decide (r.interaction_type = "purchased"))).map
            (fun r => r.price_paid.getD 0)).sum := by
  induction rows generalizing v with
  | nil => simp [prodFold]
  | cons r tl ih =>
      simp only [prodFold, List.foldl_cons] at ih ⊢
      rw [ih, List.filter_cons, b2cProductStep_price]
      by_cases h : r.interaction_type = "purchased" <;> simp [h] <;> omega

theorem prodFold_saved (rows : List ProductInteractionRow) (v : ProductRec) :
    (prodFold rows v).saved
      = (v.saved
          || !(rows.filter (fun r => decide (r.interaction_type = "saved"))).isEmpty) := by
  induction rows generalizing v with
  | nil => simp [prodFold]
  | cons r tl ih =>
      simp only [prodFold, List.foldl_cons] at ih ⊢
      rw [ih, List.filter_cons, b2cProductStep_saved]
      by_cases h : r.interaction_type = "saved" <;> simp [h]

theorem prodFold_rating (rows : List ProductInteractionRow) (v : ProductRec) :
    (prodFold rows v).rating
      = (match (rows.filter (fun r => ratingTruthy r.rating)).getLast? with
         | none => v.rating
         | some r => r.rating) := by
  induction rows using List.reverseRecOn with
  | nil => rfl
  | append_singleton tl r ih =>
      simp only [prodFold, List.foldl_append, List.foldl_cons, List.foldl_nil,
        List.filter_append] at ih ⊢
      rw [b2cProductStep_rating]
      by_cases h : ratingTruthy r.rating
      · simp [h]
      · simp only [h, if_false, Bool.false_eq_true, not_false_eq_true,
          List.filter_cons_of_neg, List.filter_nil, List.append_nil]
        exact ih

theorem prodFold_last_rating (rows : List ProductInteractionRow) (v : ProductRec) :
    (prodFold rows v).last_rating_at
      = (match (rows.filter (fun r => ratingTruthy r.rating)).getLast? with
         | none => v.last_rating_at
         | some r => some r.interaction_timestamp) := by
  induction rows using List.reverseRecOn with
  | nil => rfl
  | append_singleton tl r ih =>
      simp only [prodFold, List.foldl_append, List.foldl_cons, List.foldl_nil,
        List.filter_append] at ih ⊢
      rw [b2cProductStep_last_rating]
      by_cases h : ratingTruthy r.rating
      · simp [h]
      · simp only [h, if_false, Bool.false_eq_true, not_false_eq_true,
          List.filter_cons_of_neg, List.filter_nil, List.append_nil]
        exact ih

/-- Master characterisation of the B2C `aggregate_products` dict. -/
theorem lookupKey_b2cProductsState (rows : List ProductInteractionRow) (k : String) :
    lookupKey (b2cProductsState rows) k
      = if (prodAt rows k).isEmpty then none
        else some (prodFold (prodAt rows k) {}) := by
  unfold b2cProductsState
  rw [lookupKey_bump_foldl (fun r : ProductInteractionRow => r.product_id) {} b2cProductStep,
      optFold_eq]
  rw [show rows.filter (fun r => decide (r.product_id = k)) = prodAt rows k from rfl]
  have hlk : lookupKey ([] : List (String × ProductRec)) k = none := rfl
  rw [hlk]
  by_cases h : (prodAt rows k).isEmpty <;> simp [h, prodFold]

/-! ## Closed forms for the B2B `aggregate_products` -/

/-- The B2B product loop restricted to one key. -/
def b2bProdFold (rows : List ActionRow) (v : B2BProductRec) : B2BProductRec :=
  rows.foldl (fun v row => b2bProductStep row v) v

/-- Rows of the action list whose key field equals `k`. -/
def actionsAt (rows : List ActionRow) (k : String) : List ActionRow :=
  rows.filter (fun r => decide (r.product_id = k))

theorem b2bProductStep_pid (row : ActionRow) (e : B2BProductRec) :
    (b2bProductStep row e).product_id = some row.product_id := by
  simp only [b2bProductStep]
  split_ifs <;> rfl

theorem b2bProductStep_views (row : ActionRow) (e : B2BProductRec) :
    (b2bProductStep row e).views_count
      = if row.action_type = "view_product" then e.views_count + 1
        else e.views_count := by
  simp only [b2bProductStep]
  split_ifs <;> rfl

theorem b2bProductStep_last_view (row : ActionRow) (e : B2BProductRec) :
    (b2bProductStep row e).last_view_at
      = if row.action_type = "view_product" then maxStep e.last_view_at row.created_at
        else e.last_view_at := by
  simp only [b2bProductStep]
  split_ifs <;> rfl

theorem b2bProdFold_pid (rows : List ActionRow) (v : B2BProductRec) (k : String)
    (hk : ∀ r ∈ rows, r.product_id = k) :
    (b2bProdFold rows v).product_id
      = if rows.isEmpty then v.product_id else some k := by
  induction rows generalizing v with
  | nil => rfl
  | cons r tl ih =>
      simp only [b2bProdFold, List.foldl_cons] at ih ⊢
      rw [ih _ (fun r hr => hk r (List.mem_cons_of_mem _ hr))]
      cases htl : tl.isEmpty
      · simp
      · simp [b2bProductStep_pid, hk r (List.mem_cons_self _ _)]

theorem b2bProdFold_views (rows : List ActionRow) (v : B2BProductRec) :
    (b2bProdFold rows v).views_count
      = v.views_count
        + (rows.filter (fun r => decide (r.action_type = "view_product"))).length := by
  induction rows generalizing v with
  | nil => simp [b2bProdFold]
  | cons r tl ih =>
      simp only [b2bProdFold, List.foldl_cons] at ih ⊢
      rw [ih, List.filter_cons, b2bProductStep_views]
      by_cases h : r.action_type = "view_product" <;> simp [h] <;> omega

theorem b2bProdFold_last_view (rows : List ActionRow) (v : B2BProductRec) :
    (b2bProdFold rows v).last_view_at
      = listMaxFrom v.last_view_at
          ((rows.filter (fun r => decide (r.action_type = "view_product"))).map
            (·.created_at)) := by
  induction rows generalizing v with
  | nil => simp [b2bProdFold, listMaxFrom]
  | cons r tl ih =>
      simp only [b2bProdFold, List.foldl_cons] at ih ⊢
      rw [ih, List.filter_cons, b2bProductStep_last_view]
      by_cases h : r.action_type = "view_product" <;> simp [h, listMaxFrom]

/-- Master characterisation of the B2B `aggregate_products` dict. -/
theorem lookupKey_b2bProductsState (rows : List ActionRow) (k : String) :
    lookupKey (b2bProductsState rows) k
      = if (actionsAt rows k).isEmpty then none
        else some (b2bProdFold (actionsAt rows k) {}) := by
  unfold b2bProductsState
  rw [lookupKey_bump_foldl (fun r : ActionRow => r.product_id) {} b2bProductStep,
      optFold_eq]
  rw [show rows.filter (fun r => decide (r.product_id = k)) = actionsAt rows k from rfl]
  have hlk : lookupKey ([] : List (String × B2BProductRec)) k = none := rfl
  rw [hlk]
  by_cases h : (actionsAt rows k).isEmpty <;> simp [h, b2bProdFold]

/-! ## Closed forms for `aggregate_matches` -/

/-- The match-feedback loop restricted to one key pair. -/
def matchFold (rows : List FeedbackRow) (v : MatchRec) : MatchRec :=
  rows.foldl (fun v row => matchStep row v) v

/-- Rows of the feedback list whose key pair equals `kp`. -/
def feedbackAt (rows : List FeedbackRow) (kp : String × String) : List FeedbackRow :=
  rows.filter (fun r => decide ((r.source_product_id, r.target_product_id) = kp))

theorem matchStep_src (row : FeedbackRow) (e : MatchRec) :
    (matchStep row e).source_product_id = some row.source_product_id := by
  simp only [matchStep]
  split_ifs <;> rfl

theorem matchStep_tgt (row : FeedbackRow) (e : MatchRec) :
    (matchStep row e).target_product_id = some row.target_product_id := by
  simp only [matchStep]
  split_ifs <;> rfl

theorem matchStep_last_feedback (row : FeedbackRow) (e : MatchRec) :
    (matchStep row e).last_feedback_at = maxStep e.last_feedback_at row.created_at := by
  simp only [matchStep]
  split_ifs <;> rfl

theorem matchStep_approved (row : FeedbackRow) (e : MatchRec) :
    (matchStep row e).approved
      = if row.feedback_type = "approved" then true else e.approved := by
  simp only [matchStep]
  split_ifs <;> first | rfl | simp_all

theorem matchStep_rejected (row : FeedbackRow) (e : MatchRec) :
    (matchStep row e).rejected
      = if row.feedback_type = "rejected" then true else e.rejected := by
  simp only [matchStep]
  split_ifs <;> first | rfl | simp_all

theorem matchStep_reason (row : FeedbackRow) (e : MatchRec) :
    (matchStep row e).reason
      = if row.feedback_type = "rejected" then row.reason else e.reason := by
  simp only [matchStep]
  split_ifs <;> first | rfl | simp_all

theorem matchFold_src (rows : List FeedbackRow) (v : MatchRec) (kp : String × String)
    (hk : ∀ r ∈ rows, (r.source_product_id, r.target_product_id) = kp) :
    (matchFold rows v).source_product_id
      = if rows.isEmpty then v.source_product_id else some kp.1 := by
  induction rows generalizing v with
  | nil => rfl
  | cons r tl ih =>
      simp only [matchFold, List.foldl_cons] at ih ⊢
      rw [ih _ (fun r hr => hk r (List.mem_cons_of_mem _ hr))]
      cases htl : tl.isEmpty
      · simp
      · have := hk r (List.mem_cons_self _ _)
        have hs : r.source_product_id = kp.1 := by
          rw [← this]
        simp [matchStep_src, hs]

theorem matchFold_tgt (rows : List FeedbackRow) (v : MatchRec) (kp : String × String)
    (hk : ∀ r ∈ rows, (r.source_product_id, r.target_product_id) = kp) :
    (matchFold rows v).target_product_id
      = if rows.isEmpty then v.target_product_id else some kp.2 := by
  induction rows generalizing v with
  | nil => rfl
  | cons r tl ih =>
      simp only [matchFold, List.foldl_cons] at ih ⊢
      rw [ih _ (fun r hr => hk r (List.mem_cons_of_mem _ hr))]
      cases htl : tl.isEmpty
      · simp
      · have := hk r (List.mem_cons_self _ _)
        have ht : r.target_product_id = kp.2 := by
          rw [← this]
        simp [matchStep_tgt, ht]

theorem matchFold_approved (rows : List FeedbackRow) (v : MatchRec) :
    (matchFold rows v).approved
      = (v.approved
          || !(rows.filter (fun r => decide (r.feedback_type = "approved"))).isEmpty) := by
  induction rows generalizing v with
  | nil => simp [matchFold]
  | cons r tl ih =>
      simp only [matchFold, List.foldl_cons] at ih ⊢
      rw [ih, List.filter_cons, matchStep_approved]
      by_cases h : r.feedback_type = "approved" <;> simp [h]

theorem matchFold_rejected (rows : List FeedbackRow) (v : MatchRec) :
    (matchFold rows v).rejected
      = (v.rejected
          || !(rows.filter (fun r => decide (r.feedback_type = "rejected"))).isEmpty) := by
  induction rows generalizing v with
  | nil => simp [matchFold]
  | cons r tl ih =>
      simp only [matchFold, List.foldl_cons] at ih ⊢
      rw [ih, List.filter_cons, matchStep_rejected]
      by_cases h : r.feedback_type = "rejected" <;> simp [h]

theorem matchFold_reason (rows : List FeedbackRow) (v : MatchRec) :
    (matchFold rows v).reason
      = (match (rows.filter (fun r => decide (r.feedback_type = "rejected"))).getLast? with
         | none => v.reason
         | some r => r.reason) := by
  induction rows using List.reverseRecOn with
  | nil => rfl
  | append_singleton tl r ih =>
      simp only [matchFold, List.foldl_append, List.foldl_cons, List.foldl_nil,
        List.filter_append] at ih ⊢
      rw [matchStep_reason]
      by_cases h : r.feedback_type = "rejected"
      · simp [h]
      · simp only [h, if_false, decide_eq_true_eq, not_false_eq_true,
          List.filter_cons_of_neg, List.filter_nil, List.append_nil]
        exact ih

theorem matchFold_last_feedback (rows : List FeedbackRow) (v : MatchRec) :
    (matchFold rows v).last_feedback_at
      = listMaxFrom v.last_feedback_at (rows.map (·.created_at)) := by
  induction rows generalizing v with
  | nil => rfl
  | cons r tl ih =>
      simp only [matchFold, List.foldl_cons] at ih ⊢
      rw [ih]
      simp [matchStep_last_feedback, listMaxFrom]

/-- Master characterisation of the `aggregate_matches` dict. -/
theorem lookupKey_matchesState (rows : List FeedbackRow) (kp : String × String) :
    lookupKey (matchesState rows) kp
      = if (feedbackAt rows kp).isEmpty then none
        else some (matchFold (feedbackAt rows kp) {}) := by
  unfold matchesState
  rw [lookupKey_bump_foldl
        (fun r : FeedbackRow => (r.source_product_id, r.target_product_id)) {} matchStep,
      optFold_eq]
  rw [show rows.filter
        (fun r => decide ((r.source_product_id, r.target_product_id) = kp))
        = feedbackAt rows kp from rfl]
  have hlk : lookupKey ([] : List ((String × String) × MatchRec)) kp = none := rfl
  rw [hlk]
  by_cases h : (feedbackAt rows kp).isEmpty <;> simp [h, matchFold]

/-! ## Bridging lemmas between dict states and the output lists -/

theorem nodup_keysOf_recipesState (history : List HistoryRow) (saved : List SavedRow)
    (ratings : List RatingRow) :
    (keysOf (recipesState history saved ratings)).Nodup := by
  unfold recipesState
  exact nodup_keysOf_foldl_bump _ _ _ _ _
    (nodup_keysOf_foldl_bump _ _ _ _ _
      (nodup_keysOf_foldl_bump _ _ _ _ _ (by simp [keysOf])))

theorem mem_keysOf_recipesState (history : List HistoryRow) (saved : List SavedRow)
    (ratings : List RatingRow) (k : String) :
    k ∈ keysOf (recipesState history saved ratings)
      ↔ k ∈ history.map (·.recipe_id) ∨ k ∈ saved.map (·.recipe_id)
        ∨ k ∈ ratings.map (·.recipe_id) := by
  unfold recipesState
  rw [mem_keysOf_foldl_bump (fun r : RatingRow => r.recipe_id) {} ratingStep,
      mem_keysOf_foldl_bump (fun r : SavedRow => r.recipe_id) {} savedStep,
      mem_keysOf_foldl_bump (fun r : HistoryRow => r.recipe_id) {} historyStep]
  simp only [keysOf, List.map_nil, List.not_mem_nil, or_false]
  tauto

theorem nodup_keysOf_b2cProductsState (rows : List ProductInteractionRow) :
    (keysOf (b2cProductsState rows)).Nodup := by
  unfold b2cProductsState
  exact nodup_keysOf_foldl_bump _ _ _ _ _ (by simp [keysOf])

theorem mem_keysOf_b2cProductsState (rows : List ProductInteractionRow) (k : String) :
    k ∈ keysOf (b2cProductsState rows) ↔ k ∈ rows.map (·.product_id) := by
  unfold b2cProductsState
  rw [mem_keysOf_foldl_bump (fun r : ProductInteractionRow => r.product_id) {} b2cProductStep]
  simp [keysOf]

theorem nodup_keysOf_b2bProductsState (rows : List ActionRow) :
    (keysOf (b2bProductsState rows)).Nodup := by
  unfold b2bProductsState
  exact nodup_keysOf_foldl_bump _ _ _ _ _ (by simp [keysOf])

theorem mem_keysOf_b2bProductsState (rows : List ActionRow) (k : String) :
    k ∈ keysOf (b2bProductsState rows) ↔ k ∈ rows.map (·.product_id) := by
  unfold b2bProductsState
  rw [mem_keysOf_foldl_bump (fun r : ActionRow => r.product_id) {} b2bProductStep]
  simp [keysOf]

theorem nodup_keysOf_matchesState (rows : List FeedbackRow) :
    (keysOf (matchesState rows)).Nodup := by
  unfold matchesState
  exact nodup_keysOf_foldl_bump _ _ _ _ _ (by simp [keysOf])

theorem mem_keysOf_matchesState (rows : List FeedbackRow) (kp : String × String) :
    kp ∈ keysOf (matchesState rows)
      ↔ kp ∈ rows.map (fun r => (r.source_product_id, r.target_product_id)) := by
  unfold matchesState
  rw [mem_keysOf_foldl_bump
        (fun r : FeedbackRow => (r.source_product_id, r.target_product_id)) {} matchStep]
  simp [keysOf]

/-- Every output record of `aggregate_recipes` is, for some key `k` present
in the inputs, the per-key loop composition. -/
theorem mem_aggregate_recipes_elim (history : List HistoryRow) (saved : List SavedRow)
    (ratings : List RatingRow) (rec : RecipeRec)
    (hmem : rec ∈ aggregate_recipes history saved ratings) :
    ∃ k, ¬((histAt history k).isEmpty ∧ (savedAt saved k).isEmpty
            ∧ (ratingsAt ratings k).isEmpty)
      ∧ rec = ratingFold (ratingsAt ratings k)
                (savedFold (savedAt saved k) (histFold (histAt history k) {})) := by
  rcases (mem_map_snd_iff _ _).mp hmem with ⟨k, hk⟩
  have hl := lookupKey_of_mem _ _ _ (nodup_keysOf_recipesState history saved ratings) hk
  rw [lookupKey_recipesState] at hl
  by_cases hcond : (histAt history k).isEmpty ∧ (savedAt saved k).isEmpty
      ∧ (ratingsAt ratings k).isEmpty
  · rw [if_pos hcond] at hl
    exact absurd hl (by simp)
  · rw [if_neg hcond] at hl
    exact ⟨k, hcond, by injection hl with h; exact h.symm⟩

/-- Every output record of the B2C `aggregate_products` is the per-key loop
on a nonempty per-key row list. -/
theorem mem_aggregate_products_b2c_elim (rows : List ProductInteractionRow)
    (rec : ProductRec) (hmem : rec ∈ aggregate_products_b2c rows) :
    ∃ k, ¬(prodAt rows k).isEmpty ∧ rec = prodFold (prodAt rows k) {} := by
  rcases (mem_map_snd_iff _ _).mp hmem with ⟨k, hk⟩
  have hl := lookupKey_of_mem _ _ _ (nodup_keysOf_b2cProductsState rows) hk
  rw [lookupKey_b2cProductsState] at hl
  by_cases hcond : (prodAt rows k).isEmpty
  · rw [if_pos hcond] at hl
    exact absurd hl (by simp)
  · rw [if_neg hcond] at hl
    exact ⟨k, hcond, by injection hl with h; exact h.symm⟩

/-- Every output record of the B2B `aggregate_products` is the per-key loop
on a nonempty per-key row list. -/
theorem mem_aggregate_products_b2b_elim (rows : List ActionRow)
    (rec : B2BProductRec) (hmem : rec ∈ aggregate_products_b2b rows) :
    ∃ k, ¬(actionsAt rows k).isEmpty ∧ rec = b2bProdFold (actionsAt rows k) {} := by
  rcases (mem_map_snd_iff _ _).mp hmem with ⟨k, hk⟩
  have hl := lookupKey_of_mem _ _ _ (nodup_keysOf_b2bProductsState rows) hk
  rw [lookupKey_b2bProductsState] at hl
  by_cases hcond : (actionsAt rows k).isEmpty
  · rw [if_pos hcond] at hl
    exact absurd hl (by simp)
  · rw [if_neg hcond] at hl
    exact ⟨k, hcond, by injection hl with h; exact h.symm⟩

/-- Every output record of `aggregate_matches` is the per-key loop on a
nonempty per-key row list. -/
theorem mem_aggregate_matches_elim (rows : List FeedbackRow)
    (rec : MatchRec) (hmem : rec ∈ aggregate_matches rows) :
    ∃ kp, ¬(feedbackAt rows kp).isEmpty ∧ rec = matchFold (feedbackAt rows kp) {} := by
  rcases (mem_map_snd_iff _ _).mp hmem with ⟨kp, hk⟩
  have hl := lookupKey_of_mem _ _ _ (nodup_keysOf_matchesState rows) hk
  rw [lookupKey_matchesState] at hl
  by_cases hcond : (feedbackAt rows kp).isEmpty
  · rw [if_pos hcond] at hl
    exact absurd hl (by simp)
  · rw [if_neg hcond] at hl
    exact ⟨kp, hcond, by injection hl with h; exact h.symm⟩

theorem mem_prodAt (rows : List ProductInteractionRow) (k : String) :
    ∀ r ∈ prodAt rows k, r.product_id = k := by
  intro r hr
  have := List.of_mem_filter hr
  simpa using this

theorem mem_histAt (rows : List HistoryRow) (k : String) :
    ∀ r ∈ histAt rows k, r.recipe_id = k := by
  intro r hr
  have := List.of_mem_filter hr
  simpa using this

theorem mem_savedAt (rows : List SavedRow) (k : String) :
    ∀ r ∈ savedAt rows k, r.recipe_id = k := by
  intro r hr
  have := List.of_mem_filter hr
  simpa using this

theorem mem_ratingsAt (rows : List RatingRow) (k : String) :
    ∀ r ∈ ratingsAt rows k, r.recipe_id = k := by
  intro r hr
  have := List.of_mem_filter hr
  simpa using this

theorem mem_actionsAt (rows : List ActionRow) (k : String) :
    ∀ r ∈ actionsAt rows k, r.product_id = k := by
  intro r hr
  have := List.of_mem_filter hr
  simpa using this

theorem mem_feedbackAt (rows : List FeedbackRow) (kp : String × String) :
    ∀ r ∈ feedbackAt rows kp, (r.source_product_id, r.target_product_id) = kp := by
  intro r hr
  have := List.of_mem_filter hr
  simpa using this

theorem listMaxFrom_none (l : List Nat) : listMaxFrom none l = listMax l := rfl

theorem listMinFrom_none (l : List Nat) : listMinFrom none l = listMin l := rfl

/-- Recipe id of the three-loop composition at key `k` is `some k` whenever
some input mentions `k`. -/
theorem recipes_comp_id (history : List HistoryRow) (saved : List SavedRow)
    (ratings : List RatingRow) (k : String)
    (hne : ¬((histAt history k).isEmpty ∧ (savedAt saved k).isEmpty
              ∧ (ratingsAt ratings k).isEmpty)) :
    (ratingFold (ratingsAt ratings k)
      (savedFold (savedAt saved k) (histFold (histAt history k) {}))).recipe_id
      = some k := by
  rw [ratingFold_id _ _ k (mem_ratingsAt ratings k)]
  by_cases h3 : (ratingsAt ratings k).isEmpty
  · rw [if_pos h3, savedFold_id _ _ k (mem_savedAt saved k)]
    by_cases h2 : (savedAt saved k).isEmpty
    · rw [if_pos h2, histFold_id _ _ k (mem_histAt history k)]
      have h1 : ¬(histAt history k).isEmpty := fun h1 => hne ⟨h1, h2, h3⟩
      simp [h1]
    · simp [h2]
  · simp [h3]

/-- C4: Aggregation fold correctness.  For every input row list, counting
fields equal the number of qualifying rows of that subtype, `last_*`
timestamp fields equal the maximum timestamp over the contributing rows and
`first_saved_at` equals the minimum; `aggregate_products` on
`[view t1, view t2, purchase t3]` yields `views_count = 2`,
`last_view_at = max t1 t2` and `purchases_count = 1`; on the empty input
list the aggregators return the empty record list (so every aggregate field
of every returned record is trivially 0/false/unset). -/
theorem aggregation_fold_correctness :
    (∀ (rows : List ProductInteractionRow) (rec : ProductRec),
        rec ∈ aggregate_products_b2c rows →
        ∃ k, rec.product_id = some k
          ∧ rec.views_count
              = ((prodAt rows k).filter
                  (fun r => decide (r.interaction_type = "viewed"))).length
          ∧ rec.last_view_at
              = listMax (((prodAt rows k).filter
                  (fun r => decide (r.interaction_type = "viewed"))).map
                    (·.interaction_timestamp))
          ∧ rec.purchases_count
              = ((prodAt rows k).filter
                  (fun r => decide (r.interaction_type = "purchased"))).length
          ∧ rec.last_purchase_at
              = listMax (((prodAt rows k).filter
                  (fun r => decide (r.interaction_type = "purchased"))).map
                    (·.interaction_timestamp)))
    ∧ (∀ (history : List HistoryRow) (saved : List SavedRow)
          (ratings : List RatingRow) (rec : RecipeRec),
        rec ∈ aggregate_recipes history saved ratings →
        ∃ k, rec.recipe_id = some k
          ∧ rec.views_count
              = ((histAt history k).filter
                  (fun r => decide (r.event_type = "viewed"))).length
          ∧ rec.last_view_at
              = listMax (((histAt history k).filter
                  (fun r => decide (r.event_type = "viewed"))).map (·.event_at))
          ∧ rec.cooks_count
              = ((histAt history k).filter
                  (fun r => decide (r.event_type = "cooked"))).length
          ∧ rec.last_cook_at
              = listMax (((histAt history k).filter
                  (fun r => decide (r.event_type = "cooked"))).map (·.event_at))
          ∧ rec.first_saved_at = listMin ((savedAt saved k).map (·.saved_at)))
    ∧ (∀ t1 t2 t3 : Nat,
        aggregate_products_b2c
            [⟨"p", "viewed", none, none, none, t1⟩,
             ⟨"p", "viewed", none, none, none, t2⟩,
             ⟨"p", "purchased", none, none, none, t3⟩]
          = [{ product_id := some "p", views_count := 2,
               last_view_at := some (max t1 t2), purchases_count := 1,
               last_purchase_at := some t3 }])
    ∧ aggregate_products_b2c [] = [] ∧ aggregate_recipes [] [] [] = [] := by
  refine ⟨?_, ?_, ?_, rfl, rfl⟩
  · intro rows rec hmem
    obtain ⟨k, hne, rfl⟩ := mem_aggregate_products_b2c_elim rows rec hmem
    refine ⟨k, ?_, ?_, ?_, ?_, ?_⟩
    · rw [prodFold_pid _ _ k (mem_prodAt rows k)]
      simp [hne]
    · rw [prodFold_views]
      simp
    · rw [prodFold_last_view, listMaxFrom_none]
    · rw [prodFold_purchases]
      simp
    · rw [prodFold_last_purchase, listMaxFrom_none]
  · intro history saved ratings rec hmem
    obtain ⟨k, hne, rfl⟩ := mem_aggregate_recipes_elim history saved ratings rec hmem
    refine ⟨k, recipes_comp_id history saved ratings k hne, ?_, ?_, ?_, ?_, ?_⟩
    · rw [ratingFold_views, savedFold_views, histFold_views]
      simp
    · rw [ratingFold_last_view, savedFold_last_view, histFold_last_view,
        listMaxFrom_none]
    · rw [ratingFold_cooks, savedFold_cooks, histFold_cooks]
      simp
    · rw [ratingFold_last_cook, savedFold_last_cook, histFold_last_cook,
        listMaxFrom_none]
    · rw [ratingFold_first_saved, savedFold_first_saved, histFold_first_saved,
        listMinFrom_none]
  · intro t1 t2 t3
    rfl

/-- Witness for C4: the general conjuncts applied to a concrete one-row
input. -/
theorem aggregation_fold_correctness_witness :
    (∃ k, (({ product_id := some "p", views_count := 1,
              last_view_at := some 5 } : ProductRec)).product_id = some k
      ∧ (({ product_id := some "p", views_count := 1,
            last_view_at := some 5 } : ProductRec)).views_count
          = ((prodAt [⟨"p", "viewed", none, none, none, 5⟩] k).filter
              (fun r => decide (r.interaction_type = "viewed"))).length
      ∧ (({ product_id := some "p", views_count := 1,
            last_view_at := some 5 } : ProductRec)).last_view_at
          = listMax (((prodAt [⟨"p", "viewed", none, none, none, 5⟩] k).filter
              (fun r => decide (r.interaction_type = "viewed"))).map
                (·.interaction_timestamp))
      ∧ (({ product_id := some "p", views_count := 1,
            last_view_at := some 5 } : ProductRec)).purchases_count
          = ((prodAt [⟨"p", "viewed", none, none, none, 5⟩] k).filter
              (fun r => decide (r.interaction_type = "purchased"))).length
      ∧ (({ product_id := some "p", views_count := 1,
            last_view_at := some 5 } : ProductRec)).last_purchase_at
          = listMax (((prodAt [⟨"p", "viewed", none, none, none, 5⟩] k).filter
              (fun r => decide (r.interaction_type = "purchased"))).map
                (·.interaction_timestamp))) :=
  aggregation_fold_correctness.1 [⟨"p", "viewed", none, none, none, 5⟩]
    { product_id := some "p", views_count := 1, last_view_at := some 5 }
    (by decide)

theorem histAt_isEmpty_iff (rows : List HistoryRow) (k : String) :
    (histAt rows k).isEmpty = true ↔ k ∉ rows.map (·.recipe_id) := by
  simp only [histAt, List.isEmpty_iff, List.filter_eq_nil_iff, List.mem_map,
    decide_eq_true_eq]
  push_neg
  constructor
  · intro h r hr hk
    exact h r hr hk
  · intro h r hr hk
    exact h r hr hk

theorem savedAt_isEmpty_iff (rows : List SavedRow) (k : String) :
    (savedAt rows k).isEmpty = true ↔ k ∉ rows.map (·.recipe_id) := by
  simp only [savedAt, List.isEmpty_iff, List.filter_eq_nil_iff, List.mem_map,
    decide_eq_true_eq]
  push_neg
  constructor
  · intro h r hr hk
    exact h r hr hk
  · intro h r hr hk
    exact h r hr hk

theorem ratingsAt_isEmpty_iff (rows : List RatingRow) (k : String) :
    (ratingsAt rows k).isEmpty = true ↔ k ∉ rows.map (·.recipe_id) := by
  simp only [ratingsAt, List.isEmpty_iff, List.filter_eq_nil_iff, List.mem_map,
    decide_eq_true_eq]
  push_neg
  constructor
  · intro h r hr hk
    exact h r hr hk
  · intro h r hr hk
    exact h r hr hk

theorem prodAt_isEmpty_iff (rows : List ProductInteractionRow) (k : String) :
    (prodAt rows k).isEmpty = true ↔ k ∉ rows.map (·.product_id) := by
  simp only [prodAt, List.isEmpty_iff, List.filter_eq_nil_iff, List.mem_map,
    decide_eq_true_eq]
  push_neg
  constructor
  · intro h r hr hk
    exact h r hr hk
  · intro h r hr hk
    exact h r hr hk

theorem actionsAt_isEmpty_iff (rows : List ActionRow) (k : String) :
    (actionsAt rows k).isEmpty = true ↔ k ∉ rows.map (·.product_id) := by
  simp only [actionsAt, List.isEmpty_iff, List.filter_eq_nil_iff, List.mem_map,
    decide_eq_true_eq]
  push_neg
  constructor
  · intro h r hr hk
    exact h r hr hk
  · intro h r hr hk
    exact h r hr hk

theorem feedbackAt_isEmpty_iff (rows : List FeedbackRow) (kp : String × String) :
    (feedbackAt rows kp).isEmpty = true
      ↔ kp ∉ rows.map (fun r => (r.source_product_id, r.target_product_id)) := by
  simp only [feedbackAt, List.isEmpty_iff, List.filter_eq_nil_iff, List.mem_map,
    decide_eq_true_eq]
  push_neg
  constructor
  · intro h r hr hk
    exact h r hr hk
  · intro h r hr hk
    exact h r hr hk

theorem recipeRecExt (a b : RecipeRec)
    (h1 : a.recipe_id = b.recipe_id) (h2 : a.views_count = b.views_count)
    (h3 : a.last_view_at = b.last_view_at) (h4 : a.cooks_count = b.cooks_count)
    (h5 : a.last_cook_at = b.last_cook_at) (h6 : a.saved = b.saved)
    (h7 : a.first_saved_at = b.first_saved_at) (h8 : a.rating = b.rating)
    (h9 : a.last_rating_at = b.last_rating_at) : a = b := by
  cases a
  cases b
  simp_all

theorem productRecExt (a b : ProductRec)
    (h1 : a.product_id = b.product_id) (h2 : a.views_count = b.views_count)
    (h3 : a.last_view_at = b.last_view_at) (h4 : a.purchases_count = b.purchases_count)
    (h5 : a.last_purchase_at = b.last_purchase_at) (h6 : a.saved = b.saved)
    (h7 : a.rating = b.rating) (h8 : a.last_rating_at = b.last_rating_at)
    (h9 : a.quantity_total = b.quantity_total) (h10 : a.price_total = b.price_total) :
    a = b := by
  cases a
  cases b
  simp_all

theorem b2bProductRecExt (a b : B2BProductRec)
    (h1 : a.product_id = b.product_id) (h2 : a.views_count = b.views_count)
    (h3 : a.last_view_at = b.last_view_at) : a = b := by
  cases a
  cases b
  simp_all

theorem recipesState_id_inv (history : List HistoryRow) (saved : List SavedRow)
    (ratings : List RatingRow) :
    ∀ p ∈ recipesState history saved ratings, p.2.recipe_id = some p.1 := by
  unfold recipesState
  refine foldl_bump_forall (fun k' rec => rec.recipe_id = some k')
    (fun r : RatingRow => r.recipe_id) {} ratingStep _ _ ?_ (fun row v => rfl)
  refine foldl_bump_forall (fun k' rec => rec.recipe_id = some k')
    (fun r : SavedRow => r.recipe_id) {} savedStep _ _ ?_ (fun row v => rfl)
  refine foldl_bump_forall (fun k' rec => rec.recipe_id = some k')
    (fun r : HistoryRow => r.recipe_id) {} historyStep _ _ ?_
    (fun row v => historyStep_id row v)
  intro p hp
  simp at hp

theorem b2cProductsState_id_inv (rows : List ProductInteractionRow) :
    ∀ p ∈ b2cProductsState rows, p.2.product_id = some p.1 := by
  unfold b2cProductsState
  refine foldl_bump_forall (fun k' rec => rec.product_id = some k')
    (fun r : ProductInteractionRow => r.product_id) {} b2cProductStep _ _ ?_
    (fun row v => b2cProductStep_pid row v)
  intro p hp
  simp at hp

theorem b2bProductsState_id_inv (rows : List ActionRow) :
    ∀ p ∈ b2bProductsState rows, p.2.product_id = some p.1 := by
  unfold b2bProductsState
  refine foldl_bump_forall (fun k' rec => rec.product_id = some k')
    (fun r : ActionRow => r.product_id) {} b2bProductStep _ _ ?_
    (fun row v => b2bProductStep_pid row v)
  intro p hp
  simp at hp

theorem matchesState_id_inv (rows : List FeedbackRow) :
    ∀ p ∈ matchesState rows,
      p.2.source_product_id = some p.1.1 ∧ p.2.target_product_id = some p.1.2 := by
  unfold matchesState
  refine foldl_bump_forall
    (fun kp rec => rec.source_product_id = some kp.1 ∧ rec.target_product_id = some kp.2)
    (fun r : FeedbackRow => (r.source_product_id, r.target_product_id)) {} matchStep _ _ ?_
    (fun row v => ⟨matchStep_src row v, matchStep_tgt row v⟩)
  intro p hp
  simp at hp

/-- C7: Source merging.  `aggregate_recipes` returns exactly one record per
distinct `recipe_id` appearing in any of the three inputs, and a recipe id
appearing only in `saved` still yields a complete record whose
history/rating-fed fields sit at their defaults (`views_count = 0`,
`cooks_count = 0`, `rating` unset, `saved = true`). -/
theorem source_merging_one_record_per_id (history : List HistoryRow)
    (saved : List SavedRow) (ratings : List RatingRow) :
    (∀ k : String,
      ((aggregate_recipes history saved ratings).filter
          (fun r => decide (r.recipe_id = some k))).length
        = if k ∈ history.map (·.recipe_id) ∨ k ∈ saved.map (·.recipe_id)
             ∨ k ∈ ratings.map (·.recipe_id) then 1 else 0)
    ∧ (∀ k : String,
        k ∉ history.map (·.recipe_id) → k ∉ ratings.map (·.recipe_id) →
        k ∈ saved.map (·.recipe_id) →
        ({ recipe_id := some k, saved := true,
           first_saved_at := listMin ((savedAt saved k).map (·.saved_at)) } : RecipeRec)
          ∈ aggregate_recipes history saved ratings) := by
  constructor
  · intro k
    have hP : ∀ p ∈ recipesState history saved ratings,
        (fun r : RecipeRec => decide (r.recipe_id = some k)) p.2 = true → p.1 = k := by
      intro p hp hdec
      have hid := recipesState_id_inv history saved ratings p hp
      simp only [decide_eq_true_eq, hid] at hdec
      simpa using hdec
    show (((recipesState history saved ratings).map Prod.snd).filter _).length = _
    rw [length_filter_map_snd _ _ k (nodup_keysOf_recipesState history saved ratings) hP,
      lookupKey_recipesState]
    by_cases hmem : k ∈ history.map (·.recipe_id) ∨ k ∈ saved.map (·.recipe_id)
        ∨ k ∈ ratings.map (·.recipe_id)
    · have hcond : ¬((histAt history k).isEmpty ∧ (savedAt saved k).isEmpty
          ∧ (ratingsAt ratings k).isEmpty) := by
        rw [histAt_isEmpty_iff, savedAt_isEmpty_iff, ratingsAt_isEmpty_iff]
        tauto
      rw [if_neg hcond, if_pos hmem]
      simp [recipes_comp_id history saved ratings k hcond]
    · have hcond : ((histAt history k).isEmpty ∧ (savedAt saved k).isEmpty
          ∧ (ratingsAt ratings k).isEmpty) := by
        rw [histAt_isEmpty_iff, savedAt_isEmpty_iff, ratingsAt_isEmpty_iff]
        tauto
      rw [if_pos hcond, if_neg hmem]
  · intro k h1 h2 h3
    have he1 : histAt history k = [] :=
      List.isEmpty_iff.mp ((histAt_isEmpty_iff history k).mpr h1)
    have he2 : ratingsAt ratings k = [] :=
      List.isEmpty_iff.mp ((ratingsAt_isEmpty_iff ratings k).mpr h2)
    have he3 : ¬(savedAt saved k).isEmpty = true := by
      rw [savedAt_isEmpty_iff]
      simpa using h3
    have hcond : ¬((histAt history k).isEmpty ∧ (savedAt saved k).isEmpty
        ∧ (ratingsAt ratings k).isEmpty) := fun hc => he3 hc.2.1
    have hx : lookupKey (recipesState history saved ratings) k
        = some (ratingFold (ratingsAt ratings k)
            (savedFold (savedAt saved k) (histFold (histAt history k) {}))) := by
      rw [lookupKey_recipesState, if_neg hcond]
    rw [he1, he2] at hx
    have hfold : ratingFold [] (savedFold (savedAt saved k) (histFold [] {}))
        = savedFold (savedAt saved k) {} := rfl
    rw [hfold] at hx
    have heq : savedFold (savedAt saved k) {}
        = ({ recipe_id := some k, saved := true,
             first_saved_at := listMin ((savedAt saved k).map (·.saved_at)) } : RecipeRec) := by
      refine recipeRecExt _ _ ?_ ?_ ?_ ?_ ?_ ?_ ?_ ?_ ?_
      · rw [savedFold_id _ _ k (mem_savedAt saved k)]
        simp [he3]
      · rw [savedFold_views]
      · rw [savedFold_last_view]
      · rw [savedFold_cooks]
      · rw [savedFold_last_cook]
      · rw [savedFold_saved]
        simpa using he3
      · rw [savedFold_first_saved, listMinFrom_none]
      · rw [savedFold_rating]
      · rw [savedFold_last_rating]
    rw [heq] at hx
    exact (mem_map_snd_iff _ _).mpr ⟨k, mem_of_lookupKey _ _ _ hx⟩

/-- Witness for C7: both conjuncts evaluated on a concrete saved-only
input. -/
theorem source_merging_one_record_per_id_witness :
    ((((aggregate_recipes [] [⟨"r", 4⟩] []).filter
        (fun r => decide (r.recipe_id = some "r"))).length = 1)
      ∧ ({ recipe_id := some "r", saved := true,
           first_saved_at := listMin ((savedAt [⟨"r", 4⟩] "r").map (·.saved_at)) } : RecipeRec)
          ∈ aggregate_recipes [] [⟨"r", 4⟩] []) := by
  constructor
  · have h := (source_merging_one_record_per_id [] [⟨"r", 4⟩] []).1 "r"
    rw [h]
    simp
  · exact (source_merging_one_record_per_id [] [⟨"r", 4⟩] []).2 "r"
      (by simp) (by simp) (by simp)

/-- C8: Dual match-feedback flags.  If, for the same (source, target) pair,
the feedback list contains at least one `approved` and at least one
`rejected` row, the record `aggregate_matches` returns for that pair has
`approved = true` and `rejected = true` simultaneously. -/
theorem dual_match_feedback_flags (feedback : List FeedbackRow) (s t : String)
    (ha : ∃ row ∈ feedback, row.source_product_id = s ∧ row.target_product_id = t
            ∧ row.feedback_type = "approved")
    (hr : ∃ row ∈ feedback, row.source_product_id = s ∧ row.target_product_id = t
            ∧ row.feedback_type = "rejected") :
    ∃ rec ∈ aggregate_matches feedback,
      rec.source_product_id = some s ∧ rec.target_product_id = some t
        ∧ rec.approved = true ∧ rec.rejected = true := by
  have hmemA : ∃ row ∈ feedbackAt feedback (s, t), row.feedback_type = "approved" := by
    obtain ⟨row, hrow, hs, ht, hf⟩ := ha
    exact ⟨row, List.mem_filter.mpr ⟨hrow, by simp [hs, ht]⟩, hf⟩
  have hmemR : ∃ row ∈ feedbackAt feedback (s, t), row.feedback_type = "rejected" := by
    obtain ⟨row, hrow, hs, ht, hf⟩ := hr
    exact ⟨row, List.mem_filter.mpr ⟨hrow, by simp [hs, ht]⟩, hf⟩
  have hne : ¬(feedbackAt feedback (s, t)).isEmpty = true := by
    obtain ⟨row, hrow, _⟩ := hmemA
    rw [List.isEmpty_iff]
    exact List.ne_nil_of_mem hrow
  have hx : lookupKey (matchesState feedback) (s, t)
      = some (matchFold (feedbackAt feedback (s, t)) {}) := by
    rw [lookupKey_matchesState, if_neg hne]
  refine ⟨matchFold (feedbackAt feedback (s, t)) {},
    (mem_map_snd_iff _ _).mpr ⟨(s, t), mem_of_lookupKey _ _ _ hx⟩, ?_, ?_, ?_, ?_⟩
  · rw [matchFold_src _ _ (s, t) (mem_feedbackAt feedback (s, t))]
    simp [hne]
  · rw [matchFold_tgt _ _ (s, t) (mem_feedbackAt feedback (s, t))]
    simp [hne]
  · rw [matchFold_approved]
    obtain ⟨row, hrow, hf⟩ := hmemA
    have : row ∈ (feedbackAt feedback (s, t)).filter
        (fun r => decide (r.feedback_type = "approved")) :=
      List.mem_filter.mpr ⟨hrow, by simp [hf]⟩
    simp [List.isEmpty_iff, List.ne_nil_of_mem this]
  · rw [matchFold_rejected]
    obtain ⟨row, hrow, hf⟩ := hmemR
    have : row ∈ (feedbackAt feedback (s, t)).filter
        (fun r => decide (r.feedback_type = "rejected")) :=
      List.mem_filter.mpr ⟨hrow, by simp [hf]⟩
    simp [List.isEmpty_iff, List.ne_nil_of_mem this]

/-- Witness for C8: a pair with one approved and one rejected row. -/
theorem dual_match_feedback_flags_witness :
    ∃ rec ∈ aggregate_matches
        [⟨"s", "t", "approved", none, 1⟩, ⟨"s", "t", "rejected", some "off", 2⟩],
      rec.source_product_id = some "s" ∧ rec.target_product_id = some "t"
        ∧ rec.approved = true ∧ rec.rejected = true :=
  dual_match_feedback_flags
    [⟨"s", "t", "approved", none, 1⟩, ⟨"s", "t", "rejected", some "off", 2⟩] "s" "t"
    ⟨⟨"s", "t", "approved", none, 1⟩, by simp, rfl, rfl, rfl⟩
    ⟨⟨"s", "t", "rejected", some "off", 2⟩, by simp, rfl, rfl, rfl⟩

/-! ## Graph model

The Cypher strings returned by `_upsert_cypher` and `_delete_cypher` are
embedded as transformations of an explicit graph state.  Nodes are keyed by
(label, id); edges by (source label, source id, relationship kind,
destination label, destination id) — Cypher MERGE on a relationship pattern
matches by endpoints and kind, so `source_product_id` on match edges is an
ordinary property, not part of the key.  `SET` clauses become first-match
property updates; `DELETE` of the managed relationship kinds becomes a
filter; `DETACH DELETE` removes the node and every incident edge.  Node
operations and relationship operations act on disjoint components of the
state, so the per-record node MERGE and edge FOREACHes of one UNWIND are
split into one node fold and one edge fold without changing the result. -/

/-- A property value stored on a node or relationship. -/
inductive GVal where
  | s (v : String)
  | n (v : Nat)
  | b (v : Bool)
  | null
deriving DecidableEq

/-- The `datetime(x)` conversion applied to a nullable timestamp:
`datetime(null)` is null. -/
def tval : Option Nat → GVal
  | none => GVal.null
  | some t => GVal.n t

/-- A nullable string property value. -/
def sval : Option String → GVal
  | none => GVal.null
  | some v => GVal.s v

/-- Property map of a node or relationship. -/
def PropList : Type := List (String × GVal)

instance : DecidableEq PropList := by
  unfold PropList
  infer_instance

/-- `SET x.k = v`: update the first occurrence of the property, appending it
when absent. -/
def setProp : PropList → String → GVal → PropList
  | [], k, v => [(k, v)]
  | (k', v') :: tl, k, v =>
      if k' = k then (k, v) :: tl else (k', v') :: setProp tl k v

/-- A graph node. -/
structure GNode where
  label : String
  id : String
  props : PropList
deriving DecidableEq

/-- A graph relationship. -/
structure GEdge where
  srcLabel : String
  srcId : String
  kind : String
  dstLabel : String
  dstId : String
  props : PropList
deriving DecidableEq

/-- The graph state. -/
structure Graph where
  nodes : List GNode
  edges : List GEdge
deriving DecidableEq

/-- `MERGE (x:Label {id: i}) [SET ...]`: update the first matching node in
place, or append a fresh node whose properties are the setter applied to the
empty map. -/
def mergeNode (ns : List GNode) (label id : String) (f : PropList → PropList) :
    List GNode :=
  match ns with
  | [] => [⟨label, id, f []⟩]
  | n :: tl =>
      if n.label = label ∧ n.id = id then ⟨label, id, f n.props⟩ :: tl
      else n :: mergeNode tl label id f

/-- The match key of a relationship MERGE pattern. -/
structure EdgeKey where
  srcLabel : String
  srcId : String
  kind : String
  dstLabel : String
  dstId : String
deriving DecidableEq

/-- Does a stored relationship match a MERGE pattern key? -/
def edgeHasKey (e : GEdge) (k : EdgeKey) : Prop :=
  e.srcLabel = k.srcLabel ∧ e.srcId = k.srcId ∧ e.kind = k.kind
    ∧ e.dstLabel = k.dstLabel ∧ e.dstId = k.dstId

instance (e : GEdge) (k : EdgeKey) : Decidable (edgeHasKey e k) := by
  unfold edgeHasKey
  infer_instance

/-- `MERGE (u)-[r:KIND]->(x) [SET ...]`: update the first matching
relationship in place, or append a fresh one. -/
def mergeEdge (es : List GEdge) (k : EdgeKey) (f : PropList → PropList) :
    List GEdge :=
  match es with
  | [] => [⟨k.srcLabel, k.srcId, k.kind, k.dstLabel, k.dstId, f []⟩]
  | e :: tl =>
      if edgeHasKey e k then
        ⟨k.srcLabel, k.srcId, k.kind, k.dstLabel, k.dstId, f e.props⟩ :: tl
      else e :: mergeEdge tl k f

/-- An edge deleted by the B2C recipe-edge clearing clause
`OPTIONAL MATCH (u)-[r:VIEWED|COOKED|SAVED|RATED]->(:Recipe) DELETE r`. -/
def isRecipeEdgeB2C (uid : String) (e : GEdge) : Bool :=
  decide (e.srcLabel = "B2CCustomer" ∧ e.srcId = uid
    ∧ (e.kind = "VIEWED" ∨ e.kind = "COOKED" ∨ e.kind = "SAVED" ∨ e.kind = "RATED")
    ∧ e.dstLabel = "Recipe")

/-- An edge deleted by the B2C product-edge clearing clause. -/
def isProductEdgeB2C (uid : String) (e : GEdge) : Bool :=
  decide (e.srcLabel = "B2CCustomer" ∧ e.srcId = uid
    ∧ (e.kind = "VIEWED_PRODUCT" ∨ e.kind = "PURCHASED"
        ∨ e.kind = "SAVED_PRODUCT" ∨ e.kind = "RATED_PRODUCT")
    ∧ e.dstLabel = "Product")

/-- An edge deleted by the B2B product-edge clearing clause. -/
def isProductEdgeB2B (uid : String) (e : GEdge) : Bool :=
  decide (e.srcLabel = "VendorUser" ∧ e.srcId = uid
    ∧ e.kind = "VIEWED_PRODUCT" ∧ e.dstLabel = "Product")

/-- An edge deleted by the B2B match-edge clearing clause. -/
def isMatchEdgeB2B (uid : String) (e : GEdge) : Bool :=
  decide (e.srcLabel = "VendorUser" ∧ e.srcId = uid
    ∧ (e.kind = "APPROVED_MATCH" ∨ e.kind = "REJECTED_MATCH")
    ∧ e.dstLabel = "Product")

/-- Delete all managed B2C recipe edges of the subject. -/
def clearRecipeEdgesB2C (uid : String) (es : List GEdge) : List GEdge :=
  es.filter (fun e => !isRecipeEdgeB2C uid e)

/-- Delete all managed B2C product edges of the subject. -/
def clearProductEdgesB2C (uid : String) (es : List GEdge) : List GEdge :=
  es.filter (fun e => !isProductEdgeB2C uid e)

/-- Delete all managed B2B product edges of the subject. -/
def clearProductEdgesB2B (uid : String) (es : List GEdge) : List GEdge :=
  es.filter (fun e => !isProductEdgeB2B uid e)

/-- Delete all managed B2B match edges of the subject. -/
def clearMatchEdgesB2B (uid : String) (es : List GEdge) : List GEdge :=
  es.filter (fun e => !isMatchEdgeB2B uid e)

/-- Counterparty id of an aggregate record.  The aggregators always store
`some k` (see the `_id_inv` lemmas); the default merely totalises the
function. -/
def optId (o : Option String) : String := o.getD ""

/-- The four conditional FOREACH relationship MERGEs of one recipe record. -/
def recipeEdges (uid : String) (i : RecipeRec) (es : List GEdge) : List GEdge :=
  let rid := optId i.recipe_id
  let es :=
    if i.views_count > 0 then
      mergeEdge es ⟨"B2CCustomer", uid, "VIEWED", "Recipe", rid⟩
        (fun ps => setProp (setProp ps "count" (GVal.n i.views_count))
          "last_at" (tval i.last_view_at))
    else es
  let es :=
    if i.cooks_count > 0 then
      mergeEdge es ⟨"B2CCustomer", uid, "COOKED", "Recipe", rid⟩
        (fun ps => setProp (setProp ps "count" (GVal.n i.cooks_count))
          "last_at" (tval i.last_cook_at))
    else es
  let es :=
    if i.saved then
      mergeEdge es ⟨"B2CCustomer", uid, "SAVED", "Recipe", rid⟩
        (fun ps => setProp ps "first_saved_at" (tval i.first_saved_at))
    else es
  if i.rating.isSome then
    mergeEdge es ⟨"B2CCustomer", uid, "RATED", "Recipe", rid⟩
      (fun ps => setProp (setProp ps "rating" (tval i.rating))
        "last_at" (tval i.last_rating_at))
  else es

/-- The four conditional FOREACH relationship MERGEs of one B2C product
record. -/
def productEdgesB2C (uid : String) (p : ProductRec) (es : List GEdge) : List GEdge :=
  let pid := optId p.product_id
  let es :=
    if p.views_count > 0 then
      mergeEdge es ⟨"B2CCustomer", uid, "VIEWED_PRODUCT", "Product", pid⟩
        (fun ps => setProp (setProp ps "count" (GVal.n p.views_count))
          "last_at" (tval p.last_view_at))
    else es
  let es :=
    if p.purchases_count > 0 then
      mergeEdge es ⟨"B2CCustomer", uid, "PURCHASED", "Product", pid⟩
        (fun ps => setProp (setProp (setProp (setProp ps
          "count" (GVal.n p.purchases_count))
          "last_at" (tval p.last_purchase_at))
          "quantity_total" (GVal.n p.quantity_total))
          "price_total" (GVal.n p.price_total))
    else es
  let es :=
    if p.saved then
      mergeEdge es ⟨"B2CCustomer", uid, "SAVED_PRODUCT", "Product", pid⟩
        (fun ps => ps)
    else es
  if p.rating.isSome then
    mergeEdge es ⟨"B2CCustomer", uid, "RATED_PRODUCT", "Product", pid⟩
      (fun ps => setProp (setProp ps "rating" (tval p.rating))
        "last_at" (tval p.last_rating_at))
  else es

/-- The conditional FOREACH relationship MERGE of one B2B product record. -/
def productEdgesB2B (uid : String) (p : B2BProductRec) (es : List GEdge) : List GEdge :=
  if p.views_count > 0 then
    mergeEdge es ⟨"VendorUser", uid, "VIEWED_PRODUCT", "Product", optId p.product_id⟩
      (fun ps => setProp (setProp ps "count" (GVal.n p.views_count))
        "last_at" (tval p.last_view_at))
  else es

/-- The two conditional FOREACH relationship MERGEs of one match record
(both end at the target product; the source product id is a property). -/
def matchEdges (uid : String) (m : MatchRec) (es : List GEdge) : List GEdge :=
  let tgt := optId m.target_product_id
  let es :=
    if m.approved then
      mergeEdge es ⟨"VendorUser", uid, "APPROVED_MATCH", "Product", tgt⟩
        (fun ps => setProp (setProp ps
          "source_product_id" (sval m.source_product_id))
          "last_at" (tval m.last_feedback_at))
    else es
  if m.rejected then
    mergeEdge es ⟨"VendorUser", uid, "REJECTED_MATCH", "Product", tgt⟩
      (fun ps => setProp (setProp (setProp ps
        "source_product_id" (sval m.source_product_id))
        "reason" (sval m.reason))
        "last_at" (tval m.last_feedback_at))
  else es

/-- The SET clause of the B2C subject-node MERGE. -/
def b2cUserSetter (u : B2CUserRow) (ps : PropList) : PropList :=
  setProp (setProp (setProp ps "email" (GVal.s u.email))
    "full_name" (GVal.s u.full_name)) "updated_at" (GVal.n u.updated_at)

/-- The SET clause of the B2B subject-node MERGE. -/
def b2bUserSetter (u : B2BUserRow) (ps : PropList) : PropList :=
  setProp (setProp (setProp ps "email" (GVal.s u.email))
    "role" (GVal.s u.role)) "updated_at" (GVal.n u.updated_at)

/-- The SET clause of the vendor-node MERGE. -/
def vendorSetter (u : B2BUserRow) (ps : PropList) : PropList :=
  setProp ps "name" (GVal.s u.vendor_name)

/-- Semantics of `B2CInteractionsPipeline._upsert_cypher`: merge the subject
node, clear and rebuild the recipe edges, clear and rebuild the product
edges. -/
def upsert_cypher_apply_b2c (g : Graph) (u : B2CUserRow)
    (recipes : List RecipeRec) (products : List ProductRec) : Graph :=
  let ns := mergeNode g.nodes "B2CCustomer" u.id (b2cUserSetter u)
  let es := clearRecipeEdgesB2C u.id g.edges
  let ns := recipes.foldl
    (fun ns i => mergeNode ns "Recipe" (optId i.recipe_id) (fun ps => ps)) ns
  let es := recipes.foldl (fun es i => recipeEdges u.id i es) es
  let es := clearProductEdgesB2C u.id es
  let ns := products.foldl
    (fun ns p => mergeNode ns "Product" (optId p.product_id) (fun ps => ps)) ns
  let es := products.foldl (fun es p => productEdgesB2C u.id p es) es
  ⟨ns, es⟩

/-- Semantics of `B2BInteractionsPipeline._upsert_cypher`: merge the subject
and vendor nodes and the BELONGS_TO_VENDOR edge, clear and rebuild the
product edges, clear and rebuild the match edges. -/
def upsert_cypher_apply_b2b (g : Graph) (u : B2BUserRow)
    (products : List B2BProductRec) (matchRecs : List MatchRec) : Graph :=
  let ns := mergeNode g.nodes "VendorUser" u.id (b2bUserSetter u)
  let ns := mergeNode ns "Vendor" u.vendor_id (vendorSetter u)
  let es := mergeEdge g.edges
    ⟨"VendorUser", u.id, "BELONGS_TO_VENDOR", "Vendor", u.vendor_id⟩ (fun ps => ps)
  let es := clearProductEdgesB2B u.id es
  let ns := products.foldl
    (fun ns p => mergeNode ns "Product" (optId p.product_id) (fun ps => ps)) ns
  let es := products.foldl (fun es p => productEdgesB2B u.id p es) es
  let es := clearMatchEdgesB2B u.id es
  let ns := matchRecs.foldl
    (fun ns m => mergeNode
      (mergeNode ns "Product" (optId m.source_product_id) (fun ps => ps))
      "Product" (optId m.target_product_id) (fun ps => ps)) ns
  let es := matchRecs.foldl (fun es m => matchEdges u.id m es) es
  ⟨ns, es⟩

/-- Semantics of `B2CInteractionsPipeline._delete_cypher`:
`MATCH (u:B2CCustomer {id}) DETACH DELETE u`. -/
def delete_cypher_apply_b2c (g : Graph) (uid : String) : Graph :=
  { nodes := g.nodes.filter (fun n => !decide (n.label = "B2CCustomer" ∧ n.id = uid)),
    edges := g.edges.filter (fun e =>
      !decide ((e.srcLabel = "B2CCustomer" ∧ e.srcId = uid)
        ∨ (e.dstLabel = "B2CCustomer" ∧ e.dstId = uid))) }

/-- Semantics of `B2BInteractionsPipeline._delete_cypher`. -/
def delete_cypher_apply_b2b (g : Graph) (uid : String) : Graph :=
  { nodes := g.nodes.filter (fun n => !decide (n.label = "VendorUser" ∧ n.id = uid)),
    edges := g.edges.filter (fun e =>
      !decide ((e.srcLabel = "VendorUser" ∧ e.srcId = uid)
        ∨ (e.dstLabel = "VendorUser" ∧ e.dstId = uid))) }

/-! ## Pipelines and worker loop -/

/-- The outbox event row (see `src/domain/models/events.py` usage in the
worker: id, aggregate_type, aggregate_id, op, attempts). -/
structure OutboxEvent where
  id : Nat
  aggregate_type : String
  aggregate_id : String
  op : String
  attempts : Nat
deriving DecidableEq

/-- The relational tables read by the B2C pipeline, as point queries per
user id. -/
structure B2CSource where
  users : String → Option B2CUserRow
  recipe_history : String → List HistoryRow
  saved_recipes : String → List SavedRow
  recipe_ratings : String → List RatingRow
  product_interactions : String → List ProductInteractionRow

/-- The relational tables read by the B2B pipeline. -/
structure B2BSource where
  vendor_users : String → Option B2BUserRow
  product_actions : String → List ActionRow
  match_feedback : String → List FeedbackRow

/-- `B2CInteractionsPipeline.handle_event`: load the subject; when absent,
DETACH DELETE on `op.upper() == "DELETE"` and otherwise a warning-only skip;
when present, load the interaction rows, aggregate them and apply the upsert
Cypher. -/
def handle_event_b2c (src : B2CSource) (g : Graph) (e : OutboxEvent) : Graph :=
  match src.users e.aggregate_id with
  | none =>
      if pyUpper e.op = "DELETE" then delete_cypher_apply_b2c g e.aggregate_id
      else g
  | some user =>
      upsert_cypher_apply_b2c g user
        (aggregate_recipes (src.recipe_history e.aggregate_id)
          (src.saved_recipes e.aggregate_id) (src.recipe_ratings e.aggregate_id))
        (aggregate_products_b2c (src.product_interactions e.aggregate_id))

/-- `B2BInteractionsPipeline.handle_event`. -/
def handle_event_b2b (src : B2BSource) (g : Graph) (e : OutboxEvent) : Graph :=
  match src.vendor_users e.aggregate_id with
  | none =>
      if pyUpper e.op = "DELETE" then delete_cypher_apply_b2b g e.aggregate_id
      else g
  | some user =>
      upsert_cypher_apply_b2b g user
        (aggregate_products_b2b (src.product_actions e.aggregate_id))
        (aggregate_matches (src.match_feedback e.aggregate_id))

/-- The outbox status update recorded for one event. -/
inductive Mark where
  | processed
  | failed (err : String)
deriving DecidableEq

/-- Worker-loop state: the graph plus the sequence of outbox status updates
(event id, mark) issued so far. -/
structure WorkerState where
  graph : Graph
  marks : List (Nat × Mark)
deriving DecidableEq

/-- The `aggregate_type` dispatch of `process_batch`: `none` is the
unhandled-tag branch (log and `continue`, no status update). -/
def routeHandler (hb2c hb2b : OutboxEvent → Graph → Except String Graph)
    (e : OutboxEvent) : Option (Graph → Except String Graph) :=
  if e.aggregate_type = "b2c_interaction" then some (hb2c e)
  else if e.aggregate_type = "b2b_interaction" then some (hb2b e)
  else none

/-- One iteration of the `for event in events` loop of `process_batch`: an
exception from the handler is caught and recorded via `mark_failed` with the
exception text; a normal return is recorded via `mark_processed`; an
unhandled aggregate type is skipped unmarked. -/
def processOne (hb2c hb2b : OutboxEvent → Graph → Except String Graph)
    (s : WorkerState) (e : OutboxEvent) : WorkerState :=
  match routeHandler hb2c hb2b e with
  | none => s
  | some h =>
      match h s.graph with
      | Except.ok g => ⟨g, s.marks ++ [(e.id, Mark.processed)]⟩
      | Except.error msg => ⟨s.graph, s.marks ++ [(e.id, Mark.failed msg)]⟩

/-- `process_batch` of `src/workers/runner.py`. -/
def process_batch (hb2c hb2b : OutboxEvent → Graph → Except String Graph)
    (events : List OutboxEvent) (s : WorkerState) : WorkerState :=
  events.foldl (processOne hb2c hb2b) s

/-- The embedded B2C handler as used by the worker: the Python-level
exceptions come from I/O, which the embedding does not model, so the
embedded handler always returns normally. -/
def b2cHandler (src : B2CSource) : OutboxEvent → Graph → Except String Graph :=
  fun e g => Except.ok (handle_event_b2c src g e)

/-- The embedded B2B handler. -/
def b2bHandler (src : B2BSource) : OutboxEvent → Graph → Except String Graph :=
  fun e g => Except.ok (handle_event_b2b src g e)

/-- C3: Per-event failure isolation.  If routing succeeds for three events
and the second handler raises while the first and third return normally, the
batch records processed/failed/processed in order with the exception text,
and the third event still runs (on the state left by the first, since the
failed write does not advance the embedded graph). -/
theorem per_event_failure_isolation
    (hb2c hb2b : OutboxEvent → Graph → Except String Graph)
    (e1 e2 e3 : OutboxEvent) (f1 f2 f3 : Graph → Except String Graph)
    (g0 g1 g3 : Graph) (ms : List (Nat × Mark)) (msg : String)
    (hr1 : routeHandler hb2c hb2b e1 = some f1) (hf1 : f1 g0 = Except.ok g1)
    (hr2 : routeHandler hb2c hb2b e2 = some f2) (hf2 : f2 g1 = Except.error msg)
    (hr3 : routeHandler hb2c hb2b e3 = some f3) (hf3 : f3 g1 = Except.ok g3) :
    process_batch hb2c hb2b [e1, e2, e3] ⟨g0, ms⟩
      = ⟨g3, ms ++ [(e1.id, Mark.processed), (e2.id, Mark.failed msg),
                    (e3.id, Mark.processed)]⟩ := by
  simp [process_batch, processOne, hr1, hf1, hr2, hf2, hr3, hf3]

/-- Witness for C3: a concrete batch of three where the second handler
throws. -/
theorem per_event_failure_isolation_witness :
    process_batch (fun e g => if e.id = 2 then Except.error "boom" else Except.ok g)
        (fun _ g => Except.ok g)
        [⟨1, "b2c_interaction", "u", "INSERT", 0⟩,
         ⟨2, "b2c_interaction", "u", "INSERT", 0⟩,
         ⟨3, "b2b_interaction", "v", "UPDATE", 0⟩]
        ⟨⟨[], []⟩, []⟩
      = ⟨⟨[], []⟩, [(1, Mark.processed), (2, Mark.failed "boom"),
                    (3, Mark.processed)]⟩ :=
  per_event_failure_isolation
    (fun e g => if e.id = 2 then Except.error "boom" else Except.ok g)
    (fun _ g => Except.ok g)
    ⟨1, "b2c_interaction", "u", "INSERT", 0⟩
    ⟨2, "b2c_interaction", "u", "INSERT", 0⟩
    ⟨3, "b2b_interaction", "v", "UPDATE", 0⟩
    _ _ _ ⟨[], []⟩ ⟨[], []⟩ ⟨[], []⟩ [] "boom" rfl rfl rfl rfl rfl rfl

/-- C1 counterexample: subject absent, op INSERT, known aggregate type —
`handle_event` returns normally, so `process_batch` marks the event
processed: it is not left unmarked. -/
theorem missing_subject_marked_cex :
    (process_batch
        (b2cHandler ⟨fun _ => none, fun _ => [], fun _ => [], fun _ => [],
          fun _ => []⟩)
        (b2bHandler ⟨fun _ => none, fun _ => [], fun _ => []⟩)
        [⟨7, "b2c_interaction", "u1", "INSERT", 0⟩] ⟨⟨[], []⟩, []⟩).marks
      = [(7, Mark.processed)]
    ∧ (process_batch
        (b2cHandler ⟨fun _ => none, fun _ => [], fun _ => [], fun _ => [],
          fun _ => []⟩)
        (b2bHandler ⟨fun _ => none, fun _ => [], fun _ => []⟩)
        [⟨7, "b2c_interaction", "u1", "INSERT", 0⟩] ⟨⟨[], []⟩, []⟩).marks
      ≠ [] := by
  constructor
  · rfl
  · decide

/-- C1 amended: for an event with op INSERT or UPDATE whose subject row is
absent, `handle_event` performs no graph mutation, and the worker loop marks
the event processed (it is neither left unmarked nor marked failed). -/
theorem missing_subject_skip_no_mutation
    (src : B2CSource) (bsrc : B2BSource) (e : OutboxEvent) (g : Graph)
    (ms : List (Nat × Mark))
    (hop : pyUpper e.op = "INSERT" ∨ pyUpper e.op = "UPDATE") :
    (e.aggregate_type = "b2c_interaction" → src.users e.aggregate_id = none →
      handle_event_b2c src g e = g
        ∧ process_batch (b2cHandler src) (b2bHandler bsrc) [e] ⟨g, ms⟩
            = ⟨g, ms ++ [(e.id, Mark.processed)]⟩)
    ∧ (e.aggregate_type = "b2b_interaction" → bsrc.vendor_users e.aggregate_id = none →
      handle_event_b2b bsrc g e = g
        ∧ process_batch (b2cHandler src) (b2bHandler bsrc) [e] ⟨g, ms⟩
            = ⟨g, ms ++ [(e.id, Mark.processed)]⟩) := by
  have hne : ¬(pyUpper e.op = "DELETE") := by
    rcases hop with h | h <;> rw [h] <;> decide
  constructor
  · intro ht hu
    have hhe : handle_event_b2c src g e = g := by
      unfold handle_event_b2c
      rw [hu]
      simp [hne]
    exact ⟨hhe, by simp [process_batch, processOne, routeHandler, ht,
      b2cHandler, hhe]⟩
  · intro ht hu
    have hhe : handle_event_b2b bsrc g e = g := by
      unfold handle_event_b2b
      rw [hu]
      simp [hne]
    have ht2 : e.aggregate_type = "b2c_interaction" → False := by
      intro h
      rw [h] at ht
      exact absurd ht (by decide)
    refine ⟨hhe, ?_⟩
    by_cases hb : e.aggregate_type = "b2c_interaction"
    · exact absurd hb ht2
    · simp [process_batch, processOne, routeHandler, hb, ht, b2bHandler, hhe]

/-- Witness for C1's amended theorem: a concrete absent-subject INSERT event
in each pipeline. -/
theorem missing_subject_skip_no_mutation_witness :
    (("b2c_interaction" : String) = "b2c_interaction" →
      (⟨fun _ => none, fun _ => [], fun _ => [], fun _ => [], fun _ => []⟩
          : B2CSource).users "u1" = none →
      handle_event_b2c
          ⟨fun _ => none, fun _ => [], fun _ => [], fun _ => [], fun _ => []⟩
          ⟨[], []⟩ ⟨7, "b2c_interaction", "u1", "INSERT", 0⟩ = ⟨[], []⟩
        ∧ process_batch
            (b2cHandler ⟨fun _ => none, fun _ => [], fun _ => [], fun _ => [],
              fun _ => []⟩)
            (b2bHandler ⟨fun _ => none, fun _ => [], fun _ => []⟩)
            [⟨7, "b2c_interaction", "u1", "INSERT", 0⟩] ⟨⟨[], []⟩, []⟩
          = ⟨⟨[], []⟩, [] ++ [(7, Mark.processed)]⟩)
    ∧ (("b2c_interaction" : String) = "b2b_interaction" →
      (⟨fun _ => none, fun _ => [], fun _ => []⟩ : B2BSource).vendor_users "u1"
          = none →
      handle_event_b2b ⟨fun _ => none, fun _ => [], fun _ => []⟩
          ⟨[], []⟩ ⟨7, "b2c_interaction", "u1", "INSERT", 0⟩ = ⟨[], []⟩
        ∧ process_batch
            (b2cHandler ⟨fun _ => none, fun _ => [], fun _ => [], fun _ => [],
              fun _ => []⟩)
            (b2bHandler ⟨fun _ => none, fun _ => [], fun _ => []⟩)
            [⟨7, "b2c_interaction", "u1", "INSERT", 0⟩] ⟨⟨[], []⟩, []⟩
          = ⟨⟨[], []⟩, [] ++ [(7, Mark.processed)]⟩) :=
  missing_subject_skip_no_mutation
    ⟨fun _ => none, fun _ => [], fun _ => [], fun _ => [], fun _ => []⟩
    ⟨fun _ => none, fun _ => [], fun _ => []⟩
    ⟨7, "b2c_interaction", "u1", "INSERT", 0⟩ ⟨[], []⟩ []
    (Or.inl (by decide))

/-- C6: Delete semantics.  For an event whose op uppercases to DELETE and
whose subject row is absent, `handle_event` applies exactly the
DETACH-DELETE Cypher: the result no longer contains the subject node nor any
edge incident to it, and the result does not depend on the interaction
tables (no interaction loading or aggregation feeds it). -/
theorem delete_semantics_missing_subject
    (src : B2CSource) (g : Graph) (e : OutboxEvent)
    (hu : src.users e.aggregate_id = none) (hop : pyUpper e.op = "DELETE") :
    handle_event_b2c src g e = delete_cypher_apply_b2c g e.aggregate_id
    ∧ (∀ src' : B2CSource, src'.users = src.users →
        handle_event_b2c src' g e = handle_event_b2c src g e)
    ∧ (∀ n ∈ (handle_event_b2c src g e).nodes,
        ¬(n.label = "B2CCustomer" ∧ n.id = e.aggregate_id))
    ∧ (∀ ed ∈ (handle_event_b2c src g e).edges,
        ¬(ed.srcLabel = "B2CCustomer" ∧ ed.srcId = e.aggregate_id)
          ∧ ¬(ed.dstLabel = "B2CCustomer" ∧ ed.dstId = e.aggregate_id)) := by
  have hhe : handle_event_b2c src g e = delete_cypher_apply_b2c g e.aggregate_id := by
    unfold handle_event_b2c
    rw [hu]
    simp [hop]
  refine ⟨hhe, ?_, ?_, ?_⟩
  · intro src' hsrc
    unfold handle_event_b2c
    rw [hsrc, hu]
  · intro n hn
    rw [hhe] at hn
    have := List.of_mem_filter hn
    simp at this
    tauto
  · intro ed hed
    rw [hhe] at hed
    have := List.of_mem_filter hed
    simp at this
    tauto

/-- Witness for C6: a concrete absent-subject lowercase-delete event applied
to a one-node, one-edge graph containing the subject. -/
theorem delete_semantics_missing_subject_witness :
    handle_event_b2c ⟨fun _ => none, fun _ => [], fun _ => [], fun _ => [],
        fun _ => []⟩
      ⟨[⟨"B2CCustomer", "u1", []⟩],
       [⟨"B2CCustomer", "u1", "VIEWED", "Recipe", "r1", []⟩]⟩
      ⟨9, "b2c_interaction", "u1", "delete", 0⟩
      = delete_cypher_apply_b2c
          ⟨[⟨"B2CCustomer", "u1", []⟩],
           [⟨"B2CCustomer", "u1", "VIEWED", "Recipe", "r1", []⟩]⟩ "u1"
    ∧ (∀ n ∈ (handle_event_b2c ⟨fun _ => none, fun _ => [], fun _ => [],
          fun _ => [], fun _ => []⟩
        ⟨[⟨"B2CCustomer", "u1", []⟩],
         [⟨"B2CCustomer", "u1", "VIEWED", "Recipe", "r1", []⟩]⟩
        ⟨9, "b2c_interaction", "u1", "delete", 0⟩).nodes,
        ¬(n.label = "B2CCustomer" ∧ n.id = "u1")) := by
  have h := delete_semantics_missing_subject
    ⟨fun _ => none, fun _ => [], fun _ => [], fun _ => [], fun _ => []⟩
    ⟨[⟨"B2CCustomer", "u1", []⟩],
     [⟨"B2CCustomer", "u1", "VIEWED", "Recipe", "r1", []⟩]⟩
    ⟨9, "b2c_interaction", "u1", "delete", 0⟩ rfl (by decide)
  exact ⟨h.1, h.2.2.1⟩

/-- Any member of a relationship MERGE result is an old edge or carries the
merged kind. -/
theorem mem_kind_of_mergeEdge (es : List GEdge) (k : EdgeKey)
    (f : PropList → PropList) (ed : GEdge) (hed : ed ∈ mergeEdge es k f) :
    ed ∈ es ∨ ed.kind = k.kind := by
  induction es with
  | nil =>
      simp only [mergeEdge, List.mem_singleton] at hed
      subst hed
      exact Or.inr rfl
  | cons e tl ih =>
      by_cases h : edgeHasKey e k
      · simp only [mergeEdge, if_pos h, List.mem_cons] at hed
        rcases hed with rfl | hed
        · exact Or.inr rfl
        · exact Or.inl (List.mem_cons_of_mem _ hed)
      · simp only [mergeEdge, if_neg h, List.mem_cons] at hed
        rcases hed with rfl | hed
        · exact Or.inl (List.mem_cons_self _ _)
        · rcases ih hed with h2 | h2
          · exact Or.inl (List.mem_cons_of_mem _ h2)
          · exact Or.inr h2

/-- Peeling a conditional relationship MERGE whose kind differs from the
edge's. -/
theorem mem_of_condMergeEdge (c : Prop) [Decidable c] (es : List GEdge)
    (k : EdgeKey) (f : PropList → PropList) (ed : GEdge)
    (hed : ed ∈ (if c then mergeEdge es k f else es)) (hk : ed.kind ≠ k.kind) :
    ed ∈ es := by
  split_ifs at hed with h
  · rcases mem_kind_of_mergeEdge _ _ _ _ hed with h2 | h2
    · exact h2
    · exact absurd h2 hk
  · exact hed

/-- No RATED_PRODUCT edge is produced by the product FOREACHes when the
record's rating is unset. -/
theorem productEdgesB2C_no_rated (uid : String) (p : ProductRec)
    (es : List GEdge) (hp : p.rating.isSome = false) (ed : GEdge)
    (hed : ed ∈ productEdgesB2C uid p es) (hkind : ed.kind = "RATED_PRODUCT") :
    ed ∈ es := by
  simp only [productEdgesB2C, hp, Bool.false_eq_true, if_false] at hed
  have h3 := mem_of_condMergeEdge _ _ _ _ _ hed
    (by rw [hkind]; show ("RATED_PRODUCT" : String) ≠ "SAVED_PRODUCT"; decide)
  have h2 := mem_of_condMergeEdge _ _ _ _ _ h3
    (by rw [hkind]; show ("RATED_PRODUCT" : String) ≠ "PURCHASED"; decide)
  exact mem_of_condMergeEdge _ _ _ _ _ h2
    (by rw [hkind]; show ("RATED_PRODUCT" : String) ≠ "VIEWED_PRODUCT"; decide)

/-- C10: a B2C product-interaction row whose rating is NULL or 0 is falsy
for `if row.get("rating")` and never sets the rating fields: when every row
carries rating NULL/0, every output record has `rating` and
`last_rating_at` unset, so the rating-present FOREACH condition for a
RATED_PRODUCT edge never fires. -/
theorem falsy_rating_never_sets_rating (rows : List ProductInteractionRow)
    (hall : ∀ r ∈ rows, r.rating = none ∨ r.rating = some 0) :
    ∀ rec ∈ aggregate_products_b2c rows,
      rec.rating = none ∧ rec.last_rating_at = none
        ∧ rec.rating.isSome = false
        ∧ (∀ (uid : String) (es : List GEdge) (ed : GEdge),
            ed ∈ productEdgesB2C uid rec es → ed.kind = "RATED_PRODUCT" →
            ed ∈ es) := by
  intro rec hmem
  obtain ⟨k, hne, rfl⟩ := mem_aggregate_products_b2c_elim rows rec hmem
  have hfilt : (prodAt rows k).filter (fun r => ratingTruthy r.rating) = [] := by
    rw [List.filter_eq_nil_iff]
    intro r hr
    have hrr : r ∈ rows := List.mem_of_mem_filter hr
    rcases hall r hrr with h | h <;> simp [ratingTruthy, h]
  have hr : (prodFold (prodAt rows k) {}).rating = none := by
    rw [prodFold_rating, hfilt]
    rfl
  have hl : (prodFold (prodAt rows k) {}).last_rating_at = none := by
    rw [prodFold_last_rating, hfilt]
    rfl
  have hs : (prodFold (prodAt rows k) {}).rating.isSome = false := by
    rw [hr]
    rfl
  exact ⟨hr, hl, hs, fun uid es ed hed hkind =>
    productEdgesB2C_no_rated uid _ es hs ed hed hkind⟩

/-- Witness for C10: the rating fields of the record aggregated from a
single purchased row carrying rating 0 are unset. -/
theorem falsy_rating_never_sets_rating_witness :
    ({ product_id := some "p", purchases_count := 1, last_purchase_at := some 8,
       quantity_total := 1, price_total := 3 } : ProductRec).rating = none
    ∧ ({ product_id := some "p", purchases_count := 1, last_purchase_at := some 8,
         quantity_total := 1, price_total := 3 } : ProductRec).last_rating_at = none
    ∧ ({ product_id := some "p", purchases_count := 1, last_purchase_at := some 8,
         quantity_total := 1, price_total := 3 } : ProductRec).rating.isSome = false :=
  ⟨(falsy_rating_never_sets_rating [⟨"p", "purchased", some 0, some 1, some 3, 8⟩]
      (by intro r hr; simp at hr; rw [hr]; exact Or.inr rfl)
      { product_id := some "p", purchases_count := 1, last_purchase_at := some 8,
        quantity_total := 1, price_total := 3 } (by decide)).1,
   (falsy_rating_never_sets_rating [⟨"p", "purchased", some 0, some 1, some 3, 8⟩]
      (by intro r hr; simp at hr; rw [hr]; exact Or.inr rfl)
      { product_id := some "p", purchases_count := 1, last_purchase_at := some 8,
        quantity_total := 1, price_total := 3 } (by decide)).2.1,
   (falsy_rating_never_sets_rating [⟨"p", "purchased", some 0, some 1, some 3, 8⟩]
      (by intro r hr; simp at hr; rw [hr]; exact Or.inr rfl)
      { product_id := some "p", purchases_count := 1, last_purchase_at := some 8,
        quantity_total := 1, price_total := 3 } (by decide)).2.2.1⟩

/-- C9 counterexample: an unrecognized `interaction_type` row carrying a
nonzero rating still sets the rating fields of its record, so the record is
not all-unset as the claim asserts. -/
theorem unrecognized_subtype_zero_record_cex :
    ((aggregate_products_b2c [⟨"p", "wishlist", some 4, none, none, 5⟩]).map
        (fun r => (r.product_id, r.rating, r.last_rating_at)))
      = [(some "p", some 4, some 5)]
    ∧ ¬(∀ rec ∈ aggregate_products_b2c [⟨"p", "wishlist", some 4, none, none, 5⟩],
          rec.rating = none ∧ rec.last_rating_at = none) := by
  constructor
  · rfl
  · decide

theorem exists_lookupKey_of_mem_keys {κ ρ : Type} [DecidableEq κ]
    (m : List (κ × ρ)) (k : κ) (h : k ∈ keysOf m) :
    ∃ v, lookupKey m k = some v := by
  cases hl : lookupKey m k with
  | none => exact absurd ((lookupKey_eq_none_iff m k).mp hl) (by simpa using h)
  | some v => exact ⟨v, rfl⟩

/-- C9 amended: the id set of the product aggregators' output equals the
distinct id set of the input rows, unconditionally; and a counterparty all
of whose rows have an unrecognized event subtype still yields the
all-default record — for B2C additionally provided those rows carry no
truthy rating (a nonzero rating on an unrecognized row still sets the
rating fields) — so its node is merged with no edges. -/
theorem aggregator_id_sets_and_zero_records :
    (∀ (rows : List ProductInteractionRow) (k : String),
        some k ∈ (aggregate_products_b2c rows).map (·.product_id)
          ↔ k ∈ rows.map (·.product_id))
    ∧ (∀ (rows : List ActionRow) (k : String),
        some k ∈ (aggregate_products_b2b rows).map (·.product_id)
          ↔ k ∈ rows.map (·.product_id))
    ∧ (∀ (rows : List ProductInteractionRow) (k : String),
        k ∈ rows.map (·.product_id) →
        (∀ r ∈ prodAt rows k,
          r.interaction_type ≠ "viewed" ∧ r.interaction_type ≠ "purchased"
            ∧ r.interaction_type ≠ "saved" ∧ ratingTruthy r.rating = false) →
        ({ product_id := some k } : ProductRec) ∈ aggregate_products_b2c rows
          ∧ ∀ (uid : String) (es : List GEdge),
              productEdgesB2C uid ({ product_id := some k } : ProductRec) es = es)
    ∧ (∀ (rows : List ActionRow) (k : String),
        k ∈ rows.map (·.product_id) →
        (∀ r ∈ actionsAt rows k, r.action_type ≠ "view_product") →
        ({ product_id := some k } : B2BProductRec) ∈ aggregate_products_b2b rows
          ∧ ∀ (uid : String) (es : List GEdge),
              productEdgesB2B uid ({ product_id := some k } : B2BProductRec) es
                = es) := by
  refine ⟨?_, ?_, ?_, ?_⟩
  · intro rows k
    constructor
    · intro h
      rcases List.mem_map.mp h with ⟨rec, hrec, hpk⟩
      rcases (mem_map_snd_iff _ _).mp hrec with ⟨k', hk'⟩
      have hid := b2cProductsState_id_inv rows (k', rec) hk'
      have hkk : k' = k := by
        rw [hid] at hpk
        injection hpk
      subst hkk
      have hks : k' ∈ keysOf (b2cProductsState rows) := by
        simpa [keysOf] using List.mem_map_of_mem Prod.fst hk'
      exact (mem_keysOf_b2cProductsState rows k').mp hks
    · intro h
      have hk : k ∈ keysOf (b2cProductsState rows) :=
        (mem_keysOf_b2cProductsState rows k).mpr h
      obtain ⟨v, hv⟩ := exists_lookupKey_of_mem_keys _ _ hk
      have hmem := mem_of_lookupKey _ _ _ hv
      exact List.mem_map.mpr ⟨v, (mem_map_snd_iff _ _).mpr ⟨k, hmem⟩,
        b2cProductsState_id_inv rows (k, v) hmem⟩
  · intro rows k
    constructor
    · intro h
      rcases List.mem_map.mp h with ⟨rec, hrec, hpk⟩
      rcases (mem_map_snd_iff _ _).mp hrec with ⟨k', hk'⟩
      have hid := b2bProductsState_id_inv rows (k', rec) hk'
      have hkk : k' = k := by
        rw [hid] at hpk
        injection hpk
      subst hkk
      have hks : k' ∈ keysOf (b2bProductsState rows) := by
        simpa [keysOf] using List.mem_map_of_mem Prod.fst hk'
      exact (mem_keysOf_b2bProductsState rows k').mp hks
    · intro h
      have hk : k ∈ keysOf (b2bProductsState rows) :=
        (mem_keysOf_b2bProductsState rows k).mpr h
      obtain ⟨v, hv⟩ := exists_lookupKey_of_mem_keys _ _ hk
      have hmem := mem_of_lookupKey _ _ _ hv
      exact List.mem_map.mpr ⟨v, (mem_map_snd_iff _ _).mpr ⟨k, hmem⟩,
        b2bProductsState_id_inv rows (k, v) hmem⟩
  · intro rows k hmem hall
    have hne : ¬(prodAt rows k).isEmpty = true := by
      rw [prodAt_isEmpty_iff]
      simpa using hmem
    have hfV : (prodAt rows k).filter
        (fun r => decide (r.interaction_type = "viewed")) = [] := by
      rw [List.filter_eq_nil_iff]
      intro r hr
      simpa using (hall r hr).1
    have hfP : (prodAt rows k).filter
        (fun r => decide (r.interaction_type = "purchased")) = [] := by
      rw [List.filter_eq_nil_iff]
      intro r hr
      simpa using (hall r hr).2.1
    have hfS : (prodAt rows k).filter
        (fun r => decide (r.interaction_type = "saved")) = [] := by
      rw [List.filter_eq_nil_iff]
      intro r hr
      simpa using (hall r hr).2.2.1
    have hfR : (prodAt rows k).filter (fun r => ratingTruthy r.rating) = [] := by
      rw [List.filter_eq_nil_iff]
      intro r hr
      simp [(hall r hr).2.2.2]
    have heq : prodFold (prodAt rows k) {} = ({ product_id := some k } : ProductRec) := by
      refine productRecExt _ _ ?_ ?_ ?_ ?_ ?_ ?_ ?_ ?_ ?_ ?_
      · rw [prodFold_pid _ _ k (mem_prodAt rows k)]
        simp [hne]
      · rw [prodFold_views, hfV]
        rfl
      · rw [prodFold_last_view, hfV]
        rfl
      · rw [prodFold_purchases, hfP]
        rfl
      · rw [prodFold_last_purchase, hfP]
        rfl
      · rw [prodFold_saved, hfS]
        rfl
      · rw [prodFold_rating, hfR]
        rfl
      · rw [prodFold_last_rating, hfR]
        rfl
      · rw [prodFold_quantity, hfP]
        rfl
      · rw [prodFold_price, hfP]
        rfl
    have hx : lookupKey (b2cProductsState rows) k
        = some (prodFold (prodAt rows k) {}) := by
      rw [lookupKey_b2cProductsState, if_neg hne]
    rw [heq] at hx
    exact ⟨(mem_map_snd_iff _ _).mpr ⟨k, mem_of_lookupKey _ _ _ hx⟩,
      fun uid es => rfl⟩
  · intro rows k hmem hall
    have hne : ¬(actionsAt rows k).isEmpty = true := by
      rw [actionsAt_isEmpty_iff]
      simpa using hmem
    have hfV : (actionsAt rows k).filter
        (fun r => decide (r.action_type = "view_product")) = [] := by
      rw [List.filter_eq_nil_iff]
      intro r hr
      simpa using hall r hr
    have heq : b2bProdFold (actionsAt rows k) {}
        = ({ product_id := some k } : B2BProductRec) := by
      refine b2bProductRecExt _ _ ?_ ?_ ?_
      · rw [b2bProdFold_pid _ _ k (mem_actionsAt rows k)]
        simp [hne]
      · rw [b2bProdFold_views, hfV]
        rfl
      · rw [b2bProdFold_last_view, hfV]
        rfl
    have hx : lookupKey (b2bProductsState rows) k
        = some (b2bProdFold (actionsAt rows k) {}) := by
      rw [lookupKey_b2bProductsState, if_neg hne]
    rw [heq] at hx
    exact ⟨(mem_map_snd_iff _ _).mpr ⟨k, mem_of_lookupKey _ _ _ hx⟩,
      fun uid es => rfl⟩

/-- Witness for C9's amended theorem: the zero-record conjuncts at a
concrete unrecognized-subtype input. -/
theorem aggregator_id_sets_and_zero_records_witness :
    (({ product_id := some "p" } : ProductRec)
        ∈ aggregate_products_b2c [⟨"p", "wishlist", none, none, none, 5⟩]
      ∧ ∀ (uid : String) (es : List GEdge),
          productEdgesB2C uid ({ product_id := some "p" } : ProductRec) es = es)
    ∧ (({ product_id := some "q" } : B2BProductRec)
        ∈ aggregate_products_b2b [⟨"q", "click", 4⟩]
      ∧ ∀ (uid : String) (es : List GEdge),
          productEdgesB2B uid ({ product_id := some "q" } : B2BProductRec) es
            = es) :=
  ⟨aggregator_id_sets_and_zero_records.2.2.1
      [⟨"p", "wishlist", none, none, none, 5⟩] "p" (by decide) (by decide),
   aggregator_id_sets_and_zero_records.2.2.2
      [⟨"q", "click", 4⟩] "q" (by decide) (by decide)⟩

/-- A left-commutative fold is invariant under permutation of the list. -/
theorem foldl_eq_of_perm {α β : Type} (f : β → α → β)
    (hc : ∀ b x y, f (f b x) y = f (f b y) x) {l l' : List α}
    (p : l.Perm l') : ∀ b : β, l.foldl f b = l'.foldl f b := by
  induction p with
  | nil => intro b; rfl
  | cons x p ih => intro b; simp only [List.foldl_cons]; exact ih _
  | swap x y l => intro b; simp only [List.foldl_cons]; rw [hc]
  | trans p q ih1 ih2 => intro b; rw [ih1, ih2]

theorem maxStep_left_comm (o : Option Nat) (t t' : Nat) :
    maxStep (maxStep o t) t' = maxStep (maxStep o t') t := by
  cases o with
  | none => simp [maxStep, Nat.max_comm]
  | some m => simp [maxStep, Nat.max_assoc, Nat.max_comm t t']

theorem minStep_left_comm (o : Option Nat) (t t' : Nat) :
    minStep (minStep o t) t' = minStep (minStep o t') t := by
  cases o with
  | none => simp [minStep, Nat.min_comm]
  | some m => simp [minStep, Nat.min_assoc, Nat.min_comm t t']

theorem listMax_perm {l l' : List Nat} (p : l.Perm l') : listMax l = listMax l' :=
  foldl_eq_of_perm maxStep maxStep_left_comm p none

theorem listMin_perm {l l' : List Nat} (p : l.Perm l') : listMin l = listMin l' :=
  foldl_eq_of_perm minStep minStep_left_comm p none

/-- Permutations of lists of length at most one are equalities. -/
theorem perm_eq_of_length_le_one {α : Type} {l l' : List α}
    (p : l.Perm l') (h : l.length ≤ 1) : l = l' := by
  cases l with
  | nil =>
      have := p.symm
      rw [List.perm_nil] at this
      rw [this]
  | cons a tl =>
      cases tl with
      | nil => exact ((List.perm_singleton).mp p.symm).symm
      | cons b tl2 => simp at h

/-- Counting one record among the dict values: with nodup keys and the
id-invariant, the count is decided by the lookup at the record's own key. -/
theorem count_map_snd {κ ρ : Type} [DecidableEq κ] [DecidableEq ρ]
    (m : List (κ × ρ)) (idOf : ρ → Option κ) (rec : ρ)
    (hm : (keysOf m).Nodup) (hinv : ∀ p ∈ m, idOf p.2 = some p.1) :
    (m.map Prod.snd).count rec
      = (match idOf rec with
         | none => 0
         | some k =>
             match lookupKey m k with
             | some v => if v = rec then 1 else 0
             | none => 0) := by
  cases hrec : idOf rec with
  | none =>
      rw [List.count_eq_zero]
      intro hmem
      rcases (mem_map_snd_iff _ _).mp hmem with ⟨k', hk'⟩
      have := hinv (k', rec) hk'
      rw [hrec] at this
      exact absurd this (by simp)
  | some k =>
      have hP : ∀ p ∈ m, (fun v => v == rec) p.2 = true → p.1 = k := by
        intro p hp hdec
        have heq : p.2 = rec := by simpa using hdec
        have := hinv p hp
        rw [heq, hrec] at this
        injection this with h
        exact h.symm
      have hcount : (m.map Prod.snd).count rec
          = ((m.map Prod.snd).filter (fun v => v == rec)).length := by
        rw [List.count, List.countP_eq_length_filter]
      rw [hcount, length_filter_map_snd m (fun v => v == rec) k hm hP]
      cases hlk : lookupKey m k with
      | none => simp [hlk]
      | some v => simp [hlk]

theorem matchRecExt (a b : MatchRec)
    (h1 : a.source_product_id = b.source_product_id)
    (h2 : a.target_product_id = b.target_product_id)
    (h3 : a.approved = b.approved) (h4 : a.rejected = b.rejected)
    (h5 : a.reason = b.reason) (h6 : a.last_feedback_at = b.last_feedback_at) :
    a = b := by
  cases a
  cases b
  simp_all

theorem isEmpty_eq_of_perm {α : Type} {l l' : List α} (p : l.Perm l') :
    l.isEmpty = l'.isEmpty := by
  have hlen := p.length_eq
  cases l <;> cases l' <;> simp_all

/-- Permuting the three inputs of `aggregate_recipes` leaves every per-key
lookup unchanged, provided each recipe has at most one rating row (the
rating fields are last-write-wins). -/
theorem lookupKey_recipesState_perm
    {h h' : List HistoryRow} {s s' : List SavedRow} {rt rt' : List RatingRow}
    (ph : h.Perm h') (ps : s.Perm s') (prt : rt.Perm rt')
    (hrt1 : ∀ k : String, (ratingsAt rt k).length ≤ 1) (k : String) :
    lookupKey (recipesState h s rt) k = lookupKey (recipesState h' s' rt') k := by
  have phk : (histAt h k).Perm (histAt h' k) := ph.filter _
  have psk : (savedAt s k).Perm (savedAt s' k) := ps.filter _
  have prtk : ratingsAt rt k = ratingsAt rt' k :=
    perm_eq_of_length_le_one (prt.filter _) (hrt1 k)
  have he1 : (histAt h k).isEmpty = (histAt h' k).isEmpty := isEmpty_eq_of_perm phk
  have he2 : (savedAt s k).isEmpty = (savedAt s' k).isEmpty := isEmpty_eq_of_perm psk
  rw [lookupKey_recipesState, lookupKey_recipesState, prtk, he1, he2]
  by_cases hcond : (histAt h' k).isEmpty ∧ (savedAt s' k).isEmpty
      ∧ (ratingsAt rt' k).isEmpty
  · rw [if_pos hcond, if_pos hcond]
  · rw [if_neg hcond, if_neg hcond]
    congr 1
    have hcond1 : ¬((histAt h k).isEmpty ∧ (savedAt s k).isEmpty
        ∧ (ratingsAt rt k).isEmpty) := by
      rw [he1, he2, prtk]
      exact hcond
    have hcond2 : ¬((histAt h' k).isEmpty ∧ (savedAt s' k).isEmpty
        ∧ (ratingsAt rt' k).isEmpty) := hcond
    refine recipeRecExt _ _ ?_ ?_ ?_ ?_ ?_ ?_ ?_ ?_ ?_
    · rw [show ratingsAt rt' k = ratingsAt rt k from prtk.symm]
      rw [recipes_comp_id h s rt k hcond1]
      rw [prtk, recipes_comp_id h' s' rt' k hcond2]
    · rw [ratingFold_views, ratingFold_views, savedFold_views, savedFold_views,
        histFold_views, histFold_views]
      simp [(phk.filter _).length_eq]
    · rw [ratingFold_last_view, ratingFold_last_view, savedFold_last_view,
        savedFold_last_view, histFold_last_view, histFold_last_view,
        listMaxFrom_none, listMaxFrom_none]
      exact listMax_perm ((phk.filter _).map _)
    · rw [ratingFold_cooks, ratingFold_cooks, savedFold_cooks, savedFold_cooks,
        histFold_cooks, histFold_cooks]
      simp [(phk.filter _).length_eq]
    · rw [ratingFold_last_cook, ratingFold_last_cook, savedFold_last_cook,
        savedFold_last_cook, histFold_last_cook, histFold_last_cook,
        listMaxFrom_none, listMaxFrom_none]
      exact listMax_perm ((phk.filter _).map _)
    · rw [ratingFold_saved, ratingFold_saved, savedFold_saved, savedFold_saved,
        histFold_saved, histFold_saved, he2]
    · rw [ratingFold_first_saved, ratingFold_first_saved, savedFold_first_saved,
        savedFold_first_saved, histFold_first_saved, histFold_first_saved,
        listMinFrom_none, listMinFrom_none]
      exact listMin_perm (psk.map _)
    · rw [ratingFold_rating, ratingFold_rating, savedFold_rating, savedFold_rating,
        histFold_rating, histFold_rating]
    · rw [ratingFold_last_rating, ratingFold_last_rating, savedFold_last_rating,
        savedFold_last_rating, histFold_last_rating, histFold_last_rating]

/-- Permuting the input of `aggregate_matches` leaves every per-key lookup
unchanged, provided each pair has at most one rejected row (the `reason`
field is last-write-wins). -/
theorem lookupKey_matchesState_perm {fb fb' : List FeedbackRow}
    (pfb : fb.Perm fb')
    (hfb1 : ∀ kp : String × String,
      ((feedbackAt fb kp).filter
        (fun r => decide (r.feedback_type = "rejected"))).length ≤ 1)
    (kp : String × String) :
    lookupKey (matchesState fb) kp = lookupKey (matchesState fb') kp := by
  have pk : (feedbackAt fb kp).Perm (feedbackAt fb' kp) := pfb.filter _
  have prej : (feedbackAt fb kp).filter (fun r => decide (r.feedback_type = "rejected"))
      = (feedbackAt fb' kp).filter (fun r => decide (r.feedback_type = "rejected")) :=
    perm_eq_of_length_le_one (pk.filter _) (hfb1 kp)
  have he : (feedbackAt fb kp).isEmpty = (feedbackAt fb' kp).isEmpty :=
    isEmpty_eq_of_perm pk
  rw [lookupKey_matchesState, lookupKey_matchesState, he]
  by_cases hcond : (feedbackAt fb' kp).isEmpty
  · rw [if_pos hcond, if_pos hcond]
  · rw [if_neg hcond, if_neg hcond]
    congr 1
    have hcond1 : ¬(feedbackAt fb kp).isEmpty = true := by
      rw [he]
      exact hcond
    refine matchRecExt _ _ ?_ ?_ ?_ ?_ ?_ ?_
    · rw [matchFold_src _ _ kp (mem_feedbackAt fb kp),
        matchFold_src _ _ kp (mem_feedbackAt fb' kp)]
      simp [hcond1, hcond]
    · rw [matchFold_tgt _ _ kp (mem_feedbackAt fb kp),
        matchFold_tgt _ _ kp (mem_feedbackAt fb' kp)]
      simp [hcond1, hcond]
    · rw [matchFold_approved, matchFold_approved,
        isEmpty_eq_of_perm (pk.filter (fun r => decide (r.feedback_type = "approved")))]
    · rw [matchFold_rejected, matchFold_rejected,
        isEmpty_eq_of_perm (pk.filter (fun r => decide (r.feedback_type = "rejected")))]
    · rw [matchFold_reason, matchFold_reason, prej]
    · rw [matchFold_last_feedback, matchFold_last_feedback,
        listMaxFrom_none, listMaxFrom_none]
      exact listMax_perm (pk.map _)

/-- The key a match record testifies for: both endpoint ids, when set. -/
def matchKeyOf (r : MatchRec) : Option (String × String) :=
  match r.source_product_id, r.target_product_id with
  | some a, some b => some (a, b)
  | _, _ => none

/-- C2 counterexample: the two rating lists are permutations of one another,
yet the multisets of output records differ — `rating`/`last_rating_at` are
last-write-wins, so the order of rating rows for one recipe changes the
output record. -/
theorem aggregator_order_independence_cex :
    ([⟨"r1", 5, 10⟩, ⟨"r1", 3, 20⟩] : List RatingRow).Perm
        [⟨"r1", 3, 20⟩, ⟨"r1", 5, 10⟩]
    ∧ ¬((aggregate_recipes [] [] [⟨"r1", 5, 10⟩, ⟨"r1", 3, 20⟩]).Perm
          (aggregate_recipes [] [] [⟨"r1", 3, 20⟩, ⟨"r1", 5, 10⟩])) := by
  constructor
  · decide
  · decide

/-- C2 amended: the aggregators are order-independent — permuting the input
rows yields the same multiset of per-counterparty records, every field
included — provided each recipe has at most one rating row and each
(source, target) pair has at most one rejected feedback row; the
last-write-wins `rating`/`last_rating_at`/`reason` fields depend on input
order when those rows are duplicated. -/
theorem aggregator_order_independence
    (h h' : List HistoryRow) (s s' : List SavedRow) (rt rt' : List RatingRow)
    (fb fb' : List FeedbackRow)
    (ph : h.Perm h') (ps : s.Perm s') (prt : rt.Perm rt') (pfb : fb.Perm fb')
    (hrt1 : ∀ k : String, (ratingsAt rt k).length ≤ 1)
    (hfb1 : ∀ kp : String × String,
      ((feedbackAt fb kp).filter
        (fun r => decide (r.feedback_type = "rejected"))).length ≤ 1) :
    (aggregate_recipes h s rt).Perm (aggregate_recipes h' s' rt')
    ∧ (aggregate_matches fb).Perm (aggregate_matches fb') := by
  constructor
  · rw [List.perm_iff_count]
    intro rec
    show ((recipesState h s rt).map Prod.snd).count rec
      = ((recipesState h' s' rt').map Prod.snd).count rec
    rw [count_map_snd _ (fun r : RecipeRec => r.recipe_id) rec
          (nodup_keysOf_recipesState h s rt) (recipesState_id_inv h s rt),
        count_map_snd _ (fun r : RecipeRec => r.recipe_id) rec
          (nodup_keysOf_recipesState h' s' rt') (recipesState_id_inv h' s' rt')]
    cases hrc : rec.recipe_id with
    | none => rfl
    | some k => simp only [lookupKey_recipesState_perm ph ps prt hrt1]
  · rw [List.perm_iff_count]
    intro rec
    show ((matchesState fb).map Prod.snd).count rec
      = ((matchesState fb').map Prod.snd).count rec
    have hidOf : ∀ (rows : List FeedbackRow), ∀ p ∈ matchesState rows,
        matchKeyOf p.2 = some p.1 := by
      intro rows p hp
      have h2 := matchesState_id_inv rows p hp
      simp [matchKeyOf, h2.1, h2.2]
    rw [count_map_snd _ matchKeyOf rec (nodup_keysOf_matchesState fb) (hidOf fb),
        count_map_snd _ matchKeyOf rec (nodup_keysOf_matchesState fb') (hidOf fb')]
    cases hko : matchKeyOf rec with
    | none => rfl
    | some kp => simp only [lookupKey_matchesState_perm pfb hfb1]

/-- Witness for C2's amended theorem: concrete permuted inputs with at most
one rating row and at most one rejected row per key. -/
theorem aggregator_order_independence_witness :
    (aggregate_recipes [⟨"r1", "viewed", 3⟩, ⟨"r2", "cooked", 4⟩] [⟨"r1", 9⟩]
        [⟨"r1", 5, 10⟩]).Perm
      (aggregate_recipes [⟨"r2", "cooked", 4⟩, ⟨"r1", "viewed", 3⟩] [⟨"r1", 9⟩]
        [⟨"r1", 5, 10⟩])
    ∧ (aggregate_matches [⟨"a", "b", "approved", none, 1⟩]).Perm
        (aggregate_matches [⟨"a", "b", "approved", none, 1⟩]) :=
  aggregator_order_independence
    [⟨"r1", "viewed", 3⟩, ⟨"r2", "cooked", 4⟩]
    [⟨"r2", "cooked", 4⟩, ⟨"r1", "viewed", 3⟩]
    [⟨"r1", 9⟩] [⟨"r1", 9⟩] [⟨"r1", 5, 10⟩] [⟨"r1", 5, 10⟩]
    [⟨"a", "b", "approved", none, 1⟩] [⟨"a", "b", "approved", none, 1⟩]
    (by decide) (List.Perm.refl _) (List.Perm.refl _) (List.Perm.refl _)
    (fun k => by
      unfold ratingsAt
      exact le_trans (List.length_filter_le _ _) (by simp))
    (fun kp => by
      have h1 : (feedbackAt [⟨"a", "b", "approved", none, 1⟩] kp).length ≤ 1 := by
        unfold feedbackAt
        exact le_trans (List.length_filter_le _ _) (by simp)
      exact le_trans (List.length_filter_le _ _) h1)

/-! ## Idempotency machinery for the replace-and-rebuild mutation -/

theorem setProp_absorb (ps : PropList) (k : String) (v v' : GVal) :
    setProp (setProp ps k v') k v = setProp ps k v := by
  induction ps with
  | nil => simp [setProp]
  | cons p tl ih =>
      obtain ⟨k', w⟩ := p
      by_cases h : k' = k
      · subst h
        simp [setProp]
      · simp [setProp, h, ih]

/-- First-match property lookup. -/
def lookupProp : PropList → String → Option GVal
  | [], _ => none
  | (k', v) :: tl, k => if k' = k then some v else lookupProp tl k

theorem lookupProp_setProp_self (ps : PropList) (k : String) (v : GVal) :
    lookupProp (setProp ps k v) k = some v := by
  induction ps with
  | nil => simp [setProp, lookupProp]
  | cons p tl ih =>
      obtain ⟨k', w⟩ := p
      by_cases h : k' = k
      · subst h
        simp [setProp, lookupProp]
      · simp [setProp, lookupProp, h, ih]

theorem lookupProp_setProp_ne (ps : PropList) (k k' : String) (v' : GVal)
    (h : k' ≠ k) :
    lookupProp (setProp ps k' v') k = lookupProp ps k := by
  induction ps with
  | nil => simp [setProp, lookupProp, h]
  | cons p tl ih =>
      obtain ⟨k'', w⟩ := p
      by_cases h2 : k'' = k'
      · subst h2
        simp [setProp, lookupProp, h]
      · simp [setProp, lookupProp, h2, ih]

/-- Setting a property to the value it already has is the identity. -/
theorem setProp_of_lookup (ps : PropList) (k : String) (v : GVal)
    (h : lookupProp ps k = some v) : setProp ps k v = ps := by
  induction ps with
  | nil => simp [lookupProp] at h
  | cons p tl ih =>
      obtain ⟨k', w⟩ := p
      by_cases h2 : k' = k
      · subst h2
        simp [lookupProp] at h
        simp [setProp, h]
      · simp only [lookupProp, if_neg h2] at h
        simp [setProp, h2, ih h]

theorem b2cUserSetter_idem (u : B2CUserRow) (ps : PropList) :
    b2cUserSetter u (b2cUserSetter u ps) = b2cUserSetter u ps := by
  unfold b2cUserSetter
  rw [setProp_of_lookup _ "email" _ (by
        rw [lookupProp_setProp_ne _ _ _ _ (by decide),
            lookupProp_setProp_ne _ _ _ _ (by decide),
            lookupProp_setProp_self]),
      setProp_of_lookup _ "full_name" _ (by
        rw [lookupProp_setProp_ne _ _ _ _ (by decide),
            lookupProp_setProp_self]),
      setProp_of_lookup _ "updated_at" _ (lookupProp_setProp_self _ _ _)]

theorem b2bUserSetter_idem (u : B2BUserRow) (ps : PropList) :
    b2bUserSetter u (b2bUserSetter u ps) = b2bUserSetter u ps := by
  unfold b2bUserSetter
  rw [setProp_of_lookup _ "email" _ (by
        rw [lookupProp_setProp_ne _ _ _ _ (by decide),
            lookupProp_setProp_ne _ _ _ _ (by decide),
            lookupProp_setProp_self]),
      setProp_of_lookup _ "role" _ (by
        rw [lookupProp_setProp_ne _ _ _ _ (by decide),
            lookupProp_setProp_self]),
      setProp_of_lookup _ "updated_at" _ (lookupProp_setProp_self _ _ _)]

theorem vendorSetter_idem (u : B2BUserRow) (ps : PropList) :
    vendorSetter u (vendorSetter u ps) = vendorSetter u ps := by
  unfold vendorSetter
  rw [setProp_of_lookup _ "name" _ (lookupProp_setProp_self _ _ _)]

/-- First-match node lookup by (label, id). -/
def lookupNode : List GNode → String → String → Option PropList
  | [], _, _ => none
  | n :: tl, label, id =>
      if n.label = label ∧ n.id = id then some n.props else lookupNode tl label id

theorem lookupNode_mergeNode_self (ns : List GNode) (label id : String)
    (f : PropList → PropList) :
    lookupNode (mergeNode ns label id f) label id
      = some (f ((lookupNode ns label id).getD [])) := by
  induction ns with
  | nil => simp [mergeNode, lookupNode]
  | cons n tl ih =>
      by_cases h : n.label = label ∧ n.id = id
      · simp [mergeNode, lookupNode, h]
      · simp [mergeNode, lookupNode, h, ih]

theorem lookupNode_mergeNode_ne (ns : List GNode) (label id label' id' : String)
    (f : PropList → PropList) (h : ¬(label' = label ∧ id' = id)) :
    lookupNode (mergeNode ns label' id' f) label id = lookupNode ns label id := by
  induction ns with
  | nil =>
      simp only [mergeNode, lookupNode]
      exact if_neg h
  | cons n tl ih =>
      by_cases h2 : n.label = label' ∧ n.id = id'
      · have h3 : ¬(n.label = label ∧ n.id = id) := by
          rintro ⟨ha, hb⟩
          exact h ⟨by rw [← h2.1, ha], by rw [← h2.2, hb]⟩
        simp only [mergeNode, if_pos h2, lookupNode]
        exact (if_neg h).trans (if_neg h3).symm
      · simp only [mergeNode, if_neg h2, lookupNode]
        by_cases h4 : n.label = label ∧ n.id = id
        · rw [if_pos h4, if_pos h4]
        · rw [if_neg h4, if_neg h4]
          exact ih

/-- A node MERGE whose first match already carries setter-fixed properties
is the identity. -/
theorem mergeNode_fixed (ns : List GNode) (label id : String)
    (f : PropList → PropList) (q : PropList)
    (hq : lookupNode ns label id = some q) (hf : f q = q) :
    mergeNode ns label id f = ns := by
  induction ns with
  | nil => simp [lookupNode] at hq
  | cons n tl ih =>
      by_cases h : n.label = label ∧ n.id = id
      · simp only [lookupNode, if_pos h, Option.some.injEq] at hq
        subst hq
        simp only [mergeNode, if_pos h, hf]
        obtain ⟨ha, hb⟩ := h
        cases n
        simp_all
      · simp only [lookupNode, if_neg h] at hq
        simp only [mergeNode, if_neg h, ih hq]

theorem mergeNode_found_id (ns : List GNode) (label id : String) (q : PropList)
    (hq : lookupNode ns label id = some q) :
    mergeNode ns label id (fun ps => ps) = ns :=
  mergeNode_fixed ns label id (fun ps => ps) q hq rfl

/-- First-match relationship lookup by MERGE key. -/
def lookupEdge : List GEdge → EdgeKey → Option PropList
  | [], _ => none
  | e :: tl, k => if edgeHasKey e k then some e.props else lookupEdge tl k

theorem lookupEdge_mergeEdge_self (es : List GEdge) (k : EdgeKey)
    (f : PropList → PropList) :
    lookupEdge (mergeEdge es k f) k = some (f ((lookupEdge es k).getD [])) := by
  induction es with
  | nil =>
      simp only [mergeEdge, lookupEdge]
      rw [if_pos ⟨rfl, rfl, rfl, rfl, rfl⟩]
      rfl
  | cons e tl ih =>
      by_cases h : edgeHasKey e k
      · simp only [mergeEdge, if_pos h, lookupEdge]
        rw [if_pos
          (show edgeHasKey ⟨k.srcLabel, k.srcId, k.kind, k.dstLabel, k.dstId, f e.props⟩ k
            from ⟨rfl, rfl, rfl, rfl, rfl⟩)]
        rfl
      · simp only [mergeEdge, if_neg h, lookupEdge, if_neg h, ih]

theorem lookupEdge_mergeEdge_ne (es : List GEdge) (k k' : EdgeKey)
    (f : PropList → PropList) (h : k' ≠ k) :
    lookupEdge (mergeEdge es k' f) k = lookupEdge es k := by
  have hkk : ∀ e : GEdge, edgeHasKey e k' → ¬edgeHasKey e k := by
    intro e h1 h2
    obtain ⟨a1, a2, a3, a4, a5⟩ := h1
    obtain ⟨b1, b2, b3, b4, b5⟩ := h2
    apply h
    cases k
    cases k'
    simp_all
  induction es with
  | nil =>
      simp only [mergeEdge, lookupEdge]
      rw [if_neg (hkk _ ⟨rfl, rfl, rfl, rfl, rfl⟩)]
  | cons e tl ih =>
      by_cases h2 : edgeHasKey e k'
      · simp only [mergeEdge, if_pos h2, lookupEdge]
        rw [if_neg (hkk _ ⟨rfl, rfl, rfl, rfl, rfl⟩), if_neg (hkk e h2)]
      · simp only [mergeEdge, if_neg h2, lookupEdge]
        by_cases h3 : edgeHasKey e k
        · rw [if_pos h3, if_pos h3]
        · rw [if_neg h3, if_neg h3, ih]

/-- A relationship MERGE whose first match already carries setter-fixed
properties is the identity. -/
theorem mergeEdge_fixed (es : List GEdge) (k : EdgeKey)
    (f : PropList → PropList) (q : PropList)
    (hq : lookupEdge es k = some q) (hf : f q = q) :
    mergeEdge es k f = es := by
  induction es with
  | nil => simp [lookupEdge] at hq
  | cons e tl ih =>
      by_cases h : edgeHasKey e k
      · simp only [lookupEdge, if_pos h, Option.some.injEq] at hq
        subst hq
        simp only [mergeEdge, if_pos h, hf]
        obtain ⟨a1, a2, a3, a4, a5⟩ := h
        cases e
        simp_all
      · simp only [lookupEdge, if_neg h] at hq
        simp only [mergeEdge, if_neg h, ih hq]

theorem mergeEdge_found_id (es : List GEdge) (k : EdgeKey) (q : PropList)
    (hq : lookupEdge es k = some q) :
    mergeEdge es k (fun ps => ps) = es :=
  mergeEdge_fixed es k (fun ps => ps) q hq rfl

/-- A lookup is unchanged by a filter that keeps every edge matching the
key. -/
theorem lookupEdge_filter (es : List GEdge) (k : EdgeKey) (p : GEdge → Bool)
    (hkeep : ∀ e : GEdge, edgeHasKey e k → p e = true) :
    lookupEdge (es.filter p) k = lookupEdge es k := by
  induction es with
  | nil => rfl
  | cons e tl ih =>
      by_cases h : edgeHasKey e k
      · rw [List.filter_cons, if_pos (by simp [hkeep e h])]
        simp only [lookupEdge, if_pos h]
      · rw [List.filter_cons]
        by_cases hp : p e
        · rw [if_pos (by simp [hp])]
          simp only [lookupEdge, if_neg h, ih]
        · rw [if_neg (by simp [hp])]
          simp only [lookupEdge, if_neg h, ih]

/-- Merging at a key absent from a prefix leaves the prefix intact. -/
theorem mergeEdge_append (es acc : List GEdge) (k : EdgeKey)
    (f : PropList → PropList) (h : ∀ e ∈ es, ¬edgeHasKey e k) :
    mergeEdge (es ++ acc) k f = es ++ mergeEdge acc k f := by
  induction es with
  | nil => simp
  | cons e tl ih =>
      simp only [List.cons_append, mergeEdge,
        if_neg (h e (List.mem_cons_self _ _)), List.append_eq]
      rw [ih (fun e he => h e (List.mem_cons_of_mem _ he))]

/-- Merging preserves an all-edges property that holds of every edge
matching the merge key. -/
theorem mergeEdge_all (es : List GEdge) (k : EdgeKey) (f : PropList → PropList)
    (P : GEdge → Bool) (hkey : ∀ e : GEdge, edgeHasKey e k → P e = true)
    (hall : ∀ e ∈ es, P e = true) :
    ∀ e ∈ mergeEdge es k f, P e = true := by
  induction es with
  | nil =>
      intro e he
      simp only [mergeEdge, List.mem_singleton] at he
      subst he
      exact hkey _ ⟨rfl, rfl, rfl, rfl, rfl⟩
  | cons e0 tl ih =>
      intro e he
      by_cases h : edgeHasKey e0 k
      · simp only [mergeEdge, if_pos h, List.mem_cons] at he
        rcases he with rfl | he
        · exact hkey _ ⟨rfl, rfl, rfl, rfl, rfl⟩
        · exact hall _ (List.mem_cons_of_mem _ he)
      · simp only [mergeEdge, if_neg h, List.mem_cons] at he
        rcases he with rfl | he
        · exact hall _ (List.mem_cons_self _ _)
        · exact ih (fun e' he' => hall _ (List.mem_cons_of_mem _ he')) _ he

theorem condMergeEdge_append (c : Prop) [Decidable c] (es acc : List GEdge)
    (k : EdgeKey) (f : PropList → PropList) (h : ∀ e ∈ es, ¬edgeHasKey e k) :
    (if c then mergeEdge (es ++ acc) k f else es ++ acc)
      = es ++ (if c then mergeEdge acc k f else acc) := by
  split_ifs with hc
  · exact mergeEdge_append es acc k f h
  · rfl

theorem condMergeEdge_all (c : Prop) [Decidable c] (es : List GEdge)
    (k : EdgeKey) (f : PropList → PropList) (P : GEdge → Bool)
    (hkey : ∀ e : GEdge, edgeHasKey e k → P e = true)
    (hall : ∀ e ∈ es, P e = true) :
    ∀ e ∈ (if c then mergeEdge es k f else es), P e = true := by
  split_ifs with hc
  · exact mergeEdge_all es k f P hkey hall
  · exact hall

theorem condMergeEdge_lookup_ne (c : Prop) [Decidable c] (es : List GEdge)
    (k k' : EdgeKey) (f : PropList → PropList) (h : k' ≠ k) :
    lookupEdge (if c then mergeEdge es k' f else es) k = lookupEdge es k := by
  split_ifs with hc
  · exact lookupEdge_mergeEdge_ne es k k' f h
  · rfl

theorem filter_not_of_all_true (P : GEdge → Bool) (es : List GEdge)
    (h : ∀ e ∈ es, P e = true) : es.filter (fun e => !P e) = [] := by
  rw [List.filter_eq_nil_iff]
  intro e he
  simp [h e he]

theorem filter_not_of_all_false (P : GEdge → Bool) (es : List GEdge)
    (h : ∀ e ∈ es, P e = false) : es.filter (fun e => !P e) = es := by
  rw [List.filter_eq_self]
  intro e he
  simp [h e he]

theorem mem_filter_not (P : GEdge → Bool) (es : List GEdge) (e : GEdge)
    (he : e ∈ es.filter (fun e => !P e)) : P e = false := by
  have := List.of_mem_filter he
  simpa using this

theorem isRecipeEdgeB2C_of_key (uid rid kind : String) (e : GEdge)
    (hkind : kind = "VIEWED" ∨ kind = "COOKED" ∨ kind = "SAVED" ∨ kind = "RATED")
    (he : edgeHasKey e ⟨"B2CCustomer", uid, kind, "Recipe", rid⟩) :
    isRecipeEdgeB2C uid e = true := by
  obtain ⟨h1, h2, h3, h4, h5⟩ := he
  rcases hkind with h | h | h | h <;>
    simp [isRecipeEdgeB2C, h1, h2, h3, h4, h]

theorem isProductEdgeB2C_of_key (uid pid kind : String) (e : GEdge)
    (hkind : kind = "VIEWED_PRODUCT" ∨ kind = "PURCHASED"
      ∨ kind = "SAVED_PRODUCT" ∨ kind = "RATED_PRODUCT")
    (he : edgeHasKey e ⟨"B2CCustomer", uid, kind, "Product", pid⟩) :
    isProductEdgeB2C uid e = true := by
  obtain ⟨h1, h2, h3, h4, h5⟩ := he
  rcases hkind with h | h | h | h <;>
    simp [isProductEdgeB2C, h1, h2, h3, h4, h]

theorem isProductEdgeB2B_of_key (uid pid : String) (e : GEdge)
    (he : edgeHasKey e ⟨"VendorUser", uid, "VIEWED_PRODUCT", "Product", pid⟩) :
    isProductEdgeB2B uid e = true := by
  obtain ⟨h1, h2, h3, h4, h5⟩ := he
  simp [isProductEdgeB2B, h1, h2, h3, h4]

theorem isMatchEdgeB2B_of_key (uid pid kind : String) (e : GEdge)
    (hkind : kind = "APPROVED_MATCH" ∨ kind = "REJECTED_MATCH")
    (he : edgeHasKey e ⟨"VendorUser", uid, kind, "Product", pid⟩) :
    isMatchEdgeB2B uid e = true := by
  obtain ⟨h1, h2, h3, h4, h5⟩ := he
  rcases hkind with h | h <;>
    simp [isMatchEdgeB2B, h1, h2, h3, h4, h]

theorem recipe_not_product_b2c (uid : String) (e : GEdge)
    (h : isRecipeEdgeB2C uid e = true) : isProductEdgeB2C uid e = false := by
  simp only [isRecipeEdgeB2C, decide_eq_true_eq] at h
  simp only [isProductEdgeB2C, decide_eq_false_iff_not]
  rintro ⟨g1, g2, g3, g4⟩
  rw [h.2.2.2] at g4
  exact absurd g4 (by decide)

theorem product_not_recipe_b2c (uid : String) (e : GEdge)
    (h : isProductEdgeB2C uid e = true) : isRecipeEdgeB2C uid e = false := by
  simp only [isProductEdgeB2C, decide_eq_true_eq] at h
  simp only [isRecipeEdgeB2C, decide_eq_false_iff_not]
  rintro ⟨g1, g2, g3, g4⟩
  rw [h.2.2.2] at g4
  exact absurd g4 (by decide)

theorem product_not_match_b2b (uid : String) (e : GEdge)
    (h : isProductEdgeB2B uid e = true) : isMatchEdgeB2B uid e = false := by
  simp only [isProductEdgeB2B, decide_eq_true_eq] at h
  simp only [isMatchEdgeB2B, decide_eq_false_iff_not]
  rintro ⟨g1, g2, g3, g4⟩
  rw [h.2.2.1] at g3
  rcases g3 with g | g <;> exact absurd g (by decide)

theorem match_not_product_b2b (uid : String) (e : GEdge)
    (h : isMatchEdgeB2B uid e = true) : isProductEdgeB2B uid e = false := by
  simp only [isMatchEdgeB2B, decide_eq_true_eq] at h
  simp only [isProductEdgeB2B, decide_eq_false_iff_not]
  rintro ⟨g1, g2, g3, g4⟩
  rcases h.2.2.1 with g | g <;>
    (rw [g] at g3; exact absurd g3 (by decide))

theorem recipeEdges_all (uid : String) (i : RecipeRec) (es : List GEdge)
    (hall : ∀ e ∈ es, isRecipeEdgeB2C uid e = true) :
    ∀ e ∈ recipeEdges uid i es, isRecipeEdgeB2C uid e = true := by
  intro e he
  simp only [recipeEdges] at he
  exact condMergeEdge_all _ _ _ _ _
    (fun e he => isRecipeEdgeB2C_of_key uid _ _ e (Or.inr (Or.inr (Or.inr rfl))) he)
    (condMergeEdge_all _ _ _ _ _
      (fun e he => isRecipeEdgeB2C_of_key uid _ _ e (Or.inr (Or.inr (Or.inl rfl))) he)
      (condMergeEdge_all _ _ _ _ _
        (fun e he => isRecipeEdgeB2C_of_key uid _ _ e (Or.inr (Or.inl rfl)) he)
        (condMergeEdge_all _ _ _ _ _
          (fun e he => isRecipeEdgeB2C_of_key uid _ _ e (Or.inl rfl) he)
          hall))) e he

theorem recipeEdges_append (uid : String) (i : RecipeRec) (es acc : List GEdge)
    (hfalse : ∀ e ∈ es, isRecipeEdgeB2C uid e = false) :
    recipeEdges uid i (es ++ acc) = es ++ recipeEdges uid i acc := by
  have hnk : ∀ kind : String,
      (kind = "VIEWED" ∨ kind = "COOKED" ∨ kind = "SAVED" ∨ kind = "RATED") →
      ∀ e ∈ es, ¬edgeHasKey e ⟨"B2CCustomer", uid, kind, "Recipe", optId i.recipe_id⟩ := by
    intro kind hkind e he hkey
    have := isRecipeEdgeB2C_of_key uid _ kind e hkind hkey
    rw [hfalse e he] at this
    exact absurd this (by decide)
  simp only [recipeEdges]
  rw [condMergeEdge_append _ _ _ _ _ (hnk "VIEWED" (Or.inl rfl)),
      condMergeEdge_append _ _ _ _ _ (hnk "COOKED" (Or.inr (Or.inl rfl))),
      condMergeEdge_append _ _ _ _ _ (hnk "SAVED" (Or.inr (Or.inr (Or.inl rfl)))),
      condMergeEdge_append _ _ _ _ _ (hnk "RATED" (Or.inr (Or.inr (Or.inr rfl))))]

theorem productEdgesB2C_all (uid : String) (p : ProductRec) (es : List GEdge)
    (hall : ∀ e ∈ es, isProductEdgeB2C uid e = true) :
    ∀ e ∈ productEdgesB2C uid p es, isProductEdgeB2C uid e = true := by
  intro e he
  simp only [productEdgesB2C] at he
  exact condMergeEdge_all _ _ _ _ _
    (fun e he => isProductEdgeB2C_of_key uid _ _ e (Or.inr (Or.inr (Or.inr rfl))) he)
    (condMergeEdge_all _ _ _ _ _
      (fun e he => isProductEdgeB2C_of_key uid _ _ e (Or.inr (Or.inr (Or.inl rfl))) he)
      (condMergeEdge_all _ _ _ _ _
        (fun e he => isProductEdgeB2C_of_key uid _ _ e (Or.inr (Or.inl rfl)) he)
        (condMergeEdge_all _ _ _ _ _
          (fun e he => isProductEdgeB2C_of_key uid _ _ e (Or.inl rfl) he)
          hall))) e he

theorem productEdgesB2C_append (uid : String) (p : ProductRec) (es acc : List GEdge)
    (hfalse : ∀ e ∈ es, isProductEdgeB2C uid e = false) :
    productEdgesB2C uid p (es ++ acc) = es ++ productEdgesB2C uid p acc := by
  have hnk : ∀ kind : String,
      (kind = "VIEWED_PRODUCT" ∨ kind = "PURCHASED"
        ∨ kind = "SAVED_PRODUCT" ∨ kind = "RATED_PRODUCT") →
      ∀ e ∈ es, ¬edgeHasKey e ⟨"B2CCustomer", uid, kind, "Product", optId p.product_id⟩ := by
    intro kind hkind e he hkey
    have := isProductEdgeB2C_of_key uid _ kind e hkind hkey
    rw [hfalse e he] at this
    exact absurd this (by decide)
  simp only [productEdgesB2C]
  rw [condMergeEdge_append _ _ _ _ _ (hnk "VIEWED_PRODUCT" (Or.inl rfl)),
      condMergeEdge_append _ _ _ _ _ (hnk "PURCHASED" (Or.inr (Or.inl rfl))),
      condMergeEdge_append _ _ _ _ _ (hnk "SAVED_PRODUCT" (Or.inr (Or.inr (Or.inl rfl)))),
      condMergeEdge_append _ _ _ _ _ (hnk "RATED_PRODUCT" (Or.inr (Or.inr (Or.inr rfl))))]

theorem productEdgesB2B_all (uid : String) (p : B2BProductRec) (es : List GEdge)
    (hall : ∀ e ∈ es, isProductEdgeB2B uid e = true) :
    ∀ e ∈ productEdgesB2B uid p es, isProductEdgeB2B uid e = true := by
  intro e he
  simp only [productEdgesB2B] at he
  exact condMergeEdge_all _ _ _ _ _
    (fun e he => isProductEdgeB2B_of_key uid _ e he) hall e he

theorem productEdgesB2B_append (uid : String) (p : B2BProductRec) (es acc : List GEdge)
    (hfalse : ∀ e ∈ es, isProductEdgeB2B uid e = false) :
    productEdgesB2B uid p (es ++ acc) = es ++ productEdgesB2B uid p acc := by
  have hnk : ∀ e ∈ es,
      ¬edgeHasKey e ⟨"VendorUser", uid, "VIEWED_PRODUCT", "Product", optId p.product_id⟩ := by
    intro e he hkey
    have := isProductEdgeB2B_of_key uid _ e hkey
    rw [hfalse e he] at this
    exact absurd this (by decide)
  simp only [productEdgesB2B]
  rw [condMergeEdge_append _ _ _ _ _ hnk]

theorem matchEdges_all (uid : String) (m : MatchRec) (es : List GEdge)
    (hall : ∀ e ∈ es, isMatchEdgeB2B uid e = true) :
    ∀ e ∈ matchEdges uid m es, isMatchEdgeB2B uid e = true := by
  intro e he
  simp only [matchEdges] at he
  exact condMergeEdge_all _ _ _ _ _
    (fun e he => isMatchEdgeB2B_of_key uid _ _ e (Or.inr rfl) he)
    (condMergeEdge_all _ _ _ _ _
      (fun e he => isMatchEdgeB2B_of_key uid _ _ e (Or.inl rfl) he)
      hall) e he

theorem matchEdges_append (uid : String) (m : MatchRec) (es acc : List GEdge)
    (hfalse : ∀ e ∈ es, isMatchEdgeB2B uid e = false) :
    matchEdges uid m (es ++ acc) = es ++ matchEdges uid m acc := by
  have hnk : ∀ kind : String, (kind = "APPROVED_MATCH" ∨ kind = "REJECTED_MATCH") →
      ∀ e ∈ es, ¬edgeHasKey e ⟨"VendorUser", uid, kind, "Product", optId m.target_product_id⟩ := by
    intro kind hkind e he hkey
    have := isMatchEdgeB2B_of_key uid _ kind e hkind hkey
    rw [hfalse e he] at this
    exact absurd this (by decide)
  simp only [matchEdges]
  rw [condMergeEdge_append _ _ _ _ _ (hnk "APPROVED_MATCH" (Or.inl rfl)),
      condMergeEdge_append _ _ _ _ _ (hnk "REJECTED_MATCH" (Or.inr rfl))]

theorem foldl_build_all {R : Type} (build : R → List GEdge → List GEdge)
    (P : GEdge → Bool)
    (hstep : ∀ (i : R) (es : List GEdge),
      (∀ e ∈ es, P e = true) → ∀ e ∈ build i es, P e = true)
    (l : List R) :
    ∀ es : List GEdge, (∀ e ∈ es, P e = true) →
      ∀ e ∈ l.foldl (fun es i => build i es) es, P e = true := by
  induction l with
  | nil => intro es hall; exact hall
  | cons i tl ih =>
      intro es hall
      exact ih _ (hstep i es hall)

theorem foldl_build_append {R : Type} (build : R → List GEdge → List GEdge)
    (es : List GEdge)
    (hstep : ∀ (i : R) (acc : List GEdge), build i (es ++ acc) = es ++ build i acc)
    (l : List R) :
    ∀ acc : List GEdge,
      l.foldl (fun es i => build i es) (es ++ acc)
        = es ++ l.foldl (fun es i => build i es) acc := by
  induction l with
  | nil => intro acc; rfl
  | cons i tl ih =>
      intro acc
      simp only [List.foldl_cons]
      rw [hstep i acc, ih]

theorem foldl_build_front {R : Type} (build : R → List GEdge → List GEdge)
    (es : List GEdge)
    (hstep : ∀ (i : R) (acc : List GEdge), build i (es ++ acc) = es ++ build i acc)
    (l : List R) :
    l.foldl (fun es i => build i es) es
      = es ++ l.foldl (fun es i => build i es) [] := by
  have h := foldl_build_append build es hstep l []
  rwa [List.append_nil] at h

theorem foldl_build_lookupEdge {R : Type} (build : R → List GEdge → List GEdge)
    (k : EdgeKey)
    (hstep : ∀ (i : R) (es : List GEdge), lookupEdge (build i es) k = lookupEdge es k)
    (l : List R) :
    ∀ es : List GEdge,
      lookupEdge (l.foldl (fun es i => build i es) es) k = lookupEdge es k := by
  induction l with
  | nil => intro es; rfl
  | cons i tl ih =>
      intro es
      simp only [List.foldl_cons]
      rw [ih, hstep]

theorem productEdgesB2B_lookupEdge (uid : String) (p : B2BProductRec)
    (es : List GEdge) (k : EdgeKey) (h : k.kind ≠ "VIEWED_PRODUCT") :
    lookupEdge (productEdgesB2B uid p es) k = lookupEdge es k := by
  simp only [productEdgesB2B]
  rw [condMergeEdge_lookup_ne _ _ _ _ _ (by intro he; apply h; rw [← he])]

theorem matchEdges_lookupEdge (uid : String) (m : MatchRec)
    (es : List GEdge) (k : EdgeKey)
    (h1 : k.kind ≠ "APPROVED_MATCH") (h2 : k.kind ≠ "REJECTED_MATCH") :
    lookupEdge (matchEdges uid m es) k = lookupEdge es k := by
  simp only [matchEdges]
  rw [condMergeEdge_lookup_ne _ _ _ _ _ (by intro he; apply h2; rw [← he]),
      condMergeEdge_lookup_ne _ _ _ _ _ (by intro he; apply h1; rw [← he])]

theorem lookupNode_isSome_mergeNode (ns : List GNode) (label id label' id' : String)
    (f : PropList → PropList) (h : (lookupNode ns label id).isSome) :
    (lookupNode (mergeNode ns label' id' f) label id).isSome := by
  by_cases hk : label' = label ∧ id' = id
  · obtain ⟨rfl, rfl⟩ := hk
    rw [lookupNode_mergeNode_self]
    rfl
  · rw [lookupNode_mergeNode_ne _ _ _ _ _ _ hk]
    exact h

theorem foldl_mergeNode_id_presSome (lbl : String) {R : Type} (key : R → String)
    (l : List R) :
    ∀ (ns : List GNode) (label id : String), (lookupNode ns label id).isSome →
      (lookupNode (l.foldl (fun ns i => mergeNode ns lbl (key i) (fun ps => ps)) ns)
        label id).isSome := by
  induction l with
  | nil => intro ns label id h; exact h
  | cons i tl ih =>
      intro ns label id h
      exact ih _ _ _ (lookupNode_isSome_mergeNode ns label id lbl (key i) _ h)

theorem foldl_mergeNode_id_presence (lbl : String) {R : Type} (key : R → String)
    (l : List R) :
    ∀ (ns : List GNode), ∀ i ∈ l,
      (lookupNode (l.foldl (fun ns i => mergeNode ns lbl (key i) (fun ps => ps)) ns)
        lbl (key i)).isSome := by
  induction l with
  | nil => intro ns i hi; simp at hi
  | cons i0 tl ih =>
      intro ns i hi
      rcases List.mem_cons.mp hi with rfl | hi
      · simp only [List.foldl_cons]
        refine foldl_mergeNode_id_presSome lbl key tl _ _ _ ?_
        rw [lookupNode_mergeNode_self]
        rfl
      · exact ih _ i hi

theorem foldl_mergeNode_id_of_present (lbl : String) {R : Type} (key : R → String)
    (l : List R) (ns : List GNode)
    (h : ∀ i ∈ l, (lookupNode ns lbl (key i)).isSome) :
    l.foldl (fun ns i => mergeNode ns lbl (key i) (fun ps => ps)) ns = ns := by
  induction l with
  | nil => rfl
  | cons i tl ih =>
      simp only [List.foldl_cons]
      obtain ⟨q, hq⟩ := Option.isSome_iff_exists.mp (h i (List.mem_cons_self _ _))
      rw [mergeNode_found_id ns lbl (key i) q hq]
      exact ih (fun i hi => h i (List.mem_cons_of_mem _ hi))

theorem lookupNode_foldl_mergeNode_ne (lbl : String) {R : Type} (key : R → String)
    (l : List R) :
    ∀ (ns : List GNode) (label id : String), label ≠ lbl →
      lookupNode (l.foldl (fun ns i => mergeNode ns lbl (key i) (fun ps => ps)) ns)
        label id = lookupNode ns label id := by
  induction l with
  | nil => intro ns label id h; rfl
  | cons i tl ih =>
      intro ns label id h
      simp only [List.foldl_cons]
      rw [ih _ _ _ h, lookupNode_mergeNode_ne _ _ _ _ _ _ (fun hc => h hc.1.symm)]

theorem matchNodes_presSome (l : List MatchRec) :
    ∀ (ns : List GNode) (label id : String), (lookupNode ns label id).isSome →
      (lookupNode (l.foldl (fun ns m => mergeNode
          (mergeNode ns "Product" (optId m.source_product_id) (fun ps => ps))
          "Product" (optId m.target_product_id) (fun ps => ps)) ns) label id).isSome := by
  induction l with
  | nil => intro ns label id h; exact h
  | cons m tl ih =>
      intro ns label id h
      exact ih _ _ _ (lookupNode_isSome_mergeNode _ _ _ _ _ _
        (lookupNode_isSome_mergeNode _ _ _ _ _ _ h))

theorem matchNodes_presence (l : List MatchRec) :
    ∀ ns : List GNode, ∀ m ∈ l,
      ((lookupNode (l.foldl (fun ns m => mergeNode
          (mergeNode ns "Product" (optId m.source_product_id) (fun ps => ps))
          "Product" (optId m.target_product_id) (fun ps => ps)) ns)
        "Product" (optId m.source_product_id)).isSome
      ∧ (lookupNode (l.foldl (fun ns m => mergeNode
          (mergeNode ns "Product" (optId m.source_product_id) (fun ps => ps))
          "Product" (optId m.target_product_id) (fun ps => ps)) ns)
        "Product" (optId m.target_product_id)).isSome) := by
  induction l with
  | nil => intro ns m hm; simp at hm
  | cons m0 tl ih =>
      intro ns m hm
      rcases List.mem_cons.mp hm with rfl | hm
      · constructor
        · refine matchNodes_presSome tl _ _ _ ?_
          refine lookupNode_isSome_mergeNode _ _ _ _ _ _ ?_
          rw [lookupNode_mergeNode_self]
          rfl
        · refine matchNodes_presSome tl _ _ _ ?_
          rw [lookupNode_mergeNode_self]
          rfl
      · exact ih _ m hm

theorem matchNodes_of_present (l : List MatchRec) (ns : List GNode)
    (h : ∀ m ∈ l, (lookupNode ns "Product" (optId m.source_product_id)).isSome
      ∧ (lookupNode ns "Product" (optId m.target_product_id)).isSome) :
    l.foldl (fun ns m => mergeNode
        (mergeNode ns "Product" (optId m.source_product_id) (fun ps => ps))
        "Product" (optId m.target_product_id) (fun ps => ps)) ns = ns := by
  induction l with
  | nil => rfl
  | cons m tl ih =>
      simp only [List.foldl_cons]
      obtain ⟨qs, hqs⟩ :=
        Option.isSome_iff_exists.mp (h m (List.mem_cons_self _ _)).1
      obtain ⟨qt, hqt⟩ :=
        Option.isSome_iff_exists.mp (h m (List.mem_cons_self _ _)).2
      rw [mergeNode_found_id ns _ _ qs hqs, mergeNode_found_id ns _ _ qt hqt]
      exact ih (fun m hm => h m (List.mem_cons_of_mem _ hm))

theorem matchNodes_lookup_ne (l : List MatchRec) :
    ∀ (ns : List GNode) (label id : String), label ≠ "Product" →
      lookupNode (l.foldl (fun ns m => mergeNode
          (mergeNode ns "Product" (optId m.source_product_id) (fun ps => ps))
          "Product" (optId m.target_product_id) (fun ps => ps)) ns) label id
        = lookupNode ns label id := by
  induction l with
  | nil => intro ns label id h; rfl
  | cons m tl ih =>
      intro ns label id h
      simp only [List.foldl_cons]
      rw [ih _ _ _ h,
        lookupNode_mergeNode_ne _ _ _ _ _ _ (fun hc => h hc.1.symm),
        lookupNode_mergeNode_ne _ _ _ _ _ _ (fun hc => h hc.1.symm)]

/-- Proof-layer decomposition of the node half of the B2C upsert Cypher. -/
def b2cNodeSync (u : B2CUserRow) (rs : List RecipeRec) (pr : List ProductRec)
    (ns : List GNode) : List GNode :=
  pr.foldl (fun ns p => mergeNode ns "Product" (optId p.product_id) (fun ps => ps))
    (rs.foldl (fun ns i => mergeNode ns "Recipe" (optId i.recipe_id) (fun ps => ps))
      (mergeNode ns "B2CCustomer" u.id (b2cUserSetter u)))

/-- Proof-layer decomposition of the relationship half of the B2C upsert
Cypher. -/
def b2cEdgeSync (u : B2CUserRow) (rs : List RecipeRec) (pr : List ProductRec)
    (es : List GEdge) : List GEdge :=
  pr.foldl (fun es p => productEdgesB2C u.id p es)
    (clearProductEdgesB2C u.id
      (rs.foldl (fun es i => recipeEdges u.id i es)
        (clearRecipeEdgesB2C u.id es)))

theorem upsert_b2c_split (g : Graph) (u : B2CUserRow) (rs : List RecipeRec)
    (pr : List ProductRec) :
    upsert_cypher_apply_b2c g u rs pr
      = ⟨b2cNodeSync u rs pr g.nodes, b2cEdgeSync u rs pr g.edges⟩ := rfl

/-- Proof-layer decomposition of the node half of the B2B upsert Cypher. -/
def b2bNodeSync (u : B2BUserRow) (pr : List B2BProductRec) (ms : List MatchRec)
    (ns : List GNode) : List GNode :=
  ms.foldl (fun ns m => mergeNode
      (mergeNode ns "Product" (optId m.source_product_id) (fun ps => ps))
      "Product" (optId m.target_product_id) (fun ps => ps))
    (pr.foldl (fun ns p => mergeNode ns "Product" (optId p.product_id) (fun ps => ps))
      (mergeNode (mergeNode ns "VendorUser" u.id (b2bUserSetter u))
        "Vendor" u.vendor_id (vendorSetter u)))

/-- Proof-layer decomposition of the relationship half of the B2B upsert
Cypher. -/
def b2bEdgeSync (u : B2BUserRow) (pr : List B2BProductRec) (ms : List MatchRec)
    (es : List GEdge) : List GEdge :=
  ms.foldl (fun es m => matchEdges u.id m es)
    (clearMatchEdgesB2B u.id
      (pr.foldl (fun es p => productEdgesB2B u.id p es)
        (clearProductEdgesB2B u.id
          (mergeEdge es ⟨"VendorUser", u.id, "BELONGS_TO_VENDOR", "Vendor", u.vendor_id⟩
            (fun ps => ps)))))

theorem upsert_b2b_split (g : Graph) (u : B2BUserRow) (pr : List B2BProductRec)
    (ms : List MatchRec) :
    upsert_cypher_apply_b2b g u pr ms
      = ⟨b2bNodeSync u pr ms g.nodes, b2bEdgeSync u pr ms g.edges⟩ := rfl

theorem b2cNodeSync_fix (u : B2CUserRow) (rs : List RecipeRec)
    (pr : List ProductRec) (N : List GNode) (q : PropList)
    (hq : lookupNode N "B2CCustomer" u.id = some q) (hfq : b2cUserSetter u q = q)
    (hrec : ∀ i ∈ rs, (lookupNode N "Recipe" (optId i.recipe_id)).isSome)
    (hprod : ∀ p ∈ pr, (lookupNode N "Product" (optId p.product_id)).isSome) :
    b2cNodeSync u rs pr N = N := by
  unfold b2cNodeSync
  rw [mergeNode_fixed N _ _ _ q hq hfq,
      foldl_mergeNode_id_of_present "Recipe" _ rs N hrec,
      foldl_mergeNode_id_of_present "Product" _ pr N hprod]

theorem b2cNodeSync_idem (u : B2CUserRow) (rs : List RecipeRec)
    (pr : List ProductRec) (ns0 : List GNode) :
    b2cNodeSync u rs pr (b2cNodeSync u rs pr ns0) = b2cNodeSync u rs pr ns0 := by
  have hN : lookupNode (b2cNodeSync u rs pr ns0) "B2CCustomer" u.id
      = some (b2cUserSetter u ((lookupNode ns0 "B2CCustomer" u.id).getD [])) := by
    unfold b2cNodeSync
    rw [lookupNode_foldl_mergeNode_ne "Product"
          (fun p : ProductRec => optId p.product_id) pr _ _ _ (by decide),
        lookupNode_foldl_mergeNode_ne "Recipe"
          (fun i : RecipeRec => optId i.recipe_id) rs _ _ _ (by decide),
        lookupNode_mergeNode_self]
  have hrec : ∀ i ∈ rs,
      (lookupNode (b2cNodeSync u rs pr ns0) "Recipe" (optId i.recipe_id)).isSome := by
    intro i hi
    unfold b2cNodeSync
    exact foldl_mergeNode_id_presSome "Product" _ pr _ _ _
      (foldl_mergeNode_id_presence "Recipe" _ rs _ i hi)
  have hprod : ∀ p ∈ pr,
      (lookupNode (b2cNodeSync u rs pr ns0) "Product" (optId p.product_id)).isSome := by
    intro p hp
    unfold b2cNodeSync
    exact foldl_mergeNode_id_presence "Product" _ pr _ p hp
  exact b2cNodeSync_fix u rs pr _ _ hN (b2cUserSetter_idem u _) hrec hprod

theorem b2bNodeSync_fix (u : B2BUserRow) (pr : List B2BProductRec)
    (ms : List MatchRec) (N : List GNode) (qu qv : PropList)
    (hqu : lookupNode N "VendorUser" u.id = some qu) (hfu : b2bUserSetter u qu = qu)
    (hqv : lookupNode N "Vendor" u.vendor_id = some qv) (hfv : vendorSetter u qv = qv)
    (hprod : ∀ p ∈ pr, (lookupNode N "Product" (optId p.product_id)).isSome)
    (hm : ∀ m ∈ ms, (lookupNode N "Product" (optId m.source_product_id)).isSome
      ∧ (lookupNode N "Product" (optId m.target_product_id)).isSome) :
    b2bNodeSync u pr ms N = N := by
  unfold b2bNodeSync
  rw [mergeNode_fixed N _ _ _ qu hqu hfu,
      mergeNode_fixed N _ _ _ qv hqv hfv,
      foldl_mergeNode_id_of_present "Product" _ pr N hprod,
      matchNodes_of_present ms N hm]

theorem b2bNodeSync_idem (u : B2BUserRow) (pr : List B2BProductRec)
    (ms : List MatchRec) (ns0 : List GNode) :
    b2bNodeSync u pr ms (b2bNodeSync u pr ms ns0) = b2bNodeSync u pr ms ns0 := by
  have hU : lookupNode (b2bNodeSync u pr ms ns0) "VendorUser" u.id
      = some (b2bUserSetter u ((lookupNode ns0 "VendorUser" u.id).getD [])) := by
    unfold b2bNodeSync
    rw [matchNodes_lookup_ne ms _ _ _ (by decide),
        lookupNode_foldl_mergeNode_ne "Product"
          (fun p : B2BProductRec => optId p.product_id) pr _ _ _ (by decide),
        lookupNode_mergeNode_ne _ _ _ _ _ _ (by rintro ⟨h, _⟩; exact absurd h (by decide)),
        lookupNode_mergeNode_self]
  have hV : lookupNode (b2bNodeSync u pr ms ns0) "Vendor" u.vendor_id
      = some (vendorSetter u
          ((lookupNode (mergeNode ns0 "VendorUser" u.id (b2bUserSetter u))
            "Vendor" u.vendor_id).getD [])) := by
    unfold b2bNodeSync
    rw [matchNodes_lookup_ne ms _ _ _ (by decide),
        lookupNode_foldl_mergeNode_ne "Product"
          (fun p : B2BProductRec => optId p.product_id) pr _ _ _ (by decide),
        lookupNode_mergeNode_self]
  have hprod : ∀ p ∈ pr,
      (lookupNode (b2bNodeSync u pr ms ns0) "Product" (optId p.product_id)).isSome := by
    intro p hp
    unfold b2bNodeSync
    exact matchNodes_presSome ms _ _ _
      (foldl_mergeNode_id_presence "Product" _ pr _ p hp)
  have hm : ∀ m ∈ ms,
      (lookupNode (b2bNodeSync u pr ms ns0) "Product" (optId m.source_product_id)).isSome
        ∧ (lookupNode (b2bNodeSync u pr ms ns0) "Product" (optId m.target_product_id)).isSome := by
    intro m hmm
    unfold b2bNodeSync
    exact matchNodes_presence ms _ m hmm
  exact b2bNodeSync_fix u pr ms _ _ _ hU (b2bUserSetter_idem u _)
    hV (vendorSetter_idem u _) hprod hm

theorem clearRecipeEdgesB2C_append (uid : String) (es es' : List GEdge) :
    clearRecipeEdgesB2C uid (es ++ es')
      = clearRecipeEdgesB2C uid es ++ clearRecipeEdgesB2C uid es' :=
  List.filter_append _ _

theorem clearRecipeEdgesB2C_of_false (uid : String) (es : List GEdge)
    (h : ∀ e ∈ es, isRecipeEdgeB2C uid e = false) :
    clearRecipeEdgesB2C uid es = es :=
  filter_not_of_all_false _ _ h

theorem clearRecipeEdgesB2C_of_true (uid : String) (es : List GEdge)
    (h : ∀ e ∈ es, isRecipeEdgeB2C uid e = true) :
    clearRecipeEdgesB2C uid es = [] :=
  filter_not_of_all_true _ _ h

theorem clearProductEdgesB2C_append (uid : String) (es es' : List GEdge) :
    clearProductEdgesB2C uid (es ++ es')
      = clearProductEdgesB2C uid es ++ clearProductEdgesB2C uid es' :=
  List.filter_append _ _

theorem clearProductEdgesB2C_of_false (uid : String) (es : List GEdge)
    (h : ∀ e ∈ es, isProductEdgeB2C uid e = false) :
    clearProductEdgesB2C uid es = es :=
  filter_not_of_all_false _ _ h

theorem clearProductEdgesB2C_of_true (uid : String) (es : List GEdge)
    (h : ∀ e ∈ es, isProductEdgeB2C uid e = true) :
    clearProductEdgesB2C uid es = [] :=
  filter_not_of_all_true _ _ h

theorem clearProductEdgesB2B_append (uid : String) (es es' : List GEdge) :
    clearProductEdgesB2B uid (es ++ es')
      = clearProductEdgesB2B uid es ++ clearProductEdgesB2B uid es' :=
  List.filter_append _ _

theorem clearProductEdgesB2B_of_false (uid : String) (es : List GEdge)
    (h : ∀ e ∈ es, isProductEdgeB2B uid e = false) :
    clearProductEdgesB2B uid es = es :=
  filter_not_of_all_false _ _ h

theorem clearProductEdgesB2B_of_true (uid : String) (es : List GEdge)
    (h : ∀ e ∈ es, isProductEdgeB2B uid e = true) :
    clearProductEdgesB2B uid es = [] :=
  filter_not_of_all_true _ _ h

theorem clearMatchEdgesB2B_append (uid : String) (es es' : List GEdge) :
    clearMatchEdgesB2B uid (es ++ es')
      = clearMatchEdgesB2B uid es ++ clearMatchEdgesB2B uid es' :=
  List.filter_append _ _

theorem clearMatchEdgesB2B_of_false (uid : String) (es : List GEdge)
    (h : ∀ e ∈ es, isMatchEdgeB2B uid e = false) :
    clearMatchEdgesB2B uid es = es :=
  filter_not_of_all_false _ _ h

theorem clearMatchEdgesB2B_of_true (uid : String) (es : List GEdge)
    (h : ∀ e ∈ es, isMatchEdgeB2B uid e = true) :
    clearMatchEdgesB2B uid es = [] :=
  filter_not_of_all_true _ _ h

theorem b2cEdgeSync_eq (u : B2CUserRow) (rs : List RecipeRec)
    (pr : List ProductRec) (es0 : List GEdge) :
    b2cEdgeSync u rs pr es0
      = clearProductEdgesB2C u.id (clearRecipeEdgesB2C u.id es0)
        ++ rs.foldl (fun es i => recipeEdges u.id i es) []
        ++ pr.foldl (fun es p => productEdgesB2C u.id p es) [] := by
  have hBR : ∀ e ∈ rs.foldl (fun es i => recipeEdges u.id i es) [],
      isRecipeEdgeB2C u.id e = true :=
    foldl_build_all _ _ (fun i es h => recipeEdges_all u.id i es h) rs [] (by simp)
  unfold b2cEdgeSync
  rw [foldl_build_front (fun i es => recipeEdges u.id i es)
        (clearRecipeEdgesB2C u.id es0)
        (fun i acc => recipeEdges_append u.id i _ acc
          (fun e he => mem_filter_not _ _ e he)) rs]
  rw [show clearProductEdgesB2C u.id
        (clearRecipeEdgesB2C u.id es0
          ++ rs.foldl (fun es i => recipeEdges u.id i es) [])
      = clearProductEdgesB2C u.id (clearRecipeEdgesB2C u.id es0)
          ++ rs.foldl (fun es i => recipeEdges u.id i es) [] from by
    unfold clearProductEdgesB2C
    rw [List.filter_append,
      filter_not_of_all_false _ _
        (fun e he => recipe_not_product_b2c u.id e (hBR e he))]]
  rw [foldl_build_front (fun p es => productEdgesB2C u.id p es)
        (clearProductEdgesB2C u.id (clearRecipeEdgesB2C u.id es0)
          ++ rs.foldl (fun es i => recipeEdges u.id i es) [])
        (fun p acc => productEdgesB2C_append u.id p _ acc (by
          intro e he
          rcases List.mem_append.mp he with h | h
          · exact mem_filter_not _ _ e h
          · exact recipe_not_product_b2c u.id e (hBR e h))) pr]

theorem b2cEdgeSync_idem (u : B2CUserRow) (rs : List RecipeRec)
    (pr : List ProductRec) (es0 : List GEdge) :
    b2cEdgeSync u rs pr (b2cEdgeSync u rs pr es0) = b2cEdgeSync u rs pr es0 := by
  have hBR : ∀ e ∈ rs.foldl (fun es i => recipeEdges u.id i es) [],
      isRecipeEdgeB2C u.id e = true :=
    foldl_build_all _ _ (fun i es h => recipeEdges_all u.id i es h) rs [] (by simp)
  have hBP : ∀ e ∈ pr.foldl (fun es p => productEdgesB2C u.id p es) [],
      isProductEdgeB2C u.id e = true :=
    foldl_build_all _ _ (fun p es h => productEdgesB2C_all u.id p es h) pr [] (by simp)
  have hA : ∀ e ∈ clearProductEdgesB2C u.id (clearRecipeEdgesB2C u.id es0),
      isProductEdgeB2C u.id e = false ∧ isRecipeEdgeB2C u.id e = false := by
    intro e he
    refine ⟨mem_filter_not _ _ e he, ?_⟩
    have he2 : e ∈ clearRecipeEdgesB2C u.id es0 := List.mem_of_mem_filter he
    exact mem_filter_not _ _ e he2
  rw [b2cEdgeSync_eq u rs pr es0]
  rw [b2cEdgeSync_eq u rs pr _]
  have hclear : clearProductEdgesB2C u.id (clearRecipeEdgesB2C u.id
      (clearProductEdgesB2C u.id (clearRecipeEdgesB2C u.id es0)
        ++ rs.foldl (fun es i => recipeEdges u.id i es) []
        ++ pr.foldl (fun es p => productEdgesB2C u.id p es) []))
      = clearProductEdgesB2C u.id (clearRecipeEdgesB2C u.id es0) := by
    rw [clearRecipeEdgesB2C_append, clearRecipeEdgesB2C_append]
    rw [clearRecipeEdgesB2C_of_false _ _ (fun e he => (hA e he).2)]
    rw [clearRecipeEdgesB2C_of_true _ _ hBR]
    rw [clearRecipeEdgesB2C_of_false _ _
      (fun e he => product_not_recipe_b2c u.id e (hBP e he))]
    rw [List.append_nil, clearProductEdgesB2C_append]
    rw [clearProductEdgesB2C_of_false _ _ (fun e he => (hA e he).1)]
    rw [clearProductEdgesB2C_of_true _ _ hBP]
    rw [List.append_nil]
  rw [hclear]

/-- Idempotency of the B2C replace-and-rebuild upsert. -/
theorem upsert_b2c_idem (g : Graph) (u : B2CUserRow) (rs : List RecipeRec)
    (pr : List ProductRec) :
    upsert_cypher_apply_b2c (upsert_cypher_apply_b2c g u rs pr) u rs pr
      = upsert_cypher_apply_b2c g u rs pr := by
  rw [upsert_b2c_split g u rs pr, upsert_b2c_split _ u rs pr]
  show Graph.mk _ _ = Graph.mk _ _
  rw [b2cNodeSync_idem, b2cEdgeSync_idem]

theorem lookupEdge_clearProductEdgesB2B (uid : String) (es : List GEdge)
    (k : EdgeKey) (h : ∀ e : GEdge, edgeHasKey e k → isProductEdgeB2B uid e = false) :
    lookupEdge (clearProductEdgesB2B uid es) k = lookupEdge es k := by
  unfold clearProductEdgesB2B
  exact lookupEdge_filter es k _ (fun e he => by simp [h e he])

theorem lookupEdge_clearMatchEdgesB2B (uid : String) (es : List GEdge)
    (k : EdgeKey) (h : ∀ e : GEdge, edgeHasKey e k → isMatchEdgeB2B uid e = false) :
    lookupEdge (clearMatchEdgesB2B uid es) k = lookupEdge es k := by
  unfold clearMatchEdgesB2B
  exact lookupEdge_filter es k _ (fun e he => by simp [h e he])

theorem b2bEdgeSync_eq (u : B2BUserRow) (pr : List B2BProductRec)
    (ms : List MatchRec) (es0 : List GEdge) :
    b2bEdgeSync u pr ms es0
      = clearMatchEdgesB2B u.id (clearProductEdgesB2B u.id
          (mergeEdge es0
            ⟨"VendorUser", u.id, "BELONGS_TO_VENDOR", "Vendor", u.vendor_id⟩
            (fun ps => ps)))
        ++ pr.foldl (fun es p => productEdgesB2B u.id p es) []
        ++ ms.foldl (fun es m => matchEdges u.id m es) [] := by
  have hBP : ∀ e ∈ pr.foldl (fun es p => productEdgesB2B u.id p es) [],
      isProductEdgeB2B u.id e = true :=
    foldl_build_all _ _ (fun p es h => productEdgesB2B_all u.id p es h) pr [] (by simp)
  unfold b2bEdgeSync
  rw [foldl_build_front (fun p es => productEdgesB2B u.id p es)
        (clearProductEdgesB2B u.id
          (mergeEdge es0
            ⟨"VendorUser", u.id, "BELONGS_TO_VENDOR", "Vendor", u.vendor_id⟩
            (fun ps => ps)))
        (fun p acc => productEdgesB2B_append u.id p _ acc
          (fun e he => mem_filter_not _ _ e he)) pr]
  rw [clearMatchEdgesB2B_append]
  rw [clearMatchEdgesB2B_of_false _ _
    (fun e he => product_not_match_b2b u.id e (hBP e he))]
  rw [foldl_build_front (fun m es => matchEdges u.id m es)
        (clearMatchEdgesB2B u.id (clearProductEdgesB2B u.id
          (mergeEdge es0
            ⟨"VendorUser", u.id, "BELONGS_TO_VENDOR", "Vendor", u.vendor_id⟩
            (fun ps => ps)))
          ++ pr.foldl (fun es p => productEdgesB2B u.id p es) [])
        (fun m acc => matchEdges_append u.id m _ acc (by
          intro e he
          rcases List.mem_append.mp he with h | h
          · exact mem_filter_not _ _ e h
          · exact product_not_match_b2b u.id e (hBP e h))) ms]

theorem b2bEdgeSync_idem (u : B2BUserRow) (pr : List B2BProductRec)
    (ms : List MatchRec) (es0 : List GEdge) :
    b2bEdgeSync u pr ms (b2bEdgeSync u pr ms es0) = b2bEdgeSync u pr ms es0 := by
  have hBP : ∀ e ∈ pr.foldl (fun es p => productEdgesB2B u.id p es) [],
      isProductEdgeB2B u.id e = true :=
    foldl_build_all _ _ (fun p es h => productEdgesB2B_all u.id p es h) pr [] (by simp)
  have hBM : ∀ e ∈ ms.foldl (fun es m => matchEdges u.id m es) [],
      isMatchEdgeB2B u.id e = true :=
    foldl_build_all _ _ (fun m es h => matchEdges_all u.id m es h) ms [] (by simp)
  have hC : ∀ e ∈ clearMatchEdgesB2B u.id (clearProductEdgesB2B u.id
      (mergeEdge es0
        ⟨"VendorUser", u.id, "BELONGS_TO_VENDOR", "Vendor", u.vendor_id⟩
        (fun ps => ps))),
      isMatchEdgeB2B u.id e = false ∧ isProductEdgeB2B u.id e = false := by
    intro e he
    refine ⟨mem_filter_not _ _ e he, ?_⟩
    exact mem_filter_not _ _ e (List.mem_of_mem_filter he)
  have hkeyP : ∀ e : GEdge,
      edgeHasKey e ⟨"VendorUser", u.id, "BELONGS_TO_VENDOR", "Vendor", u.vendor_id⟩ →
      isProductEdgeB2B u.id e = false := by
    intro e he
    obtain ⟨h1, h2, h3, h4, h5⟩ := he
    simp [isProductEdgeB2B, h3]
  have hkeyM : ∀ e : GEdge,
      edgeHasKey e ⟨"VendorUser", u.id, "BELONGS_TO_VENDOR", "Vendor", u.vendor_id⟩ →
      isMatchEdgeB2B u.id e = false := by
    intro e he
    obtain ⟨h1, h2, h3, h4, h5⟩ := he
    simp [isMatchEdgeB2B, h3]
  rw [b2bEdgeSync_eq u pr ms es0]
  have hlook : lookupEdge
      (clearMatchEdgesB2B u.id (clearProductEdgesB2B u.id
        (mergeEdge es0
          ⟨"VendorUser", u.id, "BELONGS_TO_VENDOR", "Vendor", u.vendor_id⟩
          (fun ps => ps)))
        ++ pr.foldl (fun es p => productEdgesB2B u.id p es) []
        ++ ms.foldl (fun es m => matchEdges u.id m es) [])
      ⟨"VendorUser", u.id, "BELONGS_TO_VENDOR", "Vendor", u.vendor_id⟩
      = some ((lookupEdge es0
          ⟨"VendorUser", u.id, "BELONGS_TO_VENDOR", "Vendor", u.vendor_id⟩).getD []) := by
    rw [show clearMatchEdgesB2B u.id (clearProductEdgesB2B u.id
          (mergeEdge es0
            ⟨"VendorUser", u.id, "BELONGS_TO_VENDOR", "Vendor", u.vendor_id⟩
            (fun ps => ps)))
          ++ pr.foldl (fun es p => productEdgesB2B u.id p es) []
          ++ ms.foldl (fun es m => matchEdges u.id m es) []
        = b2bEdgeSync u pr ms es0 from (b2bEdgeSync_eq u pr ms es0).symm]
    unfold b2bEdgeSync
    rw [foldl_build_lookupEdge (fun m es => matchEdges u.id m es) _
          (fun m es => matchEdges_lookupEdge u.id m es _
            (show ("BELONGS_TO_VENDOR" : String) ≠ "APPROVED_MATCH" by decide)
            (show ("BELONGS_TO_VENDOR" : String) ≠ "REJECTED_MATCH" by decide)) ms,
        lookupEdge_clearMatchEdgesB2B u.id _ _ hkeyM,
        foldl_build_lookupEdge (fun p es => productEdgesB2B u.id p es) _
          (fun p es => productEdgesB2B_lookupEdge u.id p es _
            (show ("BELONGS_TO_VENDOR" : String) ≠ "VIEWED_PRODUCT" by decide)) pr,
        lookupEdge_clearProductEdgesB2B u.id _ _ hkeyP,
        lookupEdge_mergeEdge_self]
  rw [b2bEdgeSync_eq u pr ms _]
  rw [mergeEdge_found_id _ _ _ hlook]
  rw [clearProductEdgesB2B_append, clearProductEdgesB2B_append]
  rw [clearProductEdgesB2B_of_false _ _ (fun e he => (hC e he).2)]
  rw [clearProductEdgesB2B_of_true _ _ hBP]
  rw [clearProductEdgesB2B_of_false _ _
    (fun e he => match_not_product_b2b u.id e (hBM e he))]
  rw [List.append_nil]
  rw [clearMatchEdgesB2B_append]
  rw [clearMatchEdgesB2B_of_false _ _ (fun e he => (hC e he).1)]
  rw [clearMatchEdgesB2B_of_true _ _ hBM]
  rw [List.append_nil]

/-- Idempotency of the B2B replace-and-rebuild upsert. -/
theorem upsert_b2b_idem (g : Graph) (u : B2BUserRow) (pr : List B2BProductRec)
    (ms : List MatchRec) :
    upsert_cypher_apply_b2b (upsert_cypher_apply_b2b g u pr ms) u pr ms
      = upsert_cypher_apply_b2b g u pr ms := by
  rw [upsert_b2b_split g u pr ms, upsert_b2b_split _ u pr ms]
  show Graph.mk _ _ = Graph.mk _ _
  rw [b2bNodeSync_idem, b2bEdgeSync_idem]

theorem filter_idem {α : Type} (p : α → Bool) (l : List α) :
    (l.filter p).filter p = l.filter p := by
  rw [List.filter_eq_self]
  intro a ha
  exact List.of_mem_filter ha

theorem handle_event_b2c_idem (src : B2CSource) (g : Graph) (e : OutboxEvent) :
    handle_event_b2c src (handle_event_b2c src g e) e = handle_event_b2c src g e := by
  unfold handle_event_b2c
  cases hu : src.users e.aggregate_id with
  | none =>
      by_cases hop : pyUpper e.op = "DELETE"
      · simp only [if_pos hop]
        unfold delete_cypher_apply_b2c
        simp [filter_idem]
      · simp only [if_neg hop]
  | some user => exact upsert_b2c_idem g user _ _

theorem handle_event_b2b_idem (src : B2BSource) (g : Graph) (e : OutboxEvent) :
    handle_event_b2b src (handle_event_b2b src g e) e = handle_event_b2b src g e := by
  unfold handle_event_b2b
  cases hu : src.vendor_users e.aggregate_id with
  | none =>
      by_cases hop : pyUpper e.op = "DELETE"
      · simp only [if_pos hop]
        unfold delete_cypher_apply_b2b
        simp [filter_idem]
      · simp only [if_neg hop]
  | some user => exact upsert_b2b_idem g user _ _

/-- C5: Sync idempotency.  Applying the replace-and-rebuild upsert mutation
twice in a row with the same subject attributes and aggregate collections
yields exactly the graph of a single application — no duplicate edges and
no changed properties — because all managed edges are deleted before the
new set is written; consequently reprocessing the same event twice against
unchanged source data converges to the same final graph. -/
theorem sync_idempotency (g : Graph) (u : B2CUserRow) (rs : List RecipeRec)
    (pr : List ProductRec) (v : B2BUserRow) (bp : List B2BProductRec)
    (ms : List MatchRec) (bsrc : B2CSource) (vsrc : B2BSource) (e : OutboxEvent) :
    upsert_cypher_apply_b2c (upsert_cypher_apply_b2c g u rs pr) u rs pr
      = upsert_cypher_apply_b2c g u rs pr
    ∧ upsert_cypher_apply_b2b (upsert_cypher_apply_b2b g v bp ms) v bp ms
      = upsert_cypher_apply_b2b g v bp ms
    ∧ handle_event_b2c bsrc (handle_event_b2c bsrc g e) e = handle_event_b2c bsrc g e
    ∧ handle_event_b2b vsrc (handle_event_b2b vsrc g e) e = handle_event_b2b vsrc g e :=
  ⟨upsert_b2c_idem g u rs pr, upsert_b2b_idem g v bp ms,
   handle_event_b2c_idem bsrc g e, handle_event_b2b_idem vsrc g e⟩
